import Mathlib

/-!
# piv: X25519 key handles of the PIV engine

A shallow embedding of `v2/piv/key_go120.go` (the X25519 private-key handle, its
constructor, the import parameters, the public-key decoder and the key-agreement
exchange) together with the parts of the package it calls, and of the operations of
the package that its tests exercise (slots, the PIN callback, the import of keys,
Ed25519 signatures, certificate objects, attestation), modelled from the specification
where their source is outside the files embedded here.

Conventions.
* A Go `[]byte` is a `List Nat`; every octet the code writes is reduced modulo 256
  where Go converts with `byte(...)`.
* A Go `(value, error)` result is an `Except Error value`; `nil, err` is `.error err`.
* The card session (`*scTx`, `*YubiKey`) is mutable in Go; here it is passed explicitly
  and returned next to the result.
-/

namespace piv

/-! ## Data model -/

/-- A Go byte slice. -/
abbrev Bytes := List Nat

/-- The curves of `crypto/ecdh`. -/
inductive Curve where
  | X25519
  | P256
  | P384
  | P521
deriving DecidableEq, Repr

/-- The error values the embedded code can return.  A constructor with a `cause`
stands for a `fmt.Errorf` call whose format string embeds another error; whether the
cause stays reachable through `errors.Unwrap` depends on the verb (`%w` or `%v`) and is
recorded by `Error.Unwrap`. -/
inductive Error where
  /-- The sentinel `errMismatchingAlgorithms`. -/
  | errMismatchingAlgorithms
  /-- The error `fmt.Errorf("unsupported ecdh curve: %v", crv)`. -/
  | unsupportedEcdhCurve (crv : Curve)
  /-- The error `fmt.Errorf("unsupported public key type: %T", public)`. -/
  | unsupportedPublicKeyType (goType : String)
  /-- The error `fmt.Errorf("unsupported private key type: %T", private)`. -/
  | unsupportedPrivateKeyType (goType : String)
  /-- The error `fmt.Errorf("unmarshal points: %v", err)`. -/
  | unmarshalPoints (cause : Error)
  /-- The error `fmt.Errorf("command failed: %w", err)`. -/
  | commandFailed (cause : Error)
  /-- The error `fmt.Errorf("unmarshal response: %v", err)`. -/
  | unmarshalResponse (cause : Error)
  /-- The error `fmt.Errorf("unmarshal response signature: %v", err)`. -/
  | unmarshalResponseSignature (cause : Error)
  /-- The error of `crypto/ecdh`: "crypto/ecdh: invalid public key". -/
  | invalidPublicKey
  /-- A decode error of the TLV codec: the input ended early. -/
  | decodeTruncated
  /-- A decode error of the TLV codec: a length that is not DER (indefinite, or not
  minimal). -/
  | decodeLength
  /-- A decode error of the TLV codec: an identifier octet in the multi-octet form. -/
  | decodeIdentifier
  /-- A decode error of the TLV codec: the class and tag read are not the expected
  ones. -/
  | unexpectedTag (cls tag : Nat)
  /-- A status word other than success, reported by the transport. -/
  | statusWord (sw : Nat)
  /-- The PIN callback failed: "pin prompt: %v". -/
  | pinPrompt (cause : Error)
  /-- A PIN is required by the policy and none was provided. -/
  | pinRequired
  /-- The VERIFY command failed: "verify pin: %w". -/
  | verifyPin (cause : Error)
  /-- Any other error value, such as one made by the caller with `errors.New`. -/
  | other (msg : String)
  /-- The sentinel `errUnsupportedKeySize`. -/
  | errUnsupportedKeySize
  /-- The error value `unsupportedCurveError{curve: b}`. -/
  | unsupportedCurveError (curve : Nat)
  /-- The sentinel `ErrNotFound`. -/
  | ErrNotFound
  /-- An operation the card does not expose was asked for (UnsupportedOperation). -/
  | unsupportedOperation
  /-- The authentication with the management key failed: "authenticating with management
  key: %w". -/
  | authenticating (cause : Error)
  /-- A certificate object read from the card could not be decoded. -/
  | certificateDecode (cause : Error)
  /-- The standard library could not parse a certificate. -/
  | parseCertificate
  /-- An attestation failure: a signature of the chain does not check (ChainInvalid). -/
  | chainInvalid
  /-- An attestation failure: neither trusted root has issued the device certificate
  (UnknownIssuer). -/
  | unknownIssuer
  /-- An attestation failure: a required extension is absent or malformed
  (MalformedExtension). -/
  | malformedExtension
deriving DecidableEq, Repr

/-- The error directly wrapped by an error (`errors.Unwrap`): only the `%w` verb keeps
the cause. -/
def Error.Unwrap : Error → Option Error
  | .commandFailed cause => some cause
  | .verifyPin cause => some cause
  | .authenticating cause => some cause
  | _ => none

/-- The chain test `errors.Is(err, target)`: `err` or an error it wraps, at any depth,
equals `target`. -/
def errorsIs (err target : Error) : Bool :=
  if err = target then true
  else
    match err with
    | .commandFailed cause => errorsIs cause target
    | .verifyPin cause => errorsIs cause target
    | .authenticating cause => errorsIs cause target
    | _ => false

/-- A key container: `Slot{Key, Object}` as the tests build it, both `uint32`. -/
structure Slot where
  Key : Nat
  Object : Nat
deriving DecidableEq, Repr

/-- The type `PINPolicy`. -/
inductive PINPolicy where
  | Never
  | Once
  | Always
deriving DecidableEq, Repr

end piv

namespace piv.ecdh

/-- A public key of `crypto/ecdh`: its curve and its encoding. -/
structure PublicKey where
  curve : Curve
  publicKey : Bytes
deriving DecidableEq, Repr

/-- The method `(*ecdh.PublicKey).Curve`. -/
def PublicKey.Curve (k : PublicKey) : piv.Curve := k.curve

/-- The method `(*ecdh.PublicKey).Bytes`. -/
def PublicKey.Bytes (k : PublicKey) : piv.Bytes := k.publicKey

/-- A private key of `crypto/ecdh`: its curve and its encoding (for X25519 the seed). -/
structure PrivateKey where
  curve : Curve
  privateKey : Bytes
deriving DecidableEq, Repr

/-- The method `(*ecdh.PrivateKey).Curve`. -/
def PrivateKey.Curve (k : PrivateKey) : piv.Curve := k.curve

/-- The method `(*ecdh.PrivateKey).Bytes`. -/
def PrivateKey.Bytes (k : PrivateKey) : piv.Bytes := k.privateKey

/-- The size of an X25519 public key, `x25519PublicKeySize`. -/
def x25519PublicKeySize : Nat := 32

/-- The call `ecdh.X25519().NewPublicKey(key)` of the Go standard library: it accepts
exactly the keys of 32 bytes and keeps a copy of them. -/
def X25519NewPublicKey (key : Bytes) : Except Error PublicKey :=
  if key.length ≠ x25519PublicKeySize then .error .invalidPublicKey
  else .ok { curve := .X25519, publicKey := key }

end piv.ecdh

namespace piv

/-! ## TLV codec -/

/-- The big-endian base-256 digits of `n`, most significant first, prepended to `acc`;
`fuel` bounds the number of digits produced. -/
def lengthDigitsAux : Nat → Nat → Bytes → Bytes
  | 0, _, acc => acc
  | fuel + 1, n, acc =>
    if n = 0 then acc else lengthDigitsAux fuel (n / 256) (n % 256 :: acc)

/-- The big-endian base-256 digits of `n` without leading zeros. -/
def lengthDigits (n : Nat) : Bytes := lengthDigitsAux n n []

/-- Modelled from the spec: the length octets written by `marshalASN1`, whose source
(`key.go`) is not among the files embedded here.  The spec (4.1) gives a DER-style length:
short form up to 127, long form with a length-of-length prefix otherwise. -/
def marshalASN1Length (n : Nat) : Bytes :=
  if n < 0x80 then [n]
  else (0x80 + (lengthDigits n).length) :: lengthDigits n

/-- Modelled from the spec: `marshalASN1(tag, data)`, whose source (`key.go`) is not
among the files embedded here.  The spec (4.1): tag, then DER-style length, then value. -/
def marshalASN1 (tag : Nat) (data : Bytes) : Bytes :=
  tag :: (marshalASN1Length data.length ++ data)

/-- The value of big-endian base-256 digits. -/
def lengthValue (ds : Bytes) : Nat := ds.foldl (fun acc d => acc * 256 + d) 0

/-- Modelled from the spec: the length reader of `unmarshalASN1`; it returns the
declared length and the bytes after the length octets.  A DER-style length (spec 4.1):
one octet below 0x80, or 0x80 + k followed by k octets that hold the length without a
leading zero and only when it does not fit the short form. -/
def parseLength : Bytes → Except Error (Nat × Bytes)
  | [] => .error .decodeTruncated
  | b :: rest =>
    if b < 0x80 then .ok (b, rest)
    else if b = 0x80 then .error .decodeLength
    else if rest.length < b - 0x80 then .error .decodeTruncated
    else if (rest.take (b - 0x80)).head? = some 0 then .error .decodeLength
    else if lengthValue (rest.take (b - 0x80)) < 0x80 then .error .decodeLength
    else .ok (lengthValue (rest.take (b - 0x80)), rest.drop (b - 0x80))

/-- Modelled from the spec: `unmarshalASN1(b, class, tag)`, whose source (`key.go`) is
not among the files embedded here.  The spec (4.1): it returns `(value, rest)` and fails with
a decode error if the input is truncated, the tag does not match, or the declared
length exceeds the remaining bytes.  The two arguments are the class (the two high bits
of the identifier octet) and the tag number (its five low bits), as the call sites of
`key_go120.go` show: `(1, 0x1c)` is commented `0x7c` and `(2, 0x02)` is commented
`0x82`.  The bit 0x20 (constructed) belongs to neither argument: it is set in 0x7c and
clear in 0x82, so it takes no part in the comparison. -/
def unmarshalASN1 (b : Bytes) (cls tag : Nat) : Except Error (Bytes × Bytes) :=
  match b with
  | [] => .error .decodeTruncated
  | ident :: afterIdent =>
    if ident % 32 = 31 then .error .decodeIdentifier
    else
      match parseLength afterIdent with
      | .error err => .error err
      | .ok (n, body) =>
        if body.length < n then .error .decodeTruncated
        else if ident / 64 ≠ cls ∨ ident % 32 ≠ tag then
          .error (.unexpectedTag (ident / 64) (ident % 32))
        else .ok (body.take n, body.drop n)

/-! ## Transport -/

/-- A command: `apdu{instruction, param1, param2, data}`. -/
structure apdu where
  instruction : Nat
  param1 : Nat
  param2 : Nat
  data : Bytes
deriving DecidableEq, Repr

/-- Modelled from the spec: the instruction byte `insAuthenticate` (GENERAL
AUTHENTICATE of NIST SP 800-73-4), declared outside the files embedded here. -/
def insAuthenticate : Nat := 0x87

/-- Modelled from the spec: the instruction byte `insVerify` (VERIFY of NIST SP
800-73-4), declared outside the files embedded here. -/
def insVerify : Nat := 0x20

/-- Modelled from the spec: the algorithm byte `algX25519`, declared outside the files
embedded here; the spec (3) requires every algorithm byte to be unique. -/
def algX25519 : Nat := 0xe1

/-- Modelled from the spec: the algorithm byte `algECCP256`, declared outside the files
embedded here. -/
def algECCP256 : Nat := 0x11

/-- Modelled from the spec: the algorithm byte `algECCP384`, declared outside the files
embedded here. -/
def algECCP384 : Nat := 0x14

/-- The transaction `*scTx`.  The card and the reader are outside the engine (spec 1):
`card` gives the answer of the transport to the last command of a history of commands,
and `sent` is the history so far. -/
structure scTx where
  card : List apdu → Except Error Bytes
  sent : List apdu

/-- Modelled from the spec: `(*scTx).Transmit(cmd)` (spec 4.2, 6), whose source is not
among the files embedded here: one command goes to the card and its response body or a typed
error comes back. -/
def scTx.Transmit (tx : scTx) (cmd : apdu) : Except Error Bytes × scTx :=
  (tx.card (tx.sent ++ [cmd]), { tx with sent := tx.sent ++ [cmd] })

/-! ## Keys as the `crypto` interfaces carry them -/

/-- The dynamic types a `crypto.PublicKey` value can have. -/
inductive CryptoPublicKey where
  /-- A `*ecdh.PublicKey`. -/
  | ecdhPublicKey (k : ecdh.PublicKey)
  /-- A `*ecdsa.PublicKey`: the bit size of its curve and its point. -/
  | ecdsaPublicKey (bitSize x y : Nat)
  /-- An `ed25519.PublicKey`. -/
  | ed25519PublicKey (k : Bytes)
  /-- A `*rsa.PublicKey`. -/
  | rsaPublicKey (n e : Nat)
  /-- The nil interface value. -/
  | nilKey
deriving DecidableEq, Repr

/-- The text the verb `%T` prints for a public key. -/
def CryptoPublicKey.goType : CryptoPublicKey → String
  | .ecdhPublicKey _ => "*ecdh.PublicKey"
  | .ecdsaPublicKey _ _ _ => "*ecdsa.PublicKey"
  | .ed25519PublicKey _ => "ed25519.PublicKey"
  | .rsaPublicKey _ _ => "*rsa.PublicKey"
  | .nilKey => "<nil>"

/-- The authorization context `KeyAuth`, with the fields the tests set: a PIN (empty
when absent), a PIN callback (its argument is the number of earlier invocations), and a
PIN policy (absent for the zero value). -/
structure KeyAuth where
  PIN : Bytes
  PINPrompt : Option (Nat → Except Error Bytes)
  PINPolicy : Option PINPolicy

/-- The session `*YubiKey` as the handles use it: the transaction, and the state of the
authorization gate (spec 4.5): whether the PIN was verified in this session.  `prompts`
counts the invocations of PIN callbacks, their only effect seen from outside. -/
structure YubiKey where
  tx : scTx
  pinVerified : Bool
  prompts : Nat

/-- Modelled from the spec: the VERIFY command that submits a PIN (spec 4.5; NIST SP
800-73-4: reference 0x80, the PIN padded with 0xff to eight bytes); its source is not
among the files embedded here. -/
def verifyCommand (pin : Bytes) : apdu :=
  { instruction := insVerify
    param1 := 0
    param2 := 0x80
    data := pin ++ List.replicate (8 - pin.length) 0xff }

/-- Modelled from the spec: how the gate obtains the PIN: the PIN of the context when
it has one (the tests build `KeyAuth{PIN: DefaultPIN}`), else the PIN callback, invoked
once (spec 4.5, 6); the source is not among the files embedded here. -/
def KeyAuth.getPIN (k : KeyAuth) (yk : YubiKey) : Except Error Bytes × YubiKey :=
  if k.PIN ≠ [] then (.ok k.PIN, yk)
  else
    match k.PINPrompt with
    | none => (.ok [], yk)
    | some prompt =>
      match prompt yk.prompts with
      | .error err => (.error (.pinPrompt err), { yk with prompts := yk.prompts + 1 })
      | .ok pin => (.ok pin, { yk with prompts := yk.prompts + 1 })

/-- Modelled from the spec: the authorization gate (spec 4.5), whose source is not
among the files embedded here.  Policy Never skips PIN entry; policy Once skips it when the
PIN was verified in this session; otherwise the PIN is obtained and submitted with
VERIFY, and a failure of either ends the operation. -/
def KeyAuth.authTx (k : KeyAuth) (yk : YubiKey) (pp : piv.PINPolicy) :
    Except Error Unit × YubiKey :=
  if pp = .Never then (.ok (), yk)
  else if pp ≠ .Always ∧ yk.pinVerified = true then (.ok (), yk)
  else
    match k.getPIN yk with
    | (.error err, yk1) => (.error err, yk1)
    | (.ok pin, yk1) =>
      if pin = [] then (.error .pinRequired, yk1)
      else
        match yk1.tx.Transmit (verifyCommand pin) with
        | (.error err, tx1) => (.error (.verifyPin err), { yk1 with tx := tx1 })
        | (.ok _, tx1) => (.ok (), { yk1 with tx := tx1, pinVerified := true })

/-- Modelled from the spec: `KeyAuth.do(yk, pp, f)`, whose source is not among the
files embedded here (`do` is a keyword here, hence the underscore).  Every operation first
passes through the authorization gate (spec 4.4, 4.5); when the gate lets it through,
the operation `f` runs on the transaction of the session. -/
def KeyAuth.do_ (k : KeyAuth) (yk : YubiKey) (pp : piv.PINPolicy)
    (f : scTx → Except Error Bytes × scTx) : Except Error Bytes × YubiKey :=
  match k.authTx yk pp with
  | (.error err, yk1) => (.error err, yk1)
  | (.ok _, yk1) => ((f yk1.tx).1, { yk1 with tx := (f yk1.tx).2 })

/-! ## `key_go120.go` -/

/-- The type `X25519PrivateKey`.  The field `yk` of the Go struct is a pointer to the
session; the session is passed explicitly to the operations instead. -/
structure X25519PrivateKey where
  slot : Slot
  pub : ecdh.PublicKey
  auth : KeyAuth
  pp : PINPolicy

/-- The dynamic types a `crypto.PrivateKey` value can have. -/
inductive CryptoPrivateKey where
  /-- A `*ecdh.PrivateKey`. -/
  | ecdhPrivateKey (k : ecdh.PrivateKey)
  /-- A `*ecdsa.PrivateKey`: the bit size of its curve and its scalar. -/
  | ecdsaPrivateKey (bitSize d : Nat)
  /-- An `ed25519.PrivateKey`. -/
  | ed25519PrivateKey (k : Bytes)
  /-- A `*rsa.PrivateKey`. -/
  | rsaPrivateKey (n e d : Nat)
  /-- A `*X25519PrivateKey`, the handle of an on-card key. -/
  | x25519Handle (k : X25519PrivateKey)
  /-- The nil interface value. -/
  | nilKey

/-- The text the verb `%T` prints for a private key. -/
def CryptoPrivateKey.goType : CryptoPrivateKey → String
  | .ecdhPrivateKey _ => "*ecdh.PrivateKey"
  | .ecdsaPrivateKey _ _ => "*ecdsa.PrivateKey"
  | .ed25519PrivateKey _ => "ed25519.PrivateKey"
  | .rsaPrivateKey _ _ _ => "*rsa.PrivateKey"
  | .x25519Handle _ => "*piv.X25519PrivateKey"
  | .nilKey => "<nil>"

/-- The method `(*X25519PrivateKey).Public`. -/
def X25519PrivateKey.Public (k : X25519PrivateKey) : CryptoPublicKey :=
  .ecdhPublicKey k.pub



/-- The function `ykECDHX25519(tx, slot, pub, peer)`. -/
def ykECDHX25519 (tx : scTx) (slot : Slot) (pub peer : ecdh.PublicKey) :
    Except Error Bytes × scTx :=
  if pub.Curve ≠ Curve.X25519 then (.error (.unsupportedEcdhCurve pub.Curve), tx)
  else if pub.Curve ≠ peer.Curve then (.error .errMismatchingAlgorithms, tx)
  else
    match tx.Transmit
      { instruction := insAuthenticate
        param1 := algX25519
        param2 := slot.Key % 256
        data := marshalASN1 0x7c ([0x82, 0x00] ++ marshalASN1 0x85 peer.Bytes) } with
    | (.error err, tx1) => (.error (.commandFailed err), tx1)
    | (.ok resp, tx1) =>
      match unmarshalASN1 resp 1 0x1c with
      | .error err => (.error (.unmarshalResponse err), tx1)
      | .ok (sig, _) =>
        match unmarshalASN1 sig 2 0x02 with
        | .error err => (.error (.unmarshalResponseSignature err), tx1)
        | .ok (sharedSecret, _) => (.ok sharedSecret, tx1)

/-- The function `decodeX25519Public(b)`. -/
def decodeX25519Public (b : Bytes) : Except Error ecdh.PublicKey :=
  match unmarshalASN1 b 2 0x06 with
  | .error err => .error (.unmarshalPoints err)
  | .ok (p, _) => ecdh.X25519NewPublicKey p

/-- The method `(*X25519PrivateKey).SharedKey(peer)`, run on the session `yk` the handle
points to. -/
def X25519PrivateKey.SharedKey (k : X25519PrivateKey) (yk : YubiKey)
    (peer : ecdh.PublicKey) : Except Error Bytes × YubiKey :=
  k.auth.do_ yk k.pp (fun tx => ykECDHX25519 tx k.slot k.pub peer)

/-- The method `(*YubiKey).tryX25519PrivateKey(slot, public, auth, pp)`; it does not
read the session. -/
def tryX25519PrivateKey (slot : Slot) (public : CryptoPublicKey) (auth : KeyAuth)
    (pp : PINPolicy) : Except Error CryptoPrivateKey :=
  match public with
  | .ecdhPublicKey pub =>
    if pub.Curve ≠ Curve.X25519 then .error (.unsupportedEcdhCurve pub.Curve)
    else .ok (.x25519Handle { slot := slot, pub := pub, auth := auth, pp := pp })
  | other => .error (.unsupportedPublicKeyType other.goType)

/-- The method `(*YubiKey).tryX22519PrivateKeyInsecure(private)`; it does not read the
session.  The result is the list of import parameters, the parameter tag and the
element length. -/
def tryX22519PrivateKeyInsecure (priv : CryptoPrivateKey) :
    Except Error (List Bytes × Nat × Nat) :=
  match priv with
  | .ecdhPrivateKey k =>
    if k.Curve ≠ Curve.X25519 then .error (.unsupportedEcdhCurve k.Curve)
    else .ok ([] ++ [k.Bytes], 0x08, 32)
  | other => .error (.unsupportedPrivateKeyType other.goType)

/-- The command that `ykECDHX25519` builds for a slot and the bytes of a peer point
(the struct literal `apdu{...}` of the function, on its own). -/
def keyAgreementCommand (slot : Slot) (point : Bytes) : apdu :=
  { instruction := insAuthenticate
    param1 := algX25519
    param2 := slot.Key % 256
    data := marshalASN1 0x7c ([0x82, 0x00] ++ marshalASN1 0x85 point) }

/-- The decoding of a response by `ykECDHX25519` (the part of the function after
`tx.Transmit` has succeeded), on its own. -/
def decodeSharedSecret (resp : Bytes) : Except Error Bytes :=
  match unmarshalASN1 resp 1 0x1c with
  | .error err => .error (.unmarshalResponse err)
  | .ok (sig, _) =>
    match unmarshalASN1 sig 2 0x02 with
    | .error err => .error (.unmarshalResponseSignature err)
    | .ok (sharedSecret, _) => .ok sharedSecret

/-! ## Key agreement on both sides

The scalar multiplication of the curve is a parameter `mult scalar point` of what
follows, with `base` the encoding of the base point: the arithmetic of the curves is
neither part of the package nor embedded here. -/

/-- The method `(*ecdh.PrivateKey).PublicKey` of the Go standard library: the public key
is the scalar multiple of the base point. -/
def ecdh.PrivateKey.PublicKey (mult : piv.Bytes → piv.Bytes → piv.Bytes) (base : piv.Bytes)
    (k : piv.ecdh.PrivateKey) : piv.ecdh.PublicKey :=
  { curve := k.curve, publicKey := mult k.privateKey base }

/-- The method `(*ecdh.PrivateKey).ECDH(remote)` of the Go standard library, the
computation a peer makes off the card: both keys must be on one curve, and the secret
is the scalar multiple of the remote point. -/
def ecdh.PrivateKey.ECDH (mult : piv.Bytes → piv.Bytes → piv.Bytes)
    (k : piv.ecdh.PrivateKey) (remote : piv.ecdh.PublicKey) : Except Error piv.Bytes :=
  if k.curve ≠ remote.curve then
    .error (.other "crypto/ecdh: private key and public key curves do not match")
  else .ok (mult k.privateKey remote.publicKey)

/-- Modelled from the spec: the answer of a card that holds the private key `secret` to
a key-agreement command (spec 4.4 and 6, after NIST SP 800-73-4): the card reads the
template 0x7C of the command, skips the response placeholder 0x82, takes the point
under 0x85, and answers the template 0x7C holding under 0x82 the raw shared secret, the
scalar multiple of that point.  The card is outside the engine. -/
def cardKeyAgreement (mult : Bytes → Bytes → Bytes) (secret : Bytes) (cmd : apdu) :
    Except Error Bytes :=
  match unmarshalASN1 cmd.data 1 0x1c with
  | .error _ => .error (.statusWord 0x6a80)
  | .ok (template, _) =>
    match unmarshalASN1 template 2 0x02 with
    | .error _ => .error (.statusWord 0x6a80)
    | .ok (_, afterPlaceholder) =>
      match unmarshalASN1 afterPlaceholder 2 0x05 with
      | .error _ => .error (.statusWord 0x6a80)
      | .ok (point, _) => .ok (marshalASN1 0x7c (marshalASN1 0x82 (mult secret point)))

/-- Modelled from the spec: a card holds the private key `secret` for the algorithm
byte `alg` in the slot with key reference `slotByte` when it answers every AUTHENTICATE
command for that algorithm and slot, whatever was sent before, as `cardKeyAgreement`
does. -/
def CardHoldsKey (card : List apdu → Except Error Bytes) (mult : Bytes → Bytes → Bytes)
    (secret : Bytes) (alg slotByte : Nat) : Prop :=
  ∀ (history : List apdu) (cmd : apdu),
    cmd.instruction = insAuthenticate → cmd.param1 = alg → cmd.param2 = slotByte →
    card (history ++ [cmd]) = cardKeyAgreement mult secret cmd

/-- A card that holds the private key `secret` in every slot and accepts every other
command: it answers the last command of the history. -/
def keyCard (mult : Bytes → Bytes → Bytes) (secret : Bytes) :
    List apdu → Except Error Bytes :=
  fun history =>
    match history.getLast? with
    | none => .error (.statusWord 0x6f00)
    | some cmd =>
      if cmd.instruction = insAuthenticate then cardKeyAgreement mult secret cmd
      else .ok []

/-- Modelled from the spec: the handle `ECDSAPrivateKey` of an on-card EC key, whose
source (`key.go`) is not among the files embedded here; it owns the slot reference, the cached
public key (here in its `crypto/ecdh` form: the curve and the uncompressed point), the
authorization context and the PIN policy (spec 3). -/
structure ECDSAPrivateKey where
  slot : Slot
  pub : ecdh.PublicKey
  auth : KeyAuth
  pp : PINPolicy

/-- Modelled from the spec: the exchange with the card for an EC key (spec 4.4, 6),
whose source is not among the files embedded here: the algorithm byte selects the curve, the
point of the peer goes out under 0x85 in the template 0x7C after the response
placeholder, and the raw shared secret comes back under 0x82 in the template 0x7C. -/
def ykECDH (tx : scTx) (slot : Slot) (pub peer : ecdh.PublicKey) :
    Except Error Bytes × scTx :=
  match (match pub.Curve with
    | .P256 => some algECCP256
    | .P384 => some algECCP384
    | _ => none) with
  | none => (.error (.unsupportedEcdhCurve pub.Curve), tx)
  | some alg =>
    match tx.Transmit
      { instruction := insAuthenticate
        param1 := alg
        param2 := slot.Key % 256
        data := marshalASN1 0x7c ([0x82, 0x00] ++ marshalASN1 0x85 peer.Bytes) } with
    | (.error err, tx1) => (.error (.commandFailed err), tx1)
    | (.ok resp, tx1) => (decodeSharedSecret resp, tx1)

/-- Modelled from the spec: `(*ECDSAPrivateKey).ECDH(peer)` (spec 4.4), whose source is
not among the files embedded here: the curve of the peer must equal the curve of the slot,
else the operation fails with MismatchingAlgorithms before any card round-trip; then
the operation passes through the authorization gate. -/
def ECDSAPrivateKey.ECDH (k : ECDSAPrivateKey) (yk : YubiKey) (peer : ecdh.PublicKey) :
    Except Error Bytes × YubiKey :=
  if k.pub.Curve ≠ peer.Curve then (.error .errMismatchingAlgorithms, yk)
  else k.auth.do_ yk k.pp (fun tx => ykECDH tx k.slot k.pub peer)

/-! ## Slots -/

/-- Modelled from the spec: the table `retiredKeyManagementSlots`, declared outside the
files embedded here (the test `TestParseSlot` indexes it by key reference).  The spec
(3) has 20 retired slots, addressed by the key references 0x82 to 0x95, each with its
object tag; the tags are those of NIST SP 800-73-4, of which the test
`TestRetiredKeyManagementSlot` pins the first, 0x5fc10d, and the last, 0x5fc120. -/
def retiredKeyManagementSlots : List (Nat × Slot) :=
  [(0x82, { Key := 0x82, Object := 0x5fc10d }),
   (0x83, { Key := 0x83, Object := 0x5fc10e }),
   (0x84, { Key := 0x84, Object := 0x5fc10f }),
   (0x85, { Key := 0x85, Object := 0x5fc110 }),
   (0x86, { Key := 0x86, Object := 0x5fc111 }),
   (0x87, { Key := 0x87, Object := 0x5fc112 }),
   (0x88, { Key := 0x88, Object := 0x5fc113 }),
   (0x89, { Key := 0x89, Object := 0x5fc114 }),
   (0x8a, { Key := 0x8a, Object := 0x5fc115 }),
   (0x8b, { Key := 0x8b, Object := 0x5fc116 }),
   (0x8c, { Key := 0x8c, Object := 0x5fc117 }),
   (0x8d, { Key := 0x8d, Object := 0x5fc118 }),
   (0x8e, { Key := 0x8e, Object := 0x5fc119 }),
   (0x8f, { Key := 0x8f, Object := 0x5fc11a }),
   (0x90, { Key := 0x90, Object := 0x5fc11b }),
   (0x91, { Key := 0x91, Object := 0x5fc11c }),
   (0x92, { Key := 0x92, Object := 0x5fc11d }),
   (0x93, { Key := 0x93, Object := 0x5fc11e }),
   (0x94, { Key := 0x94, Object := 0x5fc11f }),
   (0x95, { Key := 0x95, Object := 0x5fc120 })]

/-- Modelled from the spec: `RetiredKeyManagementSlot(key)`, whose source is not among
the files embedded here: the lookup of a retired slot by its key reference, total, with
the zero value `Slot{}` and `false` for a key reference that is not in the table (spec
3, 8). -/
def RetiredKeyManagementSlot (key : Nat) : Slot × Bool :=
  match retiredKeyManagementSlots.lookup key with
  | some slot => (slot, true)
  | none => ({ Key := 0, Object := 0 }, false)

/-! ## Consecutive operations -/

/-- Operations of one handle run one after the other in one session, each through
`KeyAuth.do_`, as the test `TestPINPrompt` runs two `Sign` calls: the results in order,
and the session after the last one. -/
def KeyAuth.doEach (k : KeyAuth) (pp : piv.PINPolicy) :
    YubiKey → List (scTx → Except Error Bytes × scTx) → List (Except Error Bytes) × YubiKey
  | yk, [] => ([], yk)
  | yk, f :: fs =>
    ((k.do_ yk pp f).1 :: (KeyAuth.doEach k pp (k.do_ yk pp f).2 fs).1,
      (KeyAuth.doEach k pp (k.do_ yk pp f).2 fs).2)

/-- The number of invocations of the PIN callback that the spec (4.5, 8) gives for `n`
consecutive operations, by PIN policy: none for Never, one for each operation for
Always, and for Once one if the PIN is not yet verified in the session and there is an
operation at all. -/
def expectedPrompts (pp : PINPolicy) (verified : Bool) (n : Nat) : Nat :=
  match pp with
  | .Never => 0
  | .Always => n
  | .Once => if verified = true then 0 else min 1 n

/-! ## Import of key material -/

/-- The type `Algorithm` (spec 3). -/
inductive Algorithm where
  | RSA1024
  | RSA2048
  | RSA3072
  | RSA4096
  | EC256
  | EC384
  | Ed25519
  | X25519
deriving DecidableEq, Repr

/-- The type `TouchPolicy` (spec 3). -/
inductive TouchPolicy where
  | Never
  | Always
  | Cached
deriving DecidableEq, Repr

/-- The type `Key`, `Key{Algorithm, PINPolicy, TouchPolicy}` as the tests build it; the
tests of the import leave the algorithm out, which is `none` here. -/
structure Key where
  Algorithm : Option Algorithm
  PINPolicy : PINPolicy
  TouchPolicy : TouchPolicy
deriving DecidableEq, Repr

/-- The number of halvings that bring `n` to 0, with `fuel` as a bound on their
number. -/
def bitLenAux : Nat → Nat → Nat
  | 0, _ => 0
  | fuel + 1, n => if n = 0 then 0 else bitLenAux fuel (n / 2) + 1

/-- The method `(*big.Int).BitLen` of the Go standard library: the length of a number
in bits, 0 for 0. -/
def bitLen (n : Nat) : Nat := bitLenAux n n

/-- Modelled from the spec: the check of the key material at the head of
`SetPrivateKeyInsecure` (spec 4.3, 7), whose source is not among the files embedded
here: RSA keys of another size than 1024, 2048, 3072 or 4096 bits are rejected with
UnsupportedKeySize, EC keys on another curve than P-256 or P-384 with UnsupportedCurve,
the curve identified in the error, and a key that is neither RSA nor EC nor Ed25519 is
left to `tryX22519PrivateKeyInsecure`.  The result is the policy the key is stored
with: the algorithm of an RSA or EC key is the one of its size, since the tests import
such keys with a `Key` that names no algorithm. -/
def importPolicy (priv : CryptoPrivateKey) (policy : Key) : Except Error Key :=
  match priv with
  | .rsaPrivateKey n _ _ =>
    if bitLen n = 1024 then .ok { policy with Algorithm := some .RSA1024 }
    else if bitLen n = 2048 then .ok { policy with Algorithm := some .RSA2048 }
    else if bitLen n = 3072 then .ok { policy with Algorithm := some .RSA3072 }
    else if bitLen n = 4096 then .ok { policy with Algorithm := some .RSA4096 }
    else .error .errUnsupportedKeySize
  | .ecdsaPrivateKey bitSize _ =>
    if bitSize = 256 then .ok { policy with Algorithm := some .EC256 }
    else if bitSize = 384 then .ok { policy with Algorithm := some .EC384 }
    else .error (.unsupportedCurveError bitSize)
  | .ed25519PrivateKey _ => .ok policy
  | other =>
    match tryX22519PrivateKeyInsecure other with
    | .error err => .error err
    | .ok _ => .ok policy

/-- Modelled from the spec: `(*YubiKey).SetPrivateKeyInsecure(key, slot, private,
policy)` (spec 4.3, 7), whose source is not among the files embedded here.  The check
of the key material comes before any card call; then the management key must
authenticate before the card is changed; then the key is stored.  The exchange that
authenticates the management key and the command that stores the key are parameters:
the spec leaves their encodings open. -/
def SetPrivateKeyInsecure (authenticate : scTx → Bytes → Option Error × scTx)
    (storeKey : scTx → Slot → Key → CryptoPrivateKey → Option Error × scTx)
    (yk : YubiKey) (key : Bytes) (slot : Slot) (priv : CryptoPrivateKey) (policy : Key) :
    Option Error × YubiKey :=
  match importPolicy priv policy with
  | .error err => (some err, yk)
  | .ok checked =>
    match authenticate yk.tx key with
    | (some err, tx1) => (some (.authenticating err), { yk with tx := tx1 })
    | (none, tx1) =>
      ((storeKey tx1 slot checked priv).1,
        { yk with tx := (storeKey tx1 slot checked priv).2 })

/-! ## Ed25519 signatures

The signature scheme is a parameter of what follows, `sign secret message` and
`verify public message signature`: the arithmetic of Ed25519 is neither part of the
package nor embedded here. -/

/-- Modelled from the spec: the algorithm byte `algEd25519`, declared outside the files
embedded here. -/
def algEd25519 : Nat := 0xe0

/-- The options of a signature as `Sign` reads them from a `crypto.SignerOpts`: the hash
function `HashFunc()`, 0 for `crypto.Hash(0)`, and the context string of an
`*ed25519.Options`, empty for options of another type. -/
structure SignerOpts where
  hash : Nat
  context : String
deriving DecidableEq, Repr

/-- Modelled from the spec: the handle of an on-card Ed25519 key, whose source is not
among the files embedded here; it owns the slot reference, the cached public key, the
authorization context and the PIN policy (spec 3). -/
structure keyEd25519 where
  slot : Slot
  pub : Bytes
  auth : KeyAuth
  pp : PINPolicy

/-- Modelled from the spec: the exchange with the card for an Ed25519 signature (spec
4.4, 6), whose source is not among the files embedded here: a GENERAL AUTHENTICATE
command that carries the raw message under the challenge tag 0x81 in the template 0x7C,
after the response placeholder; the signature is decoded from the response, under 0x82
in the template 0x7C. -/
def ykSignEd25519 (tx : scTx) (slot : Slot) (message : Bytes) : Except Error Bytes × scTx :=
  match tx.Transmit
    { instruction := insAuthenticate
      param1 := algEd25519
      param2 := slot.Key % 256
      data := marshalASN1 0x7c ([0x82, 0x00] ++ marshalASN1 0x81 message) } with
  | (.error err, tx1) => (.error (.commandFailed err), tx1)
  | (.ok resp, tx1) => (decodeSharedSecret resp, tx1)

/-- Modelled from the spec: `Sign(rand, message, opts)` of an Ed25519 handle (spec 4.4,
7), whose source is not among the files embedded here: only the pure variant is
supported; a request for Ed25519ph (a hash function in the options) or for Ed25519ctx
(a context string) is rejected with UnsupportedOperation; a plain request passes through
the authorization gate and is signed by the card. -/
def keyEd25519.Sign (k : keyEd25519) (yk : YubiKey) (message : Bytes) (opts : SignerOpts) :
    Except Error Bytes × YubiKey :=
  if opts.hash ≠ 0 then (.error .unsupportedOperation, yk)
  else if opts.context ≠ "" then (.error .unsupportedOperation, yk)
  else k.auth.do_ yk k.pp (fun tx => ykSignEd25519 tx k.slot message)

/-- Modelled from the spec: the answer of a card that holds the private key `secret` to
a signature command (spec 4.4 and 6): the card reads the template 0x7C of the command,
skips the response placeholder 0x82, takes the message under 0x81, and answers the
template 0x7C holding the signature under 0x82.  The card is outside the engine. -/
def cardSignature (sign : Bytes → Bytes → Bytes) (secret : Bytes) (cmd : apdu) :
    Except Error Bytes :=
  match unmarshalASN1 cmd.data 1 0x1c with
  | .error _ => .error (.statusWord 0x6a80)
  | .ok (template, _) =>
    match unmarshalASN1 template 2 0x02 with
    | .error _ => .error (.statusWord 0x6a80)
    | .ok (_, afterPlaceholder) =>
      match unmarshalASN1 afterPlaceholder 2 0x01 with
      | .error _ => .error (.statusWord 0x6a80)
      | .ok (message, _) => .ok (marshalASN1 0x7c (marshalASN1 0x82 (sign secret message)))

/-- Modelled from the spec: a card holds the Ed25519 private key `secret` in the slot
with key reference `slotByte` when it answers every AUTHENTICATE command for Ed25519
and that slot, whatever was sent before, as `cardSignature` does. -/
def CardSigns (card : List apdu → Except Error Bytes) (sign : Bytes → Bytes → Bytes)
    (secret : Bytes) (slotByte : Nat) : Prop :=
  ∀ (history : List apdu) (cmd : apdu),
    cmd.instruction = insAuthenticate → cmd.param1 = algEd25519 → cmd.param2 = slotByte →
    card (history ++ [cmd]) = cardSignature sign secret cmd

/-- A card that holds the Ed25519 private key `secret` in every slot and accepts every
other command: it answers the last command of the history. -/
def signingCard (sign : Bytes → Bytes → Bytes) (secret : Bytes) :
    List apdu → Except Error Bytes :=
  fun history =>
    match history.getLast? with
    | none => .error (.statusWord 0x6f00)
    | some cmd =>
      if cmd.instruction = insAuthenticate then cardSignature sign secret cmd
      else .ok []

/-! ## Certificate objects

The parser of X.509 certificates is a parameter `parse` of what follows: it belongs to
the Go standard library (`x509.ParseCertificate`). -/

/-- An `*x509.Certificate`, of which the engine reads the DER encoding `Raw`. -/
structure x509.Certificate where
  Raw : Bytes
deriving DecidableEq, Repr

/-- Modelled from the spec: the instruction byte `insGetData` (GET DATA of NIST SP
800-73-4), declared outside the files embedded here. -/
def insGetData : Nat := 0xcb

/-- Modelled from the spec: the instruction byte `insPutData` (PUT DATA of NIST SP
800-73-4), declared outside the files embedded here. -/
def insPutData : Nat := 0xdb

/-- Modelled from the spec: the instruction byte `insAttest` (the ATTEST command of
spec 4.6), declared outside the files embedded here. -/
def insAttest : Nat := 0xf9

/-- The three bytes of the object tag of a slot, `byte(slot.Object >> 16)`,
`byte(slot.Object >> 8)`, `byte(slot.Object)`. -/
def objectID (slot : Slot) : Bytes :=
  [slot.Object / 65536 % 256, slot.Object / 256 % 256, slot.Object % 256]

/-- Modelled from the spec: the command that reads the data object of a slot (spec 6:
the certificate is retrieved under the fixed object tag of the slot), after NIST SP
800-73-4: GET DATA with the tag list 5C 03 and the object tag. -/
def getDataCommand (slot : Slot) : apdu :=
  { instruction := insGetData
    param1 := 0x3f
    param2 := 0xff
    data := [0x5c, 0x03] ++ objectID slot }

/-- Modelled from the spec: the command that writes the certificate object of a slot
(spec 6: the certificate is stored as a DER blob under the fixed object tag of the
slot), after NIST SP 800-73-4: PUT DATA with the tag list 5C 03, the object tag, and
the object 0x53 that holds the certificate under 0x70, then the certificate info 71 01
00 and the error detection code FE 00. -/
def putDataCommand (slot : Slot) (der : Bytes) : apdu :=
  { instruction := insPutData
    param1 := 0x3f
    param2 := 0xff
    data := [0x5c, 0x03] ++ objectID slot
      ++ marshalASN1 0x53 (marshalASN1 0x70 der ++ [0x71, 0x01, 0x00, 0xfe, 0x00]) }

/-- Modelled from the spec: `(*YubiKey).Certificate(slot)` (spec 6, 7), whose source is
not among the files embedded here: the object of the slot is read from the card; an
error of the transport is returned wrapped ("command failed: %w"), so that an absent
object yields NotFound; the DER blob is taken out of the object (0x70 inside 0x53) and
parsed. -/
def YubiKey.Certificate (parse : Bytes → Except Error x509.Certificate) (yk : YubiKey)
    (slot : Slot) : Except Error x509.Certificate × YubiKey :=
  match yk.tx.Transmit (getDataCommand slot) with
  | (.error err, tx1) => (.error (.commandFailed err), { yk with tx := tx1 })
  | (.ok resp, tx1) =>
    match unmarshalASN1 resp 1 0x13 with
    | .error err => (.error (.certificateDecode err), { yk with tx := tx1 })
    | .ok (obj, _) =>
      match unmarshalASN1 obj 1 0x10 with
      | .error err => (.error (.certificateDecode err), { yk with tx := tx1 })
      | .ok (der, _) => (parse der, { yk with tx := tx1 })

/-- Modelled from the spec: `(*YubiKey).SetCertificate(key, slot, cert)` (spec 6, 4.3),
whose source is not among the files embedded here: the management key must authenticate
before the card is changed; then the DER blob of the certificate is written under the
object tag of the slot.  The exchange that authenticates the management key is a
parameter: the spec leaves it open. -/
def YubiKey.SetCertificate (authenticate : scTx → Bytes → Option Error × scTx)
    (yk : YubiKey) (key : Bytes) (slot : Slot) (cert : x509.Certificate) :
    Option Error × YubiKey :=
  match authenticate yk.tx key with
  | (some err, tx1) => (some (.authenticating err), { yk with tx := tx1 })
  | (none, tx1) =>
    match tx1.Transmit (putDataCommand slot cert.Raw) with
    | (.error err, tx2) => (some (.commandFailed err), { yk with tx := tx2 })
    | (.ok _, tx2) => (none, { yk with tx := tx2 })

/-- Modelled from the spec: `(*YubiKey).Attest(slot)` (spec 4.6, 7), whose source is
not among the files embedded here: the ATTEST command for the key reference of the slot
makes the card produce the attestation certificate of the key; an error of the
transport is returned wrapped ("command failed: %w"); the certificate is parsed. -/
def YubiKey.Attest (parse : Bytes → Except Error x509.Certificate) (yk : YubiKey)
    (slot : Slot) : Except Error x509.Certificate × YubiKey :=
  match yk.tx.Transmit
    { instruction := insAttest, param1 := slot.Key % 256, param2 := 0, data := [] } with
  | (.error err, tx1) => (.error (.commandFailed err), { yk with tx := tx1 })
  | (.ok resp, tx1) => (parse resp, { yk with tx := tx1 })

/-- The object that a command writes under an object tag of three bytes: the data of a
PUT DATA command after its tag list, `none` for any other command. -/
def putPayload (object : Bytes) (cmd : apdu) : Option Bytes :=
  if cmd.instruction = insPutData ∧ cmd.data.take 5 = [0x5c, 0x03] ++ object then
    some (cmd.data.drop 5)
  else none

/-- Modelled from the spec: the data object a card holds under an object tag after a
history of commands (spec 6): the one written by the last PUT DATA command for that
tag, none if there was no such command.  The card is outside the engine. -/
def storedObject (object : Bytes) (history : List apdu) : Option Bytes :=
  history.foldl
    (fun held cmd =>
      match putPayload object cmd with
      | some written => some written
      | none => held)
    none

/-- Modelled from the spec: a card stores data objects (spec 4.2, 6) when it answers
every GET DATA command for an object tag of three bytes with the object it holds under
that tag after the commands sent before, and with the error NotFound, to which the
transport maps the status word of a missing object, when it holds none. -/
def CardStoresObjects (card : List apdu → Except Error Bytes) : Prop :=
  ∀ (history : List apdu) (cmd : apdu) (object : Bytes),
    cmd.instruction = insGetData → object.length = 3 →
    cmd.data = [0x5c, 0x03] ++ object →
    card (history ++ [cmd])
      = match storedObject object history with
        | some held => .ok held
        | none => .error .ErrNotFound

/-- A card that stores data objects and accepts every other command. -/
def objectCard : List apdu → Except Error Bytes :=
  fun history =>
    match history.getLast? with
    | none => .error (.statusWord 0x6f00)
    | some cmd =>
      if cmd.instruction = insGetData then
        match storedObject (cmd.data.drop 2) history.dropLast with
        | some held => .ok held
        | none => .error .ErrNotFound
      else .ok []

/-! ## Attestation

The check of the signature of a certificate under the key of another one and the
decoding of the extensions of a certificate are parameters of what follows: X.509 and
its cryptography belong to the Go standard library. -/

/-- The type `Attestation` (spec 3): what a key-attestation certificate states. -/
structure Attestation where
  Serial : Nat
  Slot : Slot
  Algorithm : Option Algorithm
  PINPolicy : PINPolicy
  TouchPolicy : TouchPolicy
  Version : Nat × Nat × Nat
  PublicKey : CryptoPublicKey
deriving DecidableEq, Repr

/-- Modelled from the spec: `Verify(attestationCert, slotCert)` (spec 4.6, 9), whose
source is not among the files embedded here: the key certificate must be signed by the
device certificate, else ChainInvalid; the device certificate must chain to one of the
two embedded roots, the current PIV root or the legacy U2F root, tried in order, else
UnknownIssuer; then the extensions of the key certificate are decoded into the
attestation, or MalformedExtension is reported.  The verification is pure.  The two
roots are parameters: their certificates are declared outside the files embedded
here. -/
def Verify (checkSignatureFrom : x509.Certificate → x509.Certificate → Bool)
    (pivRoot u2fRoot : x509.Certificate)
    (parseAttestation : x509.Certificate → Except Error Attestation)
    (attestationCert slotCert : x509.Certificate) : Except Error Attestation :=
  if checkSignatureFrom slotCert attestationCert = false then .error .chainInvalid
  else if [pivRoot, u2fRoot].any (fun root => checkSignatureFrom attestationCert root)
      = false then
    .error .unknownIssuer
  else parseAttestation slotCert

/-! ## `key_legacy.go`

The file is compiled in place of `key_go120.go` in builds for Go older than 1.20 (build
constraint `!go1.20`); its functions are in the namespace `legacy` here. -/

/-- The method `(*YubiKey).privateKey(slot, public, auth, pp)` of `key_legacy.go`; it
reads neither the session nor its arguments but for the type of the public key. -/
def legacy.privateKey (_slot : Slot) (public : CryptoPublicKey) (_auth : KeyAuth)
    (_pp : PINPolicy) : Except Error CryptoPrivateKey :=
  .error (.unsupportedPublicKeyType public.goType)

/-- The method `(*YubiKey).setPrivateKeyInsecure(private)` of `key_legacy.go`. -/
def legacy.setPrivateKeyInsecure (_priv : CryptoPrivateKey) :
    Except Error (List Bytes × Nat × Nat) :=
  .error (.other "unsupported private key type")

/-- The function `decodeX25519Public(b)` of `key_legacy.go`. -/
def legacy.decodeX25519Public (_b : Bytes) : Except Error CryptoPublicKey :=
  .error (.other "unsupported algorithm")

/-- Modelled from the spec: the check of the key material at the head of
`SetPrivateKeyInsecure` (spec 4.3, 7) in a build for Go older than 1.20; the source of
`SetPrivateKeyInsecure` is not among the files embedded here.  It is `importPolicy`
with the helper of `key_legacy.go` in the place of the one of `key_go120.go`: a key
that is neither RSA nor EC nor Ed25519 is left to `setPrivateKeyInsecure`. -/
def legacy.importPolicy (priv : CryptoPrivateKey) (policy : Key) : Except Error Key :=
  match priv with
  | .rsaPrivateKey n _ _ =>
    if bitLen n = 1024 then .ok { policy with Algorithm := some .RSA1024 }
    else if bitLen n = 2048 then .ok { policy with Algorithm := some .RSA2048 }
    else if bitLen n = 3072 then .ok { policy with Algorithm := some .RSA3072 }
    else if bitLen n = 4096 then .ok { policy with Algorithm := some .RSA4096 }
    else .error .errUnsupportedKeySize
  | .ecdsaPrivateKey bitSize _ =>
    if bitSize = 256 then .ok { policy with Algorithm := some .EC256 }
    else if bitSize = 384 then .ok { policy with Algorithm := some .EC384 }
    else .error (.unsupportedCurveError bitSize)
  | .ed25519PrivateKey _ => .ok policy
  | other =>
    match legacy.setPrivateKeyInsecure other with
    | .error err => .error err
    | .ok _ => .ok policy

/-- Modelled from the spec: `(*YubiKey).SetPrivateKeyInsecure(key, slot, private,
policy)` (spec 4.3, 7) in a build for Go older than 1.20; its source is not among the
files embedded here.  As `SetPrivateKeyInsecure`, with the check of the key material of
that build. -/
def legacy.SetPrivateKeyInsecure (authenticate : scTx → Bytes → Option Error × scTx)
    (storeKey : scTx → Slot → Key → CryptoPrivateKey → Option Error × scTx)
    (yk : YubiKey) (key : Bytes) (slot : Slot) (priv : CryptoPrivateKey) (policy : Key) :
    Option Error × YubiKey :=
  match legacy.importPolicy priv policy with
  | .error err => (some err, yk)
  | .ok checked =>
    match authenticate yk.tx key with
    | (some err, tx1) => (some (.authenticating err), { yk with tx := tx1 })
    | (none, tx1) =>
      ((storeKey tx1 slot checked priv).1,
        { yk with tx := (storeKey tx1 slot checked priv).2 })

/-- Modelled from the spec: `(*YubiKey).GenerateKey(key, slot, opts)` (spec 4.3), whose
source is not among the files embedded here: the management key must authenticate; then
the command GENERATE ASYMMETRIC KEY PAIR goes to the card; then the public key the card
returns is decoded into the typed public key, an X25519 key by the `decodeX25519Public`
of the build.  The exchange that authenticates the management key, the exchange that
generates the key and the decoders of the other algorithms are parameters: their
sources are not among the files embedded here and the spec leaves their encodings
open. -/
def GenerateKey (decodeX25519 : Bytes → Except Error CryptoPublicKey)
    (decodeOther : Algorithm → Bytes → Except Error CryptoPublicKey)
    (authenticate : scTx → Bytes → Option Error × scTx)
    (generate : scTx → Slot → Key → Except Error Bytes × scTx)
    (yk : YubiKey) (key : Bytes) (slot : Slot) (opts : Key) :
    Except Error CryptoPublicKey × YubiKey :=
  match authenticate yk.tx key with
  | (some err, tx1) => (.error (.authenticating err), { yk with tx := tx1 })
  | (none, tx1) =>
    match generate tx1 slot opts with
    | (.error err, tx2) => (.error (.commandFailed err), { yk with tx := tx2 })
    | (.ok resp, tx2) =>
      match opts.Algorithm with
      | none => (.error (.other "unsupported algorithm"), { yk with tx := tx2 })
      | some .X25519 => (decodeX25519 resp, { yk with tx := tx2 })
      | some alg => (decodeOther alg resp, { yk with tx := tx2 })

/-! ## Key agreement of an EC key with an `*ecdsa.PublicKey` -/

/-- Modelled from the spec: `(*ECDSAPrivateKey).SharedKey(peer)` (spec 4.4, 8), whose
source is not among the files embedded here.  The peer is an `*ecdsa.PublicKey`, given
here by its curve and the uncompressed encoding of its point.  The curve of the peer
must equal the curve of the slot, else the operation fails with MismatchingAlgorithms
before any card round-trip; then the operation passes through the authorization gate
and the exchange is the one of `ECDH`. -/
def ECDSAPrivateKey.SharedKey (k : ECDSAPrivateKey) (yk : YubiKey) (peerCurve : Curve)
    (peerPoint : Bytes) : Except Error Bytes × YubiKey :=
  if k.pub.Curve ≠ peerCurve then (.error .errMismatchingAlgorithms, yk)
  else
    k.auth.do_ yk k.pp
      (fun tx => ykECDH tx k.slot k.pub { curve := peerCurve, publicKey := peerPoint })

/-! ## Decode errors -/

/-- The errors of the kind DecodeError (spec 7) that the codec reports: an input that
ends too early, length octets that are not DER, an identifier octet in the multi-byte
form, and another class or tag number than the expected one. -/
def Error.isDecodeError : Error → Bool
  | .decodeTruncated => true
  | .decodeLength => true
  | .decodeIdentifier => true
  | .unexpectedTag _ _ => true
  | _ => false

/-! ## Signatures of EC and RSA keys

The signature schemes and the paddings of RSA are parameters of what follows: their
arithmetic is neither part of the package nor embedded here. -/

/-- Modelled from the spec: the algorithm byte `algRSA1024` (NIST SP 800-78-4),
declared outside the files embedded here. -/
def algRSA1024 : Nat := 0x06

/-- Modelled from the spec: the algorithm byte `algRSA2048` (NIST SP 800-78-4),
declared outside the files embedded here. -/
def algRSA2048 : Nat := 0x07

/-- Modelled from the spec: the algorithm byte `algRSA3072` (the assignment of the
YubiKey), declared outside the files embedded here. -/
def algRSA3072 : Nat := 0x05

/-- Modelled from the spec: the algorithm byte `algRSA4096` (the assignment of the
YubiKey), declared outside the files embedded here. -/
def algRSA4096 : Nat := 0x16

/-- Modelled from the spec: the algorithm byte of an EC key, selected by its curve
(spec 4.4); none for a curve the card does not hold keys on. -/
def ecAlgorithm : Curve → Option Nat
  | .P256 => some algECCP256
  | .P384 => some algECCP384
  | _ => none

/-- Modelled from the spec: the algorithm byte of an RSA key, selected by the size of
its modulus in bits (spec 4.3, 7); none for another size than 1024, 2048, 3072 or
4096 bits. -/
def rsaAlgorithm (bits : Nat) : Option Nat :=
  if bits = 1024 then some algRSA1024
  else if bits = 2048 then some algRSA2048
  else if bits = 3072 then some algRSA3072
  else if bits = 4096 then some algRSA4096
  else none

/-- Modelled from the spec: the exchange with the card for a signature (spec 4.4, 6),
whose source is not among the files embedded here: a GENERAL AUTHENTICATE command for
the algorithm byte and the slot that carries the challenge (the digest, for RSA the
padded digest) under the challenge tag 0x81 in the template 0x7C, after the response
placeholder; the signature is decoded from the response, under 0x82 in the template
0x7C. -/
def ykSign (tx : scTx) (slot : Slot) (alg : Nat) (challenge : Bytes) :
    Except Error Bytes × scTx :=
  match tx.Transmit
    { instruction := insAuthenticate
      param1 := alg
      param2 := slot.Key % 256
      data := marshalASN1 0x7c ([0x82, 0x00] ++ marshalASN1 0x81 challenge) } with
  | (.error err, tx1) => (.error (.commandFailed err), tx1)
  | (.ok resp, tx1) => (decodeSharedSecret resp, tx1)

/-- Modelled from the spec: `Sign(rand, digest, opts)` of an EC handle (spec 4.4),
whose source is not among the files embedded here: the operation passes through the
authorization gate, the card signs the digest, and the signature the card returns, the
ASN.1 DER encoding of (R, S), is returned as it is. -/
def ECDSAPrivateKey.Sign (k : ECDSAPrivateKey) (yk : YubiKey) (digest : Bytes) :
    Except Error Bytes × YubiKey :=
  k.auth.do_ yk k.pp (fun tx =>
    match ecAlgorithm k.pub.Curve with
    | none => (.error (.unsupportedEcdhCurve k.pub.Curve), tx)
    | some alg => ykSign tx k.slot alg digest)

/-- The type `*rsa.PublicKey`: the modulus and the public exponent. -/
structure rsa.PublicKey where
  N : Nat
  E : Nat
deriving DecidableEq, Repr

/-- Modelled from the spec: the handle of an on-card RSA key, whose source is not among
the files embedded here; it owns the slot reference, the cached public key, the
authorization context and the PIN policy (spec 3). -/
structure keyRSA where
  slot : Slot
  pub : rsa.PublicKey
  auth : KeyAuth
  pp : PINPolicy

/-- The options of an RSA signature as `Sign` reads them from a `crypto.SignerOpts`:
the hash function `HashFunc()`, and whether the options are `*rsa.PSSOptions`. -/
structure RSASignerOpts where
  hash : Nat
  pss : Bool
deriving DecidableEq, Repr

/-- Modelled from the spec: `Sign(rand, digest, opts)` of an RSA handle (spec 4.4),
whose source is not among the files embedded here: the operation passes through the
authorization gate; the digest is padded to the size of the modulus, with the PSS
padding when the options of the caller are `*rsa.PSSOptions` and with the PKCS#1 v1.5
padding otherwise; the card applies the private key to the padded digest.  The padding
`pad pss hash bits digest` is a parameter. -/
def keyRSA.Sign (pad : Bool → Nat → Nat → Bytes → Except Error Bytes) (k : keyRSA)
    (yk : YubiKey) (digest : Bytes) (opts : RSASignerOpts) : Except Error Bytes × YubiKey :=
  k.auth.do_ yk k.pp (fun tx =>
    match rsaAlgorithm (bitLen k.pub.N) with
    | none => (.error .errUnsupportedKeySize, tx)
    | some alg =>
      match pad opts.pss opts.hash (bitLen k.pub.N) digest with
      | .error err => (.error err, tx)
      | .ok padded => ykSign tx k.slot alg padded)

/-- Modelled from the spec: a card holds the private key `secret` for the algorithm
byte `alg` in the slot with key reference `slotByte` when it answers every AUTHENTICATE
command for that algorithm and slot, whatever was sent before, as `cardSignature`
does. -/
def CardSignsWith (card : List apdu → Except Error Bytes) (sign : Bytes → Bytes → Bytes)
    (secret : Bytes) (alg slotByte : Nat) : Prop :=
  ∀ (history : List apdu) (cmd : apdu),
    cmd.instruction = insAuthenticate → cmd.param1 = alg → cmd.param2 = slotByte →
    card (history ++ [cmd]) = cardSignature sign secret cmd

/-! ## Sample values -/

/-- A slot with the key reference 0x9a. -/
def sampleSlot : Slot := { Key := 0x9a, Object := 0x5fc105 }

/-- A string of 32 bytes: 1, 2, ..., 32. -/
def samplePoint : Bytes :=
  [1, 2, 3, 4, 5, 6, 7, 8, 9, 10, 11, 12, 13, 14, 15, 16,
   17, 18, 19, 20, 21, 22, 23, 24, 25, 26, 27, 28, 29, 30, 31, 32]

/-- A string of 32 bytes: 32, 31, ..., 1. -/
def sampleSeed : Bytes :=
  [32, 31, 30, 29, 28, 27, 26, 25, 24, 23, 22, 21, 20, 19, 18, 17,
   16, 15, 14, 13, 12, 11, 10, 9, 8, 7, 6, 5, 4, 3, 2, 1]

/-- An X25519 public key, the one a card holds in the samples. -/
def sampleCardPublic : ecdh.PublicKey := { curve := .X25519, publicKey := sampleSeed }

/-- An X25519 public key of a peer. -/
def samplePeerX25519 : ecdh.PublicKey := { curve := .X25519, publicKey := samplePoint }

/-- A P-256 public key of a peer: 0x04 and two coordinates of 32 bytes. -/
def samplePeerP256 : ecdh.PublicKey :=
  { curve := .P256, publicKey := 4 :: (samplePoint ++ sampleSeed) }

/-- The authorization context `KeyAuth{}`. -/
def noAuth : KeyAuth := { PIN := [], PINPrompt := none, PINPolicy := none }

/-- A transaction with nothing sent yet on a card that answers every command with the
given response. -/
def txAnswering (resp : Except Error Bytes) : scTx := { card := fun _ => resp, sent := [] }

/-- A fresh session on a card that answers every command with the given response. -/
def ykAnswering (resp : Except Error Bytes) : YubiKey :=
  { tx := txAnswering resp, pinVerified := false, prompts := 0 }

/-- The PIN "123456". -/
def samplePIN : Bytes := [0x31, 0x32, 0x33, 0x34, 0x35, 0x36]

/-- An authorization context whose PIN callback fails, as in the test
`TestYubiKeyPrivateKeyPINError`. -/
def failingPromptAuth : KeyAuth :=
  { PIN := [], PINPrompt := some (fun _ => .error (.other "test error")), PINPolicy := none }

/-- An authorization context that carries the PIN, `KeyAuth{PIN: DefaultPIN}`. -/
def pinAuth : KeyAuth := { PIN := samplePIN, PINPrompt := none, PINPolicy := none }

/-- A handle of an X25519 key in the sample slot. -/
def sampleHandle (auth : KeyAuth) (pp : PINPolicy) : X25519PrivateKey :=
  { slot := sampleSlot, pub := sampleCardPublic, auth := auth, pp := pp }

/-- A commutative stand-in for the scalar multiplication of a curve, for the samples:
the product of the bytes at each position, modulo 251. -/
def sampleMult (scalar point : Bytes) : Bytes :=
  List.zipWith (fun x y => x * y % 251) scalar point

/-- The base point of the stand-in: 32 bytes 1. -/
def sampleBase : Bytes := List.replicate 32 1

/-- A fresh session on a card that holds the private key `sampleSeed`. -/
def ykHolding : YubiKey :=
  { tx := { card := keyCard sampleMult sampleSeed, sent := [] }
    pinVerified := false
    prompts := 0 }

/-- The private key of a peer, off the card. -/
def samplePeerPrivate (crv : Curve) : ecdh.PrivateKey :=
  { curve := crv, privateKey := samplePoint }

/-- An authorization context whose PIN callback returns the PIN "123456", as in the
test `TestPINPrompt`. -/
def promptAuth : KeyAuth :=
  { PIN := [], PINPrompt := some (fun _ => .ok samplePIN), PINPolicy := none }

/-- Two key agreements with the sample peer, as operations on a transaction. -/
def twoOperations : List (scTx → Except Error Bytes × scTx) :=
  [fun tx => ykECDHX25519 tx sampleSlot sampleCardPublic samplePeerX25519,
   fun tx => ykECDHX25519 tx sampleSlot sampleCardPublic samplePeerX25519]

/-- An authentication of the management key that succeeds without a command. -/
def sampleAuthenticate : scTx → Bytes → Option Error × scTx := fun tx _ => (none, tx)

/-- A store of a key that succeeds without a command. -/
def sampleStoreKey : scTx → Slot → Key → CryptoPrivateKey → Option Error × scTx :=
  fun tx _ _ _ => (none, tx)

/-- The policy of the import tests: `Key{PINPolicy: PINPolicyNever, TouchPolicy:
TouchPolicyNever}`. -/
def samplePolicy : Key := { Algorithm := none, PINPolicy := .Never, TouchPolicy := .Never }

/-- A number of 512 bits: 2 to the power 511, plus 111. -/
def sampleModulus512 : Nat :=
  0x8000000000000000000000000000000000000000000000000000000000000000000000000000000000000000000000000000000000000000000000000000006f

/-- An RSA private key with a modulus of 512 bits. -/
def sampleRSA512 : CryptoPrivateKey := .rsaPrivateKey sampleModulus512 65537 3

/-- An ECDSA private key on P-224. -/
def sampleP224 : CryptoPrivateKey := .ecdsaPrivateKey 224 12345

/-- A stand-in for a signature, for the samples: the key, then the message reversed. -/
def sampleSign (secret message : Bytes) : Bytes := secret ++ message.reverse

/-- The check of the stand-in signature, for a public key equal to the private key. -/
def sampleVerify (pub message signature : Bytes) : Bool :=
  decide (signature = pub ++ message.reverse)

/-- The message "hello". -/
def sampleMessage : Bytes := [0x68, 0x65, 0x6c, 0x6c, 0x6f]

/-- A handle of an Ed25519 key in the sample slot, with `KeyAuth{}` and PIN policy
Never. -/
def sampleEd25519 : keyEd25519 :=
  { slot := sampleSlot, pub := sampleSeed, auth := noAuth, pp := .Never }

/-- A fresh session on a card that holds the Ed25519 private key `sampleSeed`. -/
def ykSigning : YubiKey :=
  { tx := { card := signingCard sampleSign sampleSeed, sent := [] }
    pinVerified := false
    prompts := 0 }

/-- A stand-in for the parser of certificates, for the samples: it accepts the encodings
that start with 0x30, the tag of a DER sequence. -/
def sampleParse (der : Bytes) : Except Error x509.Certificate :=
  match der with
  | 0x30 :: _ => .ok { Raw := der }
  | _ => .error .parseCertificate

/-- A certificate of the samples: a sequence of four bytes. -/
def sampleCertificate : x509.Certificate := { Raw := [0x30, 0x02, 0x05, 0x00] }

/-- A fresh session on a card that stores data objects and holds none. -/
def ykEmpty : YubiKey :=
  { tx := { card := objectCard, sent := [] }, pinVerified := false, prompts := 0 }

/-- A stand-in for a certificate, for the samples: the tag of a sequence, the number of
the issuer and the number of the subject. -/
def sampleCert (issuer subject : Nat) : x509.Certificate := { Raw := [0x30, issuer, subject] }

/-- The check of a signature between the stand-ins: the issuer of the child is the
subject of the parent. -/
def sampleCheck (child parent : x509.Certificate) : Bool :=
  match child.Raw, parent.Raw with
  | [_, issuer, _], [_, _, subject] => issuer == subject
  | _, _ => false

/-- The decoding of the extensions of the stand-ins: a fixed attestation, with the
subject as serial number. -/
def sampleParseAttestation (cert : x509.Certificate) : Except Error Attestation :=
  match cert.Raw with
  | [_, _, subject] =>
    .ok { Serial := subject, Slot := sampleSlot, Algorithm := some .EC256,
          PINPolicy := .Never, TouchPolicy := .Never, Version := (5, 4, 3),
          PublicKey := .nilKey }
  | _ => .error .malformedExtension

/-- A slot whose key reference does not fit one byte: 0x9a above a further byte. -/
def sampleWideSlot : Slot := { Key := 0x19a, Object := 0x5fc105 }

/-- The key material of the test `TestYubiKeyX25519Legacy`, as an X25519 private
key. -/
def sampleImportKey : ecdh.PrivateKey :=
  { curve := .X25519
    privateKey :=
      [0x6b, 0x66, 0x8f, 0xbe, 0xad, 0x61, 0x9d, 0x9f,
       0xb5, 0x4b, 0x14, 0xa7, 0x34, 0x03, 0xb7, 0x21,
       0xde, 0x9a, 0x0c, 0xa4, 0x79, 0x83, 0x2c, 0xee,
       0x76, 0x78, 0xe1, 0x9c, 0xe3, 0x06, 0xa7, 0x38] }

/-- The policy of the test `TestYubiKeyX25519Legacy`: `Key{AlgorithmX25519,
PINPolicyNever, TouchPolicyNever}`. -/
def sampleX25519Policy : Key :=
  { Algorithm := some .X25519, PINPolicy := .Never, TouchPolicy := .Never }

/-- A generation of a key pair in which the card returns the TLV 0x86 of the sample
point. -/
def sampleGenerate : scTx → Slot → Key → Except Error Bytes × scTx :=
  fun tx _ _ => (.ok (marshalASN1 0x86 samplePoint), tx)

/-- A handle of an EC key on P-256 in the sample slot, with `KeyAuth{}` and PIN policy
Never, as in the test `TestYubiKeyECDSASharedKey`. -/
def sampleECHandle : ECDSAPrivateKey :=
  { slot := sampleSlot, pub := samplePeerP256, auth := noAuth, pp := .Never }

/-- A P-384 public key of a peer: 0x04 and two coordinates of 48 bytes. -/
def samplePeerP384 : ecdh.PublicKey :=
  { curve := .P384, publicKey := 4 :: (List.replicate 48 1 ++ List.replicate 48 2) }

/-- A number of 1024 bits: 2 to the power 1023, plus 111. -/
def sampleModulus1024 : Nat :=
  0x800000000000000000000000000000000000000000000000000000000000000000000000000000000000000000000000000000000000000000000000000000000000000000000000000000000000000000000000000000000000000000000000000000000000000000000000000000000000000000000000000000000000006f

/-- A handle of an RSA key of 1024 bits in the sample slot, with `KeyAuth{}` and PIN
policy Never. -/
def sampleRSAHandle : keyRSA :=
  { slot := sampleSlot, pub := { N := sampleModulus1024, E := 65537 }, auth := noAuth,
    pp := .Never }

/-- A handle of an EC key on P-256 in the sample slot whose public key, for the
stand-in signature, equals the private key of the card. -/
def sampleECSigner : ECDSAPrivateKey :=
  { slot := sampleSlot, pub := { curve := .P256, publicKey := sampleSeed }, auth := noAuth,
    pp := .Never }

/-- A stand-in for the paddings of RSA, for the samples: a byte for the padding, the
hash function, and the digest. -/
def samplePad (pss : Bool) (hash _bits : Nat) (digest : Bytes) : Except Error Bytes :=
  .ok ((if pss then 1 else 0) :: hash :: digest)

/-- The check of the stand-in signature of an RSA key, for the private key
`sampleSeed`. -/
def sampleRSAVerify (opts : RSASignerOpts) (_pub : rsa.PublicKey) (digest signature : Bytes) :
    Bool :=
  decide (signature = sampleSign sampleSeed ((if opts.pss then 1 else 0) :: opts.hash :: digest))

/-- A digest of the samples: 32 bytes. -/
def sampleDigest : Bytes := samplePoint

end piv

namespace piv

/-! ## The codec: encoding followed by decoding -/

theorem lengthValue_cons (d : Nat) (ds : Bytes) :
    lengthValue (d :: ds) = d * 256 ^ ds.length + lengthValue ds := by
  have key : ∀ (l : Bytes) (init : Nat),
      List.foldl (fun acc d => acc * 256 + d) init l
        = init * 256 ^ l.length + List.foldl (fun acc d => acc * 256 + d) 0 l := by
    intro l
    induction l with
    | nil => intro init; simp
    | cons x xs ih =>
      intro init
      simp only [List.foldl_cons, List.length_cons]
      rw [ih (init * 256 + x), ih (0 * 256 + x)]
      ring
  unfold lengthValue
  simp only [List.foldl_cons]
  rw [key ds (0 * 256 + d)]
  simp

theorem lengthDigitsAux_zero (fuel : Nat) (acc : Bytes) :
    lengthDigitsAux fuel 0 acc = acc := by
  cases fuel <;> simp [lengthDigitsAux]

theorem lengthValue_lengthDigitsAux (fuel : Nat) :
    ∀ (n : Nat) (acc : Bytes), n ≤ fuel →
      lengthValue (lengthDigitsAux fuel n acc) = n * 256 ^ acc.length + lengthValue acc := by
  induction fuel with
  | zero =>
    intro n acc h
    have hn : n = 0 := by omega
    subst hn
    simp [lengthDigitsAux]
  | succ fuel ih =>
    intro n acc h
    by_cases hn : n = 0
    · subst hn
      simp [lengthDigitsAux]
    · have hdiv : n / 256 ≤ fuel := by
        have : n / 256 < n := Nat.div_lt_self (Nat.pos_of_ne_zero hn) (by decide)
        omega
      simp only [lengthDigitsAux, hn, if_false]
      rw [ih (n / 256) (n % 256 :: acc) hdiv, lengthValue_cons, List.length_cons, pow_succ]
      have hsplit : n = 256 * (n / 256) + n % 256 := (Nat.div_add_mod n 256).symm
      generalize n / 256 = q at hsplit ⊢
      generalize n % 256 = r at hsplit ⊢
      subst hsplit
      ring

theorem lengthValue_lengthDigits (n : Nat) : lengthValue (lengthDigits n) = n := by
  unfold lengthDigits
  rw [lengthValue_lengthDigitsAux n n [] (Nat.le_refl n)]
  simp [lengthValue]

theorem lengthDigitsAux_head (fuel : Nat) :
    ∀ (n : Nat) (acc : Bytes), n ≤ fuel → n ≠ 0 →
      ∃ d tl, lengthDigitsAux fuel n acc = d :: tl ∧ d ≠ 0 := by
  induction fuel with
  | zero => intro n acc h hn; omega
  | succ fuel ih =>
    intro n acc h hn
    simp only [lengthDigitsAux, hn, if_false]
    by_cases hq : n / 256 = 0
    · rw [hq, lengthDigitsAux_zero]
      refine ⟨n % 256, acc, rfl, ?_⟩
      omega
    · have hdiv : n / 256 ≤ fuel := by
        have : n / 256 < n := Nat.div_lt_self (Nat.pos_of_ne_zero hn) (by decide)
        omega
      exact ih (n / 256) (n % 256 :: acc) hdiv hq

theorem lengthDigits_head (n : Nat) (hn : n ≠ 0) :
    ∃ d tl, lengthDigits n = d :: tl ∧ d ≠ 0 :=
  lengthDigitsAux_head n n [] (Nat.le_refl n) hn

/-- Reading back the length octets written for `n` gives `n` and leaves what
follows untouched. -/
theorem parseLength_marshalASN1Length (n : Nat) (rest : Bytes) :
    parseLength (marshalASN1Length n ++ rest) = .ok (n, rest) := by
  unfold marshalASN1Length
  by_cases h : n < 0x80
  · simp [h, parseLength]
  · have hn : n ≠ 0 := by omega
    obtain ⟨d, tl, hds, hd⟩ := lengthDigits_head n hn
    have hval := lengthValue_lengthDigits n
    simp only [h, if_false, List.cons_append, parseLength]
    have hlen : 0 < (lengthDigits n).length := by rw [hds]; simp
    have h1 : ¬ (0x80 + (lengthDigits n).length < 0x80) := by omega
    have h2 : ¬ (0x80 + (lengthDigits n).length = 0x80) := by omega
    have h3 : 0x80 + (lengthDigits n).length - 0x80 = (lengthDigits n).length := by omega
    simp only [h1, h2, h3, if_false, List.take_left, List.drop_left, List.length_append]
    have h4 : ¬ ((lengthDigits n).length + rest.length < (lengthDigits n).length) := by omega
    have h5 : ¬ ((lengthDigits n).head? = some 0) := by
      rw [hds]
      simpa using hd
    simp [h4, h5, hval, h]

/-- The round trip of the codec: decoding an encoded value, whatever follows it,
returns the value and what follows, provided the class and the tag number asked for are
those of the identifier octet written. -/
theorem unmarshalASN1_marshalASN1 (ident : Nat) (v rest : Bytes) (cls tag : Nat)
    (hform : ident % 32 ≠ 31) (hcls : ident / 64 = cls) (htag : ident % 32 = tag) :
    unmarshalASN1 (marshalASN1 ident v ++ rest) cls tag = .ok (v, rest) := by
  unfold marshalASN1
  simp only [List.cons_append, List.append_assoc, unmarshalASN1, hform, if_false]
  rw [parseLength_marshalASN1Length]
  simp [hcls, htag]

/-! ## The key-agreement command -/

/-- The command `ykECDHX25519` builds for a slot and a peer point. -/
theorem ykECDHX25519_sent (tx : scTx) (slot : Slot) (pub peer : ecdh.PublicKey)
    (hpub : pub.Curve = Curve.X25519) (hpeer : peer.Curve = Curve.X25519) :
    (ykECDHX25519 tx slot pub peer).2.sent
      = tx.sent ++ [{ instruction := insAuthenticate
                      param1 := algX25519
                      param2 := slot.Key % 256
                      data := marshalASN1 0x7c ([0x82, 0x00] ++ marshalASN1 0x85 peer.Bytes) }] := by
  unfold ykECDHX25519
  simp only [hpub, hpeer, ne_eq, not_true_eq_false, if_false, scTx.Transmit]
  split
  · next h => rw [← (Prod.mk.inj h).2]
  · next h =>
    rw [← (Prod.mk.inj h).2]
    split
    · rfl
    · split <;> rfl

/-- The bytes of the key-agreement template for a point of 32 bytes. -/
theorem marshalASN1_template (P : Bytes) (hP : P.length = 32) :
    marshalASN1 0x7c ([0x82, 0x00] ++ marshalASN1 0x85 P)
      = [0x7c, 0x24, 0x82, 0x00, 0x85, 0x20] ++ P := by
  simp [marshalASN1, marshalASN1Length, hP]

/-- C3: for every slot and every X25519 peer public key of 32 bytes, `ykECDHX25519`
transmits a single command; its instruction is `insAuthenticate`, its first parameter
is `algX25519` (which is neither of the NIST-curve identifiers), its second parameter is
the byte of the key reference of the slot (the key reference itself when it fits one
byte), and its data are the 38 bytes 7C 24 82 00 85 20 followed by the peer point. -/
theorem C3_ykECDHX25519_command (tx : scTx) (slot : Slot) (pub peer : ecdh.PublicKey)
    (hpub : pub.Curve = Curve.X25519) (hpeer : peer.Curve = Curve.X25519)
    (hlen : peer.Bytes.length = 32) :
    ∃ cmd : apdu,
      (ykECDHX25519 tx slot pub peer).2.sent = tx.sent ++ [cmd] ∧
      cmd.instruction = insAuthenticate ∧
      cmd.param1 = algX25519 ∧ cmd.param1 ≠ algECCP256 ∧ cmd.param1 ≠ algECCP384 ∧
      cmd.param2 = slot.Key % 256 ∧ (slot.Key < 256 → cmd.param2 = slot.Key) ∧
      cmd.data = [0x7c, 0x24, 0x82, 0x00, 0x85, 0x20] ++ peer.Bytes ∧
      cmd.data.length = 38 := by
  have h256 : algX25519 ≠ algECCP256 := by decide
  have h384 : algX25519 ≠ algECCP384 := by decide
  refine ⟨_, ykECDHX25519_sent tx slot pub peer hpub hpeer, rfl, rfl, h256, h384,
    rfl, fun h => Nat.mod_eq_of_lt h, marshalASN1_template peer.Bytes hlen, ?_⟩
  show (marshalASN1 0x7c ([0x82, 0x00] ++ marshalASN1 0x85 peer.Bytes)).length = 38
  rw [marshalASN1_template peer.Bytes hlen]
  simp [hlen]

/-- C3, at a sample: the command sent for the sample slot and the sample peer. -/
theorem C3_ykECDHX25519_command_witness :
    sampleCardPublic.Curve = Curve.X25519 ∧ samplePeerX25519.Curve = Curve.X25519 ∧
    samplePeerX25519.Bytes.length = 32 ∧
    ∃ cmd : apdu,
      (ykECDHX25519 (txAnswering (.ok [])) sampleSlot sampleCardPublic samplePeerX25519).2.sent
        = (txAnswering (.ok [])).sent ++ [cmd] ∧
      cmd.instruction = insAuthenticate ∧
      cmd.param1 = algX25519 ∧ cmd.param1 ≠ algECCP256 ∧ cmd.param1 ≠ algECCP384 ∧
      cmd.param2 = sampleSlot.Key % 256 ∧ (sampleSlot.Key < 256 → cmd.param2 = sampleSlot.Key) ∧
      cmd.data = [0x7c, 0x24, 0x82, 0x00, 0x85, 0x20] ++ samplePeerX25519.Bytes ∧
      cmd.data.length = 38 :=
  ⟨rfl, rfl, rfl,
    C3_ykECDHX25519_command (txAnswering (.ok [])) sampleSlot sampleCardPublic samplePeerX25519
      rfl rfl rfl⟩

/-! ## The public-key decoder -/

/-- C5: `decodeX25519Public` decodes the X25519 public key of the card as a raw point
of 32 bytes: applied to the TLV with tag 0x86 (context class, tag number 6) and a value
`p` of 32 bytes it succeeds with an X25519 public key whose `Bytes()` are `p`. -/
theorem C5_decodeX25519Public_roundtrip (p : Bytes) (hp : p.length = 32) :
    ∃ key : ecdh.PublicKey,
      decodeX25519Public (marshalASN1 0x86 p) = .ok key ∧
      key.Curve = Curve.X25519 ∧ key.Bytes = p := by
  refine ⟨{ curve := .X25519, publicKey := p }, ?_, rfl, rfl⟩
  have h := unmarshalASN1_marshalASN1 0x86 p [] 2 0x06 (by decide) (by decide) (by decide)
  rw [List.append_nil] at h
  simp [decodeX25519Public, h, ecdh.X25519NewPublicKey, ecdh.x25519PublicKeySize, hp]

/-- C5, at a sample: the TLV 86 20 01 02 ... 20 decodes to the point 01 02 ... 20. -/
theorem C5_decodeX25519Public_roundtrip_witness :
    samplePoint.length = 32 ∧
    ∃ key : ecdh.PublicKey,
      decodeX25519Public (marshalASN1 0x86 samplePoint) = .ok key ∧
      key.Curve = Curve.X25519 ∧ key.Bytes = samplePoint :=
  ⟨rfl, C5_decodeX25519Public_roundtrip samplePoint rfl⟩

/-! ## The import parameters and the handle constructor -/

/-- C6: for every X25519 private key `tryX22519PrivateKeyInsecure` succeeds with
exactly one import parameter, the seed `k.Bytes()`, the parameter tag 0x08 and the
element length 32, so that for a key of 32 bytes every parameter has the element length
returned; for an ecdh private key on another curve, and for every other type of private
key, it returns an error and no parameters. -/
theorem C6_tryX22519PrivateKeyInsecure (priv : CryptoPrivateKey) :
    (∀ k : ecdh.PrivateKey, priv = .ecdhPrivateKey k → k.Curve = Curve.X25519 →
      tryX22519PrivateKeyInsecure priv = .ok ([k.Bytes], 0x08, 32) ∧
      (k.Bytes.length = 32 → ∀ param ∈ [k.Bytes], param.length = 32)) ∧
    (∀ k : ecdh.PrivateKey, priv = .ecdhPrivateKey k → k.Curve ≠ Curve.X25519 →
      tryX22519PrivateKeyInsecure priv = .error (.unsupportedEcdhCurve k.Curve)) ∧
    ((∀ k : ecdh.PrivateKey, priv ≠ .ecdhPrivateKey k) →
      tryX22519PrivateKeyInsecure priv = .error (.unsupportedPrivateKeyType priv.goType)) := by
  refine ⟨?_, ?_, ?_⟩
  · intro k hk hcrv
    subst hk
    refine ⟨by simp [tryX22519PrivateKeyInsecure, hcrv], ?_⟩
    intro hlen param hmem
    rw [List.mem_singleton] at hmem
    rw [hmem, hlen]
  · intro k hk hcrv
    subst hk
    simp [tryX22519PrivateKeyInsecure, hcrv]
  · intro hne
    cases priv with
    | ecdhPrivateKey k => exact absurd rfl (hne k)
    | ecdsaPrivateKey _ _ => rfl
    | ed25519PrivateKey _ => rfl
    | rsaPrivateKey _ _ _ => rfl
    | x25519Handle _ => rfl
    | nilKey => rfl

/-- C7: `tryX25519PrivateKey(slot, public, auth, pp)` succeeds if and only if `public`
is an `*ecdh.PublicKey` on curve X25519; on success the result is an
`*X25519PrivateKey` that holds the given slot, authorization context and PIN policy and
whose `Public()` is that same public key; an ecdh key on another curve gives the error
"unsupported ecdh curve", any other type of key the error "unsupported public key
type". -/
theorem C7_tryX25519PrivateKey (slot : Slot) (public : CryptoPublicKey) (auth : KeyAuth)
    (pp : PINPolicy) :
    ((∃ key, tryX25519PrivateKey slot public auth pp = .ok key) ↔
      ∃ pub : ecdh.PublicKey, public = .ecdhPublicKey pub ∧ pub.Curve = Curve.X25519) ∧
    (∀ key, tryX25519PrivateKey slot public auth pp = .ok key →
      ∃ k : X25519PrivateKey, key = .x25519Handle k ∧
        k.slot = slot ∧ k.auth = auth ∧ k.pp = pp ∧ k.Public = public) ∧
    (∀ pub : ecdh.PublicKey, public = .ecdhPublicKey pub → pub.Curve ≠ Curve.X25519 →
      tryX25519PrivateKey slot public auth pp = .error (.unsupportedEcdhCurve pub.Curve)) ∧
    ((∀ pub : ecdh.PublicKey, public ≠ .ecdhPublicKey pub) →
      tryX25519PrivateKey slot public auth pp
        = .error (.unsupportedPublicKeyType public.goType)) := by
  cases public with
  | ecdhPublicKey pub =>
    by_cases hcrv : pub.Curve = Curve.X25519
    · refine ⟨⟨fun _ => ⟨pub, rfl, hcrv⟩, fun _ => ⟨_, by simp [tryX25519PrivateKey, hcrv]; rfl⟩⟩,
        ?_, ?_, ?_⟩
      · intro key hkey
        simp only [tryX25519PrivateKey, hcrv, ne_eq, not_true_eq_false, if_false,
          Except.ok.injEq] at hkey
        exact ⟨_, hkey.symm, rfl, rfl, rfl, rfl⟩
      · intro pub2 h2 hne
        cases h2
        exact absurd hcrv hne
      · intro hne
        exact absurd rfl (hne pub)
    · refine ⟨⟨?_, ?_⟩, ?_, ?_, ?_⟩
      · rintro ⟨key, hkey⟩
        simp [tryX25519PrivateKey, hcrv] at hkey
      · rintro ⟨pub2, h2, hc2⟩
        cases h2
        exact absurd hc2 hcrv
      · intro key hkey
        simp [tryX25519PrivateKey, hcrv] at hkey
      · intro pub2 h2 _
        cases h2
        simp [tryX25519PrivateKey, hcrv]
      · intro hne
        exact absurd rfl (hne pub)
  | ecdsaPublicKey _ _ _ =>
    refine ⟨⟨?_, ?_⟩, ?_, ?_, ?_⟩
    · rintro ⟨key, hkey⟩; simp [tryX25519PrivateKey] at hkey
    · rintro ⟨pub2, h2, _⟩; cases h2
    · intro key hkey; simp [tryX25519PrivateKey] at hkey
    · intro pub2 h2; cases h2
    · intro _; rfl
  | ed25519PublicKey _ =>
    refine ⟨⟨?_, ?_⟩, ?_, ?_, ?_⟩
    · rintro ⟨key, hkey⟩; simp [tryX25519PrivateKey] at hkey
    · rintro ⟨pub2, h2, _⟩; cases h2
    · intro key hkey; simp [tryX25519PrivateKey] at hkey
    · intro pub2 h2; cases h2
    · intro _; rfl
  | rsaPublicKey _ _ =>
    refine ⟨⟨?_, ?_⟩, ?_, ?_, ?_⟩
    · rintro ⟨key, hkey⟩; simp [tryX25519PrivateKey] at hkey
    · rintro ⟨pub2, h2, _⟩; cases h2
    · intro key hkey; simp [tryX25519PrivateKey] at hkey
    · intro pub2 h2; cases h2
    · intro _; rfl
  | nilKey =>
    refine ⟨⟨?_, ?_⟩, ?_, ?_, ?_⟩
    · rintro ⟨key, hkey⟩; simp [tryX25519PrivateKey] at hkey
    · rintro ⟨pub2, h2, _⟩; cases h2
    · intro key hkey; simp [tryX25519PrivateKey] at hkey
    · intro pub2 h2; cases h2
    · intro _; rfl

/-! ## The authorization gate and the curve check -/

theorem ykECDHX25519_mismatch (tx : scTx) (slot : Slot) (pub peer : ecdh.PublicKey)
    (hpub : pub.Curve = Curve.X25519) (hpeer : peer.Curve ≠ Curve.X25519) :
    ykECDHX25519 tx slot pub peer = (.error .errMismatchingAlgorithms, tx) := by
  have h : Curve.X25519 ≠ peer.Curve := fun h => hpeer h.symm
  simp [ykECDHX25519, hpub, h]

theorem authTx_never (k : KeyAuth) (yk : YubiKey) :
    k.authTx yk .Never = (.ok (), yk) := by
  simp [KeyAuth.authTx]

theorem authTx_once_verified (k : KeyAuth) (yk : YubiKey) (hv : yk.pinVerified = true) :
    k.authTx yk .Once = (.ok (), yk) := by
  simp [KeyAuth.authTx, hv]

theorem getPIN_tx (k : KeyAuth) (yk : YubiKey) : (k.getPIN yk).2.tx = yk.tx := by
  unfold KeyAuth.getPIN
  split
  · rfl
  · split
    · rfl
    · split <;> rfl

/-- The gate sends nothing, or one VERIFY command. -/
theorem authTx_sent (k : KeyAuth) (yk : YubiKey) (pp : PINPolicy) :
    (k.authTx yk pp).2.tx.sent = yk.tx.sent ∨
      ∃ pin, (k.authTx yk pp).2.tx.sent = yk.tx.sent ++ [verifyCommand pin] := by
  unfold KeyAuth.authTx
  split
  · exact Or.inl rfl
  · split
    · exact Or.inl rfl
    · have htx := getPIN_tx k yk
      split
      · next err yk1 h =>
        rw [h] at htx
        simp only at htx
        exact Or.inl (by rw [htx])
      · next pin yk1 h =>
        rw [h] at htx
        simp only at htx
        split
        · exact Or.inl (by rw [htx])
        · refine Or.inr ⟨pin, ?_⟩
          split
          · next h2 =>
            have := (Prod.mk.inj h2).2
            rw [← this, htx]
          · next h2 =>
            have := (Prod.mk.inj h2).2
            rw [← this, htx]

/-- The gate does not change the card. -/
theorem authTx_card (k : KeyAuth) (yk : YubiKey) (pp : PINPolicy) :
    (k.authTx yk pp).2.tx.card = yk.tx.card := by
  unfold KeyAuth.authTx
  split
  · rfl
  · split
    · rfl
    · have htx := getPIN_tx k yk
      split
      · next err yk1 h =>
        rw [h] at htx
        simp only at htx
        rw [htx]
      · next pin yk1 h =>
        rw [h] at htx
        simp only at htx
        split
        · rw [htx]
        · split
          · next h2 =>
            have := (Prod.mk.inj h2).2
            rw [← this, htx]
          · next h2 =>
            have := (Prod.mk.inj h2).2
            rw [← this, htx]

/-- The result of `SharedKey` when the gate ends the operation. -/
theorem SharedKey_gate_error (k : X25519PrivateKey) (yk : YubiKey) (peer : ecdh.PublicKey)
    (err : Error) (h : (k.auth.authTx yk k.pp).1 = .error err) :
    k.SharedKey yk peer = (.error err, (k.auth.authTx yk k.pp).2) := by
  unfold X25519PrivateKey.SharedKey KeyAuth.do_
  split
  · next e yk1 h2 =>
    rw [h2] at h ⊢
    simp only [Except.error.injEq] at h
    rw [h]
  · next u yk1 h2 =>
    rw [h2] at h
    simp at h

/-- The result of `SharedKey` when the gate lets the operation through. -/
theorem SharedKey_gate_ok (k : X25519PrivateKey) (yk : YubiKey) (peer : ecdh.PublicKey)
    (h : (k.auth.authTx yk k.pp).1 = .ok ()) :
    k.SharedKey yk peer
      = ((ykECDHX25519 (k.auth.authTx yk k.pp).2.tx k.slot k.pub peer).1,
         { (k.auth.authTx yk k.pp).2 with
           tx := (ykECDHX25519 (k.auth.authTx yk k.pp).2.tx k.slot k.pub peer).2 }) := by
  unfold X25519PrivateKey.SharedKey KeyAuth.do_
  split
  · next e yk1 h2 =>
    rw [h2] at h
    simp at h
  · next u yk1 h2 =>
    rw [h2]

/-- C1, as the code has it: for every X25519 private-key handle and every peer public
key whose curve is not X25519, `SharedKey` returns no secret and an error.  The
authorization gate runs first: when it ends the operation the error is the one of the
gate, and when it lets the operation through (as it always does under PIN policy
Never) the error is `errMismatchingAlgorithms` itself. -/
theorem C1_SharedKey_mismatch (k : X25519PrivateKey) (yk : YubiKey) (peer : ecdh.PublicKey)
    (hk : k.pub.Curve = Curve.X25519) (hpeer : peer.Curve ≠ Curve.X25519) :
    ∃ err, (k.SharedKey yk peer).1 = .error err ∧
      ((k.auth.authTx yk k.pp).1 = .ok () →
        err = .errMismatchingAlgorithms ∧ errorsIs err .errMismatchingAlgorithms = true) ∧
      (k.pp = .Never →
        err = .errMismatchingAlgorithms ∧ errorsIs err .errMismatchingAlgorithms = true) ∧
      (∀ gateErr, (k.auth.authTx yk k.pp).1 = .error gateErr → err = gateErr) := by
  have hok : (k.auth.authTx yk k.pp).1 = .ok () →
      (k.SharedKey yk peer).1 = .error .errMismatchingAlgorithms := by
    intro h
    rw [SharedKey_gate_ok k yk peer h, ykECDHX25519_mismatch _ _ _ _ hk hpeer]
  have hIs : errorsIs .errMismatchingAlgorithms .errMismatchingAlgorithms = true := by
    simp [errorsIs]
  cases hgate : (k.auth.authTx yk k.pp).1 with
  | error gateErr =>
    refine ⟨gateErr, ?_, ?_, ?_, ?_⟩
    · rw [SharedKey_gate_error k yk peer gateErr hgate]
    · intro h; simp at h
    · intro hpp
      rw [hpp, authTx_never] at hgate
      simp at hgate
    · intro e he
      simp only [Except.error.injEq] at he
      exact he
  | ok u =>
    refine ⟨.errMismatchingAlgorithms, hok hgate, fun _ => ⟨rfl, hIs⟩, fun _ => ⟨rfl, hIs⟩, ?_⟩
    intro e he
    simp at he

/-- C1, at a sample: a handle with `KeyAuth{}` and PIN policy Never, and a P-256 peer,
as in the test `TestYubiKeyX25519SharedKey/bad/curve`. -/
theorem C1_SharedKey_mismatch_witness :
    (sampleHandle noAuth .Never).pub.Curve = Curve.X25519 ∧
    samplePeerP256.Curve ≠ Curve.X25519 ∧
    ∃ err, ((sampleHandle noAuth .Never).SharedKey (ykAnswering (.ok [])) samplePeerP256).1
        = .error err ∧
      (((sampleHandle noAuth .Never).auth.authTx (ykAnswering (.ok []))
          (sampleHandle noAuth .Never).pp).1 = .ok () →
        err = .errMismatchingAlgorithms ∧ errorsIs err .errMismatchingAlgorithms = true) ∧
      ((sampleHandle noAuth .Never).pp = .Never →
        err = .errMismatchingAlgorithms ∧ errorsIs err .errMismatchingAlgorithms = true) ∧
      (∀ gateErr, ((sampleHandle noAuth .Never).auth.authTx (ykAnswering (.ok []))
          (sampleHandle noAuth .Never).pp).1 = .error gateErr → err = gateErr) :=
  ⟨rfl, by decide,
    C1_SharedKey_mismatch (sampleHandle noAuth .Never) (ykAnswering (.ok [])) samplePeerP256
      rfl (by decide)⟩

/-- C1 fails as stated: a handle with PIN policy Always whose PIN callback fails, and a
P-256 peer.  `SharedKey` returns the error of the PIN callback, which is not
`errMismatchingAlgorithms` and does not wrap it. -/
theorem C1_counterexample :
    (sampleHandle failingPromptAuth .Always).pub.Curve = Curve.X25519 ∧
    samplePeerP256.Curve ≠ Curve.X25519 ∧
    ((sampleHandle failingPromptAuth .Always).SharedKey (ykAnswering (.ok [])) samplePeerP256).1
      = .error (.pinPrompt (.other "test error")) ∧
    errorsIs (.pinPrompt (.other "test error")) .errMismatchingAlgorithms = false :=
  ⟨rfl, by decide, rfl, by decide⟩

/-- What `SharedKey` has sent is what the gate has sent, when the curves differ. -/
theorem SharedKey_mismatch_state (k : X25519PrivateKey) (yk : YubiKey)
    (peer : ecdh.PublicKey) (hk : k.pub.Curve = Curve.X25519)
    (hpeer : peer.Curve ≠ Curve.X25519) :
    (k.SharedKey yk peer).2 = (k.auth.authTx yk k.pp).2 := by
  cases hgate : (k.auth.authTx yk k.pp).1 with
  | error gateErr => rw [SharedKey_gate_error k yk peer gateErr hgate]
  | ok u => rw [SharedKey_gate_ok k yk peer hgate, ykECDHX25519_mismatch _ _ _ _ hk hpeer]

/-- C2, as the code has it: for every X25519 private-key handle and every peer key on
another curve, `SharedKey` sends no AUTHENTICATE command: the curve check comes before
the key-agreement command.  It does not come before the authorization gate: the
commands `SharedKey` sends are those of the gate, all of them VERIFY.  Under PIN policy
Never no command is sent at all, the session is left as it was and the error is
`errMismatchingAlgorithms`. -/
theorem C2_SharedKey_mismatch_sends_no_authenticate (k : X25519PrivateKey) (yk : YubiKey)
    (peer : ecdh.PublicKey) (hk : k.pub.Curve = Curve.X25519)
    (hpeer : peer.Curve ≠ Curve.X25519) :
    (∃ added : List apdu,
      (k.SharedKey yk peer).2.tx.sent = yk.tx.sent ++ added ∧
      ∀ cmd ∈ added, cmd.instruction = insVerify ∧ cmd.instruction ≠ insAuthenticate) ∧
    (k.pp = .Never → k.SharedKey yk peer = (.error .errMismatchingAlgorithms, yk)) := by
  have hstate := SharedKey_mismatch_state k yk peer hk hpeer
  have hsent := authTx_sent k.auth yk k.pp
  rw [← hstate] at hsent
  have hne : insVerify ≠ insAuthenticate := by decide
  refine ⟨?_, ?_⟩
  · rcases hsent with h | ⟨pin, h⟩
    · refine ⟨[], by rw [h, List.append_nil], ?_⟩
      intro cmd hmem
      simp at hmem
    · refine ⟨[verifyCommand pin], h, ?_⟩
      intro cmd hmem
      rw [List.mem_singleton] at hmem
      rw [hmem]
      exact ⟨rfl, hne⟩
  · intro hpp
    have hgate : k.auth.authTx yk k.pp = (.ok (), yk) := by rw [hpp, authTx_never]
    have hfst : (k.auth.authTx yk k.pp).1 = .ok () := by rw [hgate]
    rw [SharedKey_gate_ok k yk peer hfst, ykECDHX25519_mismatch _ _ _ _ hk hpeer, hgate]

/-- C2, at a sample: a handle with `KeyAuth{}` and PIN policy Never, and a P-256
peer. -/
theorem C2_SharedKey_mismatch_sends_no_authenticate_witness :
    (sampleHandle noAuth .Never).pub.Curve = Curve.X25519 ∧
    samplePeerP256.Curve ≠ Curve.X25519 ∧
    (sampleHandle noAuth .Never).SharedKey (ykAnswering (.ok [])) samplePeerP256
      = (.error .errMismatchingAlgorithms, ykAnswering (.ok [])) :=
  ⟨rfl, by decide,
    (C2_SharedKey_mismatch_sends_no_authenticate (sampleHandle noAuth .Never)
      (ykAnswering (.ok [])) samplePeerP256 rfl (by decide)).2 rfl⟩

/-- C2 fails as stated: a handle with PIN policy Always and the PIN "123456", a card
that accepts every command, and a P-256 peer.  Nothing had been sent before the call;
`SharedKey` fails with `errMismatchingAlgorithms`, and by then the VERIFY command with
the PIN has been sent to the card. -/
theorem C2_counterexample :
    (sampleHandle pinAuth .Always).pub.Curve = Curve.X25519 ∧
    samplePeerP256.Curve ≠ Curve.X25519 ∧
    (ykAnswering (.ok [])).tx.sent = [] ∧
    ((sampleHandle pinAuth .Always).SharedKey (ykAnswering (.ok [])) samplePeerP256).1
      = .error .errMismatchingAlgorithms ∧
    ((sampleHandle pinAuth .Always).SharedKey (ykAnswering (.ok [])) samplePeerP256).2.tx.sent
      = [{ instruction := insVerify, param1 := 0, param2 := 0x80,
           data := [0x31, 0x32, 0x33, 0x34, 0x35, 0x36, 0xff, 0xff] }] :=
  ⟨rfl, by decide, rfl, rfl, rfl⟩

/-! ## The response of the card -/

/-- The function `ykECDHX25519` when both keys are on X25519: the result in terms of the
answer of the transport to the key-agreement command. -/
theorem ykECDHX25519_result (tx : scTx) (slot : Slot) (pub peer : ecdh.PublicKey)
    (hpub : pub.Curve = Curve.X25519) (hpeer : peer.Curve = Curve.X25519) :
    (ykECDHX25519 tx slot pub peer).1
      = match tx.card (tx.sent ++ [keyAgreementCommand slot peer.Bytes]) with
        | .error err => .error (.commandFailed err)
        | .ok resp => decodeSharedSecret resp := by
  unfold ykECDHX25519 decodeSharedSecret keyAgreementCommand
  simp only [hpub, hpeer, ne_eq, not_true_eq_false, if_false, scTx.Transmit]
  generalize tx.card _ = answer
  cases answer with
  | error err => rfl
  | ok resp =>
    simp only
    cases unmarshalASN1 resp 1 0x1c with
    | error err => rfl
    | ok v =>
      obtain ⟨sig, rest⟩ := v
      simp only
      cases unmarshalASN1 sig 2 0x02 with
      | error err => rfl
      | ok w => rfl

/-- The secret inside a well-formed response. -/
theorem decodeSharedSecret_marshal (s : Bytes) :
    decodeSharedSecret (marshalASN1 0x7c (marshalASN1 0x82 s)) = .ok s := by
  have h1 := unmarshalASN1_marshalASN1 0x7c (marshalASN1 0x82 s) [] 1 0x1c
    (by decide) (by decide) (by decide)
  have h2 := unmarshalASN1_marshalASN1 0x82 s [] 2 0x02 (by decide) (by decide) (by decide)
  rw [List.append_nil] at h1 h2
  simp [decodeSharedSecret, h1, h2]

/-- A TLV whose identifier octet has another class or tag number than the ones asked
for is not decoded. -/
theorem unmarshalASN1_other_tag (ident : Nat) (rest : Bytes) (cls tag : Nat)
    (h : ident / 64 ≠ cls ∨ ident % 32 ≠ tag) :
    ∃ err, unmarshalASN1 (ident :: rest) cls tag = .error err := by
  unfold unmarshalASN1
  simp only
  split
  · exact ⟨_, rfl⟩
  · split
    · exact ⟨_, rfl⟩
    · split
      · exact ⟨_, rfl⟩
      · exact ⟨_, rfl⟩

/-- Under PIN policy Never `SharedKey` is `ykECDHX25519` on the transaction of the
session. -/
theorem SharedKey_never (k : X25519PrivateKey) (yk : YubiKey) (peer : ecdh.PublicKey)
    (hpp : k.pp = .Never) :
    (k.SharedKey yk peer).1 = (ykECDHX25519 yk.tx k.slot k.pub peer).1 := by
  have hgate : k.auth.authTx yk k.pp = (.ok (), yk) := by rw [hpp, authTx_never]
  have hfst : (k.auth.authTx yk k.pp).1 = .ok () := by rw [hgate]
  rw [SharedKey_gate_ok k yk peer hfst, hgate]

/-- C4, as the code has it: for every byte string `s`, if the response of the card to
the X25519 AUTHENTICATE command is the TLV 0x7C containing a TLV 0x82 whose value is
`s`, then `ykECDHX25519` (and `SharedKey` under PIN policy Never) returns exactly `s`
with a nil error.  The decoder compares the class and the tag number of an identifier
octet, not its constructed bit: if the outer identifier octet is neither 0x7C nor 0x5C,
or the first inner identifier octet is neither 0x82 nor 0xA2, the result is an error and
no secret. -/
theorem C4_ykECDHX25519_response (k : X25519PrivateKey) (yk : YubiKey)
    (peer : ecdh.PublicKey) (hk : k.pub.Curve = Curve.X25519)
    (hpeer : peer.Curve = Curve.X25519) :
    (∀ s : Bytes,
      yk.tx.card (yk.tx.sent ++ [keyAgreementCommand k.slot peer.Bytes])
        = .ok (marshalASN1 0x7c (marshalASN1 0x82 s)) →
      (ykECDHX25519 yk.tx k.slot k.pub peer).1 = .ok s ∧
      (k.pp = .Never → (k.SharedKey yk peer).1 = .ok s)) ∧
    (∀ (ident : Nat) (rest : Bytes),
      yk.tx.card (yk.tx.sent ++ [keyAgreementCommand k.slot peer.Bytes])
        = .ok (ident :: rest) →
      ident ≠ 0x7c → ident ≠ 0x5c →
      ∃ err, (ykECDHX25519 yk.tx k.slot k.pub peer).1 = .error err ∧
        (k.pp = .Never → (k.SharedKey yk peer).1 = .error err)) ∧
    (∀ (resp : Bytes) (ident : Nat) (more after : Bytes),
      yk.tx.card (yk.tx.sent ++ [keyAgreementCommand k.slot peer.Bytes]) = .ok resp →
      unmarshalASN1 resp 1 0x1c = .ok (ident :: more, after) →
      ident ≠ 0x82 → ident ≠ 0xa2 →
      ∃ err, (ykECDHX25519 yk.tx k.slot k.pub peer).1 = .error err ∧
        (k.pp = .Never → (k.SharedKey yk peer).1 = .error err)) := by
  have hres := ykECDHX25519_result yk.tx k.slot k.pub peer hk hpeer
  refine ⟨?_, ?_, ?_⟩
  · intro s hcard
    rw [hcard] at hres
    simp only [decodeSharedSecret_marshal] at hres
    exact ⟨hres, fun hpp => by rw [SharedKey_never k yk peer hpp, hres]⟩
  · intro ident rest hcard h7c h5c
    rw [hcard] at hres
    have htag : ident / 64 ≠ 1 ∨ ident % 32 ≠ 0x1c := by omega
    obtain ⟨err, herr⟩ := unmarshalASN1_other_tag ident rest 1 0x1c htag
    simp only [decodeSharedSecret, herr] at hres
    exact ⟨_, hres, fun hpp => by rw [SharedKey_never k yk peer hpp, hres]⟩
  · intro resp ident more after hcard houter h82 ha2
    rw [hcard] at hres
    have htag : ident / 64 ≠ 2 ∨ ident % 32 ≠ 0x02 := by omega
    obtain ⟨err, herr⟩ := unmarshalASN1_other_tag ident more 2 0x02 htag
    simp only [decodeSharedSecret, houter, herr] at hres
    exact ⟨_, hres, fun hpp => by rw [SharedKey_never k yk peer hpp, hres]⟩

/-- C4, at a sample: the card answers 7C 04 82 02 DE AD and the secret is DE AD. -/
theorem C4_ykECDHX25519_response_witness :
    (sampleHandle noAuth .Never).pub.Curve = Curve.X25519 ∧
    samplePeerX25519.Curve = Curve.X25519 ∧
    (ykECDHX25519 (ykAnswering (.ok [0x7c, 0x04, 0x82, 0x02, 0xde, 0xad])).tx
        (sampleHandle noAuth .Never).slot (sampleHandle noAuth .Never).pub samplePeerX25519).1
      = .ok [0xde, 0xad] ∧
    ((sampleHandle noAuth .Never).SharedKey
        (ykAnswering (.ok [0x7c, 0x04, 0x82, 0x02, 0xde, 0xad])) samplePeerX25519).1
      = .ok [0xde, 0xad] :=
  have h := (C4_ykECDHX25519_response (sampleHandle noAuth .Never)
    (ykAnswering (.ok [0x7c, 0x04, 0x82, 0x02, 0xde, 0xad])) samplePeerX25519 rfl rfl).1
    [0xde, 0xad] rfl
  ⟨rfl, rfl, h.1, h.2 rfl⟩

/-- C4 fails as stated: the card answers 5C 03 82 01 AA, whose outer tag is 0x5C and
not 0x7C, and `ykECDHX25519` returns the secret AA with a nil error; so it does for the
answer 7C 03 A2 01 AA, whose first inner tag is 0xA2 and not 0x82. -/
theorem C4_counterexample :
    (ykECDHX25519 (txAnswering (.ok [0x5c, 0x03, 0x82, 0x01, 0xaa])) sampleSlot
        sampleCardPublic samplePeerX25519).1 = .ok [0xaa] ∧
    (ykECDHX25519 (txAnswering (.ok [0x7c, 0x03, 0xa2, 0x01, 0xaa])) sampleSlot
        sampleCardPublic samplePeerX25519).1 = .ok [0xaa] :=
  ⟨rfl, rfl⟩

/-! ## Key agreement with a card that holds the key -/

/-- The result of `KeyAuth.do_` when the gate lets the operation through. -/
theorem do_gate_ok (auth : KeyAuth) (yk : YubiKey) (pp : PINPolicy)
    (f : scTx → Except Error Bytes × scTx) (h : (auth.authTx yk pp).1 = .ok ()) :
    (auth.do_ yk pp f).1 = (f (auth.authTx yk pp).2.tx).1 := by
  unfold KeyAuth.do_
  split
  · next e yk1 h2 =>
    rw [h2] at h
    simp at h
  · next u yk1 h2 =>
    rw [h2]

/-- The answer of a card that holds a key to the command the engine builds. -/
theorem cardKeyAgreement_command (mult : Bytes → Bytes → Bytes) (secret point : Bytes)
    (cmd : apdu)
    (hdata : cmd.data = marshalASN1 0x7c ([0x82, 0x00] ++ marshalASN1 0x85 point)) :
    cardKeyAgreement mult secret cmd
      = .ok (marshalASN1 0x7c (marshalASN1 0x82 (mult secret point))) := by
  have h1 := unmarshalASN1_marshalASN1 0x7c ([0x82, 0x00] ++ marshalASN1 0x85 point) []
    1 0x1c (by decide) (by decide) (by decide)
  have h2 := unmarshalASN1_marshalASN1 0x82 [] (marshalASN1 0x85 point) 2 0x02
    (by decide) (by decide) (by decide)
  have h3 := unmarshalASN1_marshalASN1 0x85 point [] 2 0x05
    (by decide) (by decide) (by decide)
  have hplace : marshalASN1 0x82 [] = [0x82, 0x00] := by
    simp [marshalASN1, marshalASN1Length]
  rw [List.append_nil] at h1 h3
  rw [hplace] at h2
  unfold cardKeyAgreement
  rw [hdata, h1]
  simp only
  rw [h2]
  simp only
  rw [h3]

/-- The card of the samples holds its key in every slot and for every algorithm. -/
theorem keyCard_holds (mult : Bytes → Bytes → Bytes) (secret : Bytes) (alg slotByte : Nat) :
    CardHoldsKey (keyCard mult secret) mult secret alg slotByte := by
  intro history cmd hins _ _
  simp [keyCard, hins]

/-- The exchange of `ykECDHX25519` with a card that holds the key. -/
theorem ykECDHX25519_with_card (mult : Bytes → Bytes → Bytes) (secret : Bytes) (tx : scTx)
    (slot : Slot) (pub peer : ecdh.PublicKey) (hpub : pub.Curve = Curve.X25519)
    (hpeer : peer.Curve = Curve.X25519)
    (hcard : CardHoldsKey tx.card mult secret algX25519 (slot.Key % 256)) :
    (ykECDHX25519 tx slot pub peer).1 = .ok (mult secret peer.Bytes) := by
  rw [ykECDHX25519_result tx slot pub peer hpub hpeer,
    hcard tx.sent (keyAgreementCommand slot peer.Bytes) rfl rfl rfl,
    cardKeyAgreement_command mult secret peer.Bytes _ rfl]
  exact decodeSharedSecret_marshal _

/-- The exchange of `ykECDH` with a card that holds the key. -/
theorem ykECDH_with_card (mult : Bytes → Bytes → Bytes) (secret : Bytes) (tx : scTx)
    (slot : Slot) (pub peer : ecdh.PublicKey) (alg : Nat)
    (hpub : (pub.Curve = Curve.P256 ∧ alg = algECCP256) ∨
      (pub.Curve = Curve.P384 ∧ alg = algECCP384))
    (hcard : CardHoldsKey tx.card mult secret alg (slot.Key % 256)) :
    (ykECDH tx slot pub peer).1 = .ok (mult secret peer.Bytes) := by
  have hanswer := hcard tx.sent
    { instruction := insAuthenticate, param1 := alg, param2 := slot.Key % 256,
      data := marshalASN1 0x7c ([0x82, 0x00] ++ marshalASN1 0x85 peer.Bytes) } rfl rfl rfl
  rw [cardKeyAgreement_command mult secret peer.Bytes _ rfl] at hanswer
  unfold ykECDH
  rcases hpub with ⟨hc, ha⟩ | ⟨hc, ha⟩
  · subst ha
    simp only [hc, scTx.Transmit, hanswer]
    exact decodeSharedSecret_marshal _
  · subst ha
    simp only [hc, scTx.Transmit, hanswer]
    exact decodeSharedSecret_marshal _

/-- C8: key agreement symmetry.  Let the card hold a private key whose public key is
the cached public key of the handle, that is, let it answer the AUTHENTICATE command of
the slot as a card does that multiplies the point it receives by that private key; let
the peer hold a key pair on the same curve, and let the scalar multiplication of the
curve commute for the two private keys.  Then, once the authorization gate has let the
operation through, the secret returned by `SharedKey` of an X25519 handle, and by `ECDH`
of an EC handle on P-256 or P-384, on the public key of the peer is the secret the peer
computes locally with `ECDH` against the public key of the card. -/
theorem C8_key_agreement_symmetry (mult : Bytes → Bytes → Bytes)
    (base cardSecret peerSecret : Bytes) (yk : YubiKey)
    (hcomm : mult cardSecret (mult peerSecret base) = mult peerSecret (mult cardSecret base)) :
    (∀ k : X25519PrivateKey,
      k.pub = ecdh.PrivateKey.PublicKey mult base
        { curve := .X25519, privateKey := cardSecret } →
      CardHoldsKey yk.tx.card mult cardSecret algX25519 (k.slot.Key % 256) →
      (k.auth.authTx yk k.pp).1 = .ok () →
      ∃ secret,
        (k.SharedKey yk (ecdh.PrivateKey.PublicKey mult base
          { curve := .X25519, privateKey := peerSecret })).1 = .ok secret ∧
        ecdh.PrivateKey.ECDH mult { curve := .X25519, privateKey := peerSecret } k.pub
          = .ok secret) ∧
    (∀ (k : ECDSAPrivateKey) (crv : Curve) (alg : Nat),
      (crv = Curve.P256 ∧ alg = algECCP256) ∨ (crv = Curve.P384 ∧ alg = algECCP384) →
      k.pub = ecdh.PrivateKey.PublicKey mult base { curve := crv, privateKey := cardSecret } →
      CardHoldsKey yk.tx.card mult cardSecret alg (k.slot.Key % 256) →
      (k.auth.authTx yk k.pp).1 = .ok () →
      ∃ secret,
        (k.ECDH yk (ecdh.PrivateKey.PublicKey mult base
          { curve := crv, privateKey := peerSecret })).1 = .ok secret ∧
        ecdh.PrivateKey.ECDH mult { curve := crv, privateKey := peerSecret } k.pub
          = .ok secret) := by
  refine ⟨?_, ?_⟩
  · intro k hpub hcard hgate
    refine ⟨mult peerSecret (mult cardSecret base), ?_, ?_⟩
    · have hcard2 : CardHoldsKey (k.auth.authTx yk k.pp).2.tx.card mult cardSecret
          algX25519 (k.slot.Key % 256) := by
        rw [authTx_card]
        exact hcard
      have hcrv : k.pub.Curve = Curve.X25519 := by rw [hpub]; rfl
      have hres := ykECDHX25519_with_card mult cardSecret (k.auth.authTx yk k.pp).2.tx
        k.slot k.pub
        (ecdh.PrivateKey.PublicKey mult base { curve := .X25519, privateKey := peerSecret })
        hcrv rfl hcard2
      rw [SharedKey_gate_ok k yk _ hgate]
      simp only
      rw [hres]
      exact congrArg Except.ok hcomm
    · rw [hpub]
      simp [ecdh.PrivateKey.ECDH, ecdh.PrivateKey.PublicKey]
  · intro k crv alg hcrv hpub hcard hgate
    refine ⟨mult peerSecret (mult cardSecret base), ?_, ?_⟩
    · have hcard2 : CardHoldsKey (k.auth.authTx yk k.pp).2.tx.card mult cardSecret
          alg (k.slot.Key % 256) := by
        rw [authTx_card]
        exact hcard
      have hkc : k.pub.Curve = crv := by rw [hpub]; rfl
      have hsame : ¬ (k.pub.Curve ≠ (ecdh.PrivateKey.PublicKey mult base
          { curve := crv, privateKey := peerSecret }).Curve) := by
        rw [hkc]
        exact fun h => h rfl
      have halg : (k.pub.Curve = Curve.P256 ∧ alg = algECCP256) ∨
          (k.pub.Curve = Curve.P384 ∧ alg = algECCP384) := by
        rw [hkc]
        exact hcrv
      have hres := ykECDH_with_card mult cardSecret (k.auth.authTx yk k.pp).2.tx
        k.slot k.pub
        (ecdh.PrivateKey.PublicKey mult base { curve := crv, privateKey := peerSecret })
        alg halg hcard2
      unfold ECDSAPrivateKey.ECDH
      rw [if_neg hsame, do_gate_ok _ _ _ _ hgate, hres]
      exact congrArg Except.ok hcomm
    · rw [hpub]
      simp [ecdh.PrivateKey.ECDH, ecdh.PrivateKey.PublicKey]

/-- C8, at a sample: a card that holds the key 32, 31, ..., 1 under the stand-in
multiplication, and a peer with the key 1, 2, ..., 32: both sides obtain the products
32, 62, 90, ... of the two keys. -/
theorem C8_key_agreement_symmetry_witness :
    sampleMult sampleSeed (sampleMult samplePoint sampleBase)
      = sampleMult samplePoint (sampleMult sampleSeed sampleBase) ∧
    ∃ secret,
      ((sampleHandle noAuth .Never).SharedKey ykHolding
        (ecdh.PrivateKey.PublicKey sampleMult sampleBase
          { curve := .X25519, privateKey := samplePoint })).1 = .ok secret ∧
      ecdh.PrivateKey.ECDH sampleMult { curve := .X25519, privateKey := samplePoint }
        (sampleHandle noAuth .Never).pub = .ok secret :=
  ⟨by decide,
    (C8_key_agreement_symmetry sampleMult sampleBase sampleSeed samplePoint ykHolding
      (by decide)).1 (sampleHandle noAuth .Never) (by decide)
      (keyCard_holds sampleMult sampleSeed _ _) rfl⟩

/-! ## Retired slots -/

/-- C11: `RetiredKeyManagementSlot` is total and maps exactly the 20 key references
0x82 to 0x95: for every `key` in that range it returns the slot with that key reference
and the object tag 0x5fc10d + (key - 0x82), and `true` (so 0x82 goes to 0x5fc10d and
0x95 to 0x5fc120); for every other key reference it returns `Slot{}` and `false`. -/
theorem C11_RetiredKeyManagementSlot (key : Nat) :
    (0x82 ≤ key ∧ key ≤ 0x95 →
      RetiredKeyManagementSlot key
        = ({ Key := key, Object := 0x5fc10d + (key - 0x82) }, true)) ∧
    (¬ (0x82 ≤ key ∧ key ≤ 0x95) →
      RetiredKeyManagementSlot key = ({ Key := 0, Object := 0 }, false)) ∧
    retiredKeyManagementSlots.length = 20 ∧
    (RetiredKeyManagementSlot 0x82).1.Object = 0x5fc10d ∧
    (RetiredKeyManagementSlot 0x95).1.Object = 0x5fc120 := by
  refine ⟨?_, ?_, rfl, rfl, rfl⟩
  · rintro ⟨hlo, hhi⟩
    interval_cases key <;> rfl
  · intro hout
    have hnone : retiredKeyManagementSlots.lookup key = none := by
      simp only [retiredKeyManagementSlots, List.lookup]
      have hne : ∀ c : Nat, 0x82 ≤ c → c ≤ 0x95 → (key == c) = false := by
        intro c h1 h2
        simp only [beq_eq_false_iff_ne, ne_eq]
        omega
      simp [hne]
    simp [RetiredKeyManagementSlot, hnone]

/-! ## The PIN callback -/

/-- The PIN of a context that has none of its own and a callback: one invocation. -/
theorem getPIN_prompt (k : KeyAuth) (prompt : Nat → Except Error Bytes) (yk : YubiKey)
    (hpin : k.PIN = []) (hprompt : k.PINPrompt = some prompt) :
    k.getPIN yk
      = (match prompt yk.prompts with
          | .error err => .error (.pinPrompt err)
          | .ok pin => .ok pin,
         { yk with prompts := yk.prompts + 1 }) := by
  unfold KeyAuth.getPIN
  simp only [hpin, hprompt, ne_eq, not_true_eq_false, if_false]
  cases prompt yk.prompts <;> rfl

/-- What a gate that lets the operation through has done to the session: no invocation
of the callback when no PIN is asked for, else one invocation, after which the PIN is
verified in the session. -/
theorem authTx_ok_effect (k : KeyAuth) (prompt : Nat → Except Error Bytes) (yk : YubiKey)
    (pp : PINPolicy) (hpin : k.PIN = []) (hprompt : k.PINPrompt = some prompt)
    (hok : (k.authTx yk pp).1 = .ok ()) :
    (k.authTx yk pp).2.prompts = yk.prompts + expectedPrompts pp yk.pinVerified 1 ∧
    (k.authTx yk pp).2.pinVerified
      = (if pp = .Never then yk.pinVerified else true) := by
  unfold KeyAuth.authTx at hok ⊢
  by_cases hnever : pp = .Never
  · subst hnever
    simp [expectedPrompts]
  · by_cases hskip : pp ≠ .Always ∧ yk.pinVerified = true
    · have honce : pp = .Once := by
        cases pp
        · exact absurd rfl hnever
        · rfl
        · exact absurd rfl hskip.1
      subst honce
      simp [expectedPrompts, hskip.2]
    · have hcount : expectedPrompts pp yk.pinVerified 1 = 1 := by
        cases pp
        · exact absurd rfl hnever
        · have hv : yk.pinVerified = false := by
            cases hb : yk.pinVerified
            · rfl
            · exact absurd ⟨by decide, hb⟩ hskip
          simp [expectedPrompts, hv]
        · rfl
      rw [hcount]
      simp only [hnever, hskip, if_false] at hok ⊢
      rw [getPIN_prompt k prompt yk hpin hprompt] at hok ⊢
      cases hp : prompt yk.prompts with
      | error err =>
        rw [hp] at hok
        simp at hok
      | ok pin =>
        rw [hp] at hok
        simp only at hok ⊢
        by_cases hempty : pin = []
        · simp [hempty] at hok
        · simp only [hempty, if_false, scTx.Transmit] at hok ⊢
          cases hcard : yk.tx.card (yk.tx.sent ++ [verifyCommand pin]) with
          | error err =>
            rw [hcard] at hok
            simp at hok
          | ok resp =>
            simp

/-- The session after `KeyAuth.do_` differs from the session after the gate in its
transaction only. -/
theorem do_session (k : KeyAuth) (yk : YubiKey) (pp : PINPolicy)
    (f : scTx → Except Error Bytes × scTx) :
    (k.do_ yk pp f).2.prompts = (k.authTx yk pp).2.prompts ∧
    (k.do_ yk pp f).2.pinVerified = (k.authTx yk pp).2.pinVerified := by
  unfold KeyAuth.do_
  split
  · next e yk1 h => rw [h]; exact ⟨rfl, rfl⟩
  · next u yk1 h => rw [h]; exact ⟨rfl, rfl⟩

/-- An operation that has returned a result has passed the gate. -/
theorem do_ok_gate (k : KeyAuth) (yk : YubiKey) (pp : PINPolicy)
    (f : scTx → Except Error Bytes × scTx) (h : (k.do_ yk pp f).1.toBool = true) :
    (k.authTx yk pp).1 = .ok () := by
  unfold KeyAuth.do_ at h
  split at h
  · simp [Except.toBool] at h
  · next u yk1 hgate => rw [hgate]

/-- The count of the invocations of the callback over consecutive successful
operations, from any state of the session. -/
theorem doEach_prompts (k : KeyAuth) (prompt : Nat → Except Error Bytes) (pp : PINPolicy)
    (hpin : k.PIN = []) (hprompt : k.PINPrompt = some prompt)
    (ops : List (scTx → Except Error Bytes × scTx)) :
    ∀ yk : YubiKey, (∀ r ∈ (k.doEach pp yk ops).1, r.toBool = true) →
      (k.doEach pp yk ops).2.prompts
        = yk.prompts + expectedPrompts pp yk.pinVerified ops.length := by
  induction ops with
  | nil =>
    intro yk _
    cases pp <;> simp [KeyAuth.doEach, expectedPrompts]
  | cons f fs ih =>
    intro yk hall
    simp only [KeyAuth.doEach, List.mem_cons, forall_eq_or_imp] at hall ⊢
    obtain ⟨hv, hrest⟩ := hall
    have hgate := do_ok_gate k yk pp f hv
    obtain ⟨hp, hver⟩ := authTx_ok_effect k prompt yk pp hpin hprompt hgate
    obtain ⟨hp2, hver2⟩ := do_session k yk pp f
    rw [ih _ hrest, hp2, hp, hver2, hver, List.length_cons]
    cases pp with
    | Never => simp [expectedPrompts]
    | Always => simp [expectedPrompts]; omega
    | Once =>
      cases hb : yk.pinVerified <;> simp [expectedPrompts]

/-- C13: for a handle whose PIN is obtained through the PINPrompt callback, in a
session in which the PIN is not yet verified, `n` consecutive successful private-key
operations invoke the callback 0 times when the PIN policy is Never, exactly once, on
the first operation only, when it is Once, and exactly `n` times when it is Always. -/
theorem C13_PINPrompt_invocations (k : KeyAuth) (prompt : Nat → Except Error Bytes)
    (yk : YubiKey) (ops : List (scTx → Except Error Bytes × scTx))
    (hpin : k.PIN = []) (hprompt : k.PINPrompt = some prompt)
    (hfresh : yk.pinVerified = false) :
    ((∀ r ∈ (k.doEach .Never yk ops).1, r.toBool = true) →
      (k.doEach .Never yk ops).2.prompts = yk.prompts) ∧
    ((∀ r ∈ (k.doEach .Always yk ops).1, r.toBool = true) →
      (k.doEach .Always yk ops).2.prompts = yk.prompts + ops.length) ∧
    (∀ f fs, ops = f :: fs → (∀ r ∈ (k.doEach .Once yk ops).1, r.toBool = true) →
      (k.do_ yk .Once f).2.prompts = yk.prompts + 1 ∧
      (k.doEach .Once yk ops).2.prompts = yk.prompts + 1) := by
  refine ⟨?_, ?_, ?_⟩
  · intro hall
    rw [doEach_prompts k prompt .Never hpin hprompt ops yk hall]
    simp [expectedPrompts]
  · intro hall
    rw [doEach_prompts k prompt .Always hpin hprompt ops yk hall]
    simp [expectedPrompts]
  · intro f fs hops hall
    have htotal := doEach_prompts k prompt .Once hpin hprompt ops yk hall
    subst hops
    have hfirst : ∀ r ∈ (k.doEach .Once yk [f]).1, r.toBool = true := by
      intro r hr
      simp only [KeyAuth.doEach, List.mem_singleton] at hr
      apply hall r
      simp only [KeyAuth.doEach, List.mem_cons]
      exact Or.inl hr
    have hone := doEach_prompts k prompt .Once hpin hprompt [f] yk hfirst
    simp only [KeyAuth.doEach, List.length_singleton, expectedPrompts, hfresh] at hone
    simp only [expectedPrompts, hfresh, List.length_cons] at htotal
    refine ⟨by simpa using hone, ?_⟩
    rw [htotal]
    simp

/-- C13, at a sample: two key agreements with the sample handle on a card that holds
the key and accepts the PIN: the callback is invoked 0, 1 and 2 times under the
policies Never, Once and Always. -/
theorem C13_PINPrompt_invocations_witness :
    promptAuth.PIN = [] ∧ ykHolding.pinVerified = false ∧
    (promptAuth.doEach .Never ykHolding twoOperations).2.prompts = 0 ∧
    (promptAuth.doEach .Always ykHolding twoOperations).2.prompts = 2 ∧
    (promptAuth.doEach .Once ykHolding twoOperations).2.prompts = 1 :=
  have h := C13_PINPrompt_invocations promptAuth (fun _ => .ok samplePIN) ykHolding
    twoOperations rfl rfl rfl
  ⟨rfl, rfl, h.1 (by decide), h.2.1 (by decide),
    (h.2.2 _ _ rfl (by decide)).2⟩

/-- C14: when the PIN policy of a key requires a PIN (Always, or Once with the PIN not
yet verified in the session) and the PINPrompt callback returns an error, the
private-key operation fails with an error and returns no result: the operation itself
is not run and nothing is sent to the card.  So it is for `SharedKey` of an X25519
handle. -/
theorem C14_PINPrompt_error (k : KeyAuth) (prompt : Nat → Except Error Bytes)
    (yk : YubiKey) (pp : PINPolicy) (f : scTx → Except Error Bytes × scTx) (cause : Error)
    (hpin : k.PIN = []) (hprompt : k.PINPrompt = some prompt)
    (hreq : pp = .Always ∨ (pp = .Once ∧ yk.pinVerified = false))
    (hfail : prompt yk.prompts = .error cause) :
    (k.do_ yk pp f).1 = .error (.pinPrompt cause) ∧
    (k.do_ yk pp f).2.tx = yk.tx ∧
    (∀ (handle : X25519PrivateKey) (peer : ecdh.PublicKey),
      handle.auth = k → handle.pp = pp →
      (handle.SharedKey yk peer).1 = .error (.pinPrompt cause)) := by
  have hgate : k.authTx yk pp
      = (.error (.pinPrompt cause), { yk with prompts := yk.prompts + 1 }) := by
    unfold KeyAuth.authTx
    have hnever : pp ≠ .Never := by
      rcases hreq with h | ⟨h, _⟩ <;> rw [h] <;> decide
    have hskip : ¬ (pp ≠ .Always ∧ yk.pinVerified = true) := by
      rcases hreq with h | ⟨_, h⟩
      · rw [h]
        exact fun hc => hc.1 rfl
      · rw [h]
        exact fun hc => Bool.noConfusion hc.2
    simp only [hnever, hskip, if_false]
    rw [getPIN_prompt k prompt yk hpin hprompt, hfail]
  have hdo : ∀ g : scTx → Except Error Bytes × scTx,
      k.do_ yk pp g = (.error (.pinPrompt cause), { yk with prompts := yk.prompts + 1 }) := by
    intro g
    unfold KeyAuth.do_
    rw [hgate]
  refine ⟨by rw [hdo f], by rw [hdo f], ?_⟩
  intro handle peer hauth hpp
  unfold X25519PrivateKey.SharedKey
  rw [hauth, hpp, hdo]

/-- C14, at a sample: PIN policy Always and a PIN callback that fails with "test
error", as in the test `TestYubiKeyPrivateKeyPINError`. -/
theorem C14_PINPrompt_error_witness :
    failingPromptAuth.PIN = [] ∧
    (failingPromptAuth.do_ ykHolding .Always
      (fun tx => ykECDHX25519 tx sampleSlot sampleCardPublic samplePeerX25519)).1
      = .error (.pinPrompt (.other "test error")) ∧
    (failingPromptAuth.do_ ykHolding .Always
      (fun tx => ykECDHX25519 tx sampleSlot sampleCardPublic samplePeerX25519)).2.tx
      = ykHolding.tx :=
  have h := C14_PINPrompt_error failingPromptAuth (fun _ => .error (.other "test error"))
    ykHolding .Always
    (fun tx => ykECDHX25519 tx sampleSlot sampleCardPublic samplePeerX25519)
    (.other "test error") rfl rfl (Or.inl rfl) rfl
  ⟨rfl, h.1, h.2.1⟩

/-! ## The check of the imported key -/

/-- C15: `SetPrivateKeyInsecure` accepts an RSA private key only when its modulus has
1024, 2048, 3072 or 4096 bits: for every other size it returns exactly
`errUnsupportedKeySize` and imports nothing (the session is left as it was, whatever
the management key and the card), and for these four sizes the key goes on to the
authentication of the management key with the algorithm of its size. -/
theorem C15_SetPrivateKeyInsecure_rsa (authenticate : scTx → Bytes → Option Error × scTx)
    (storeKey : scTx → Slot → Key → CryptoPrivateKey → Option Error × scTx)
    (yk : YubiKey) (key : Bytes) (slot : Slot) (n e d : Nat) (policy : Key) :
    ((bitLen n ≠ 1024 ∧ bitLen n ≠ 2048 ∧ bitLen n ≠ 3072 ∧ bitLen n ≠ 4096) →
      SetPrivateKeyInsecure authenticate storeKey yk key slot (.rsaPrivateKey n e d) policy
        = (some .errUnsupportedKeySize, yk)) ∧
    ((bitLen n = 1024 ∨ bitLen n = 2048 ∨ bitLen n = 3072 ∨ bitLen n = 4096) →
      ∃ alg, importPolicy (.rsaPrivateKey n e d) policy
          = .ok { policy with Algorithm := some alg } ∧
        (alg = .RSA1024 ∧ bitLen n = 1024 ∨ alg = .RSA2048 ∧ bitLen n = 2048 ∨
          alg = .RSA3072 ∧ bitLen n = 3072 ∨ alg = .RSA4096 ∧ bitLen n = 4096)) := by
  refine ⟨?_, ?_⟩
  · rintro ⟨h1, h2, h3, h4⟩
    simp [SetPrivateKeyInsecure, importPolicy, h1, h2, h3, h4]
  · intro h
    by_cases h1 : bitLen n = 1024
    · exact ⟨.RSA1024, by simp [importPolicy, h1], Or.inl ⟨rfl, h1⟩⟩
    · by_cases h2 : bitLen n = 2048
      · exact ⟨.RSA2048, by simp [importPolicy, h2], Or.inr (Or.inl ⟨rfl, h2⟩)⟩
      · by_cases h3 : bitLen n = 3072
        · exact ⟨.RSA3072, by simp [importPolicy, h3], Or.inr (Or.inr (Or.inl ⟨rfl, h3⟩))⟩
        · have h4 : bitLen n = 4096 := by
            rcases h with h | h | h | h
            · exact absurd h h1
            · exact absurd h h2
            · exact absurd h h3
            · exact h
          exact ⟨.RSA4096, by simp [importPolicy, h4],
            Or.inr (Or.inr (Or.inr ⟨rfl, h4⟩))⟩

set_option maxRecDepth 100000 in
/-- C15, at a sample: an RSA key of 512 bits, as in the test `TestSetRSAPrivateKey`. -/
theorem C15_SetPrivateKeyInsecure_rsa_witness :
    bitLen sampleModulus512 = 512 ∧
    SetPrivateKeyInsecure sampleAuthenticate sampleStoreKey ykHolding samplePIN sampleSlot
      sampleRSA512 samplePolicy = (some .errUnsupportedKeySize, ykHolding) :=
  ⟨by decide,
    (C15_SetPrivateKeyInsecure_rsa sampleAuthenticate sampleStoreKey ykHolding samplePIN
      sampleSlot sampleModulus512 65537 3 samplePolicy).1 (by decide)⟩

/-- C16: `SetPrivateKeyInsecure` accepts an ECDSA private key only on P-256 or P-384:
for every other curve, of bit size `b`, it returns exactly
`unsupportedCurveError{curve: b}` (224 for P-224, 521 for P-521), which identifies the
curve, and imports nothing; on the two curves the key goes on to the authentication of
the management key with the algorithm of its curve. -/
theorem C16_SetPrivateKeyInsecure_ecdsa (authenticate : scTx → Bytes → Option Error × scTx)
    (storeKey : scTx → Slot → Key → CryptoPrivateKey → Option Error × scTx)
    (yk : YubiKey) (key : Bytes) (slot : Slot) (b d : Nat) (policy : Key) :
    ((b ≠ 256 ∧ b ≠ 384) →
      SetPrivateKeyInsecure authenticate storeKey yk key slot (.ecdsaPrivateKey b d) policy
        = (some (.unsupportedCurveError b), yk)) ∧
    (b = 256 →
      importPolicy (.ecdsaPrivateKey b d) policy
        = .ok { policy with Algorithm := some .EC256 }) ∧
    (b = 384 →
      importPolicy (.ecdsaPrivateKey b d) policy
        = .ok { policy with Algorithm := some .EC384 }) := by
  refine ⟨?_, ?_, ?_⟩
  · rintro ⟨h1, h2⟩
    simp [SetPrivateKeyInsecure, importPolicy, h1, h2]
  · intro h
    simp [importPolicy, h]
  · intro h
    simp [importPolicy, h]

/-- C16, at a sample: keys on P-224 and on P-521, as in the test
`TestSetECDSAPrivateKey`. -/
theorem C16_SetPrivateKeyInsecure_ecdsa_witness :
    SetPrivateKeyInsecure sampleAuthenticate sampleStoreKey ykHolding samplePIN sampleSlot
      sampleP224 samplePolicy = (some (.unsupportedCurveError 224), ykHolding) ∧
    SetPrivateKeyInsecure sampleAuthenticate sampleStoreKey ykHolding samplePIN sampleSlot
      (.ecdsaPrivateKey 521 12345) samplePolicy
      = (some (.unsupportedCurveError 521), ykHolding) :=
  ⟨(C16_SetPrivateKeyInsecure_ecdsa sampleAuthenticate sampleStoreKey ykHolding samplePIN
      sampleSlot 224 12345 samplePolicy).1 (by decide),
   (C16_SetPrivateKeyInsecure_ecdsa sampleAuthenticate sampleStoreKey ykHolding samplePIN
      sampleSlot 521 12345 samplePolicy).1 (by decide)⟩

/-! ## Ed25519 signatures -/

/-- The answer of a card that holds an Ed25519 key to the command the engine builds. -/
theorem cardSignature_command (sign : Bytes → Bytes → Bytes) (secret message : Bytes)
    (cmd : apdu)
    (hdata : cmd.data = marshalASN1 0x7c ([0x82, 0x00] ++ marshalASN1 0x81 message)) :
    cardSignature sign secret cmd
      = .ok (marshalASN1 0x7c (marshalASN1 0x82 (sign secret message))) := by
  have h1 := unmarshalASN1_marshalASN1 0x7c ([0x82, 0x00] ++ marshalASN1 0x81 message) []
    1 0x1c (by decide) (by decide) (by decide)
  have h2 := unmarshalASN1_marshalASN1 0x82 [] (marshalASN1 0x81 message) 2 0x02
    (by decide) (by decide) (by decide)
  have h3 := unmarshalASN1_marshalASN1 0x81 message [] 2 0x01
    (by decide) (by decide) (by decide)
  have hplace : marshalASN1 0x82 [] = [0x82, 0x00] := by
    simp [marshalASN1, marshalASN1Length]
  rw [List.append_nil] at h1 h3
  rw [hplace] at h2
  unfold cardSignature
  rw [hdata, h1]
  simp only
  rw [h2]
  simp only
  rw [h3]

/-- The card of the samples holds its Ed25519 key in every slot. -/
theorem signingCard_signs (sign : Bytes → Bytes → Bytes) (secret : Bytes) (slotByte : Nat) :
    CardSigns (signingCard sign secret) sign secret slotByte := by
  intro history cmd hins _ _
  simp [signingCard, hins]

/-- The exchange of `ykSignEd25519` with a card that holds the key. -/
theorem ykSignEd25519_with_card (sign : Bytes → Bytes → Bytes) (secret : Bytes) (tx : scTx)
    (slot : Slot) (message : Bytes)
    (hcard : CardSigns tx.card sign secret (slot.Key % 256)) :
    (ykSignEd25519 tx slot message).1 = .ok (sign secret message) := by
  have hanswer := hcard tx.sent
    { instruction := insAuthenticate, param1 := algEd25519, param2 := slot.Key % 256,
      data := marshalASN1 0x7c ([0x82, 0x00] ++ marshalASN1 0x81 message) } rfl rfl rfl
  rw [cardSignature_command sign secret message _ rfl] at hanswer
  unfold ykSignEd25519
  simp only [scTx.Transmit, hanswer]
  exact decodeSharedSecret_marshal _

/-- C17: Ed25519 signing supports only the pure variant.  For every message, `Sign` with
options that carry a hash function other than `crypto.Hash(0)` (Ed25519ph) or a context
string that is not empty (Ed25519ctx) returns an error and no signature.  `Sign` with
`crypto.Hash(0)` and no context is accepted: once the authorization gate has let it
through, on a card that holds the private key of the slot it returns the signature the
card makes of the message, which verifies under the public key of the handle whenever
the signatures of that private key do. -/
theorem C17_Ed25519_pure_only (k : keyEd25519) (yk : YubiKey) (message : Bytes) :
    (∀ opts : SignerOpts, opts.hash ≠ 0 ∨ opts.context ≠ "" →
      ∃ err, (k.Sign yk message opts).1 = .error err) ∧
    (∀ (sign : Bytes → Bytes → Bytes) (verify : Bytes → Bytes → Bytes → Bool)
        (secret : Bytes),
      CardSigns yk.tx.card sign secret (k.slot.Key % 256) →
      (k.auth.authTx yk k.pp).1 = .ok () →
      verify k.pub message (sign secret message) = true →
      ∃ signature,
        (k.Sign yk message { hash := 0, context := "" }).1 = .ok signature ∧
        verify k.pub message signature = true) := by
  refine ⟨?_, ?_⟩
  · intro opts hopts
    unfold keyEd25519.Sign
    by_cases hh : opts.hash ≠ 0
    · exact ⟨_, by rw [if_pos hh]⟩
    · have hc : opts.context ≠ "" := by
        rcases hopts with h | h
        · exact absurd h hh
        · exact h
      exact ⟨_, by rw [if_neg hh, if_pos hc]⟩
  · intro sign verify secret hcard hgate hverify
    refine ⟨sign secret message, ?_, hverify⟩
    have hcard2 : CardSigns (k.auth.authTx yk k.pp).2.tx.card sign secret
        (k.slot.Key % 256) := by
      rw [authTx_card]
      exact hcard
    have hres := ykSignEd25519_with_card sign secret (k.auth.authTx yk k.pp).2.tx k.slot
      message hcard2
    unfold keyEd25519.Sign
    simp only [ne_eq, not_true_eq_false, if_false]
    rw [do_gate_ok _ _ _ _ hgate, hres]

/-- C17, at a sample: the message "hello", as in the test `TestYubiKeySignEd25519`:
the options `crypto.SHA512` (hash 7) and the context "test" give an error, and the
plain request gives a signature that verifies. -/
theorem C17_Ed25519_pure_only_witness :
    (∃ err, (sampleEd25519.Sign ykSigning sampleMessage { hash := 7, context := "" }).1
      = .error err) ∧
    (∃ err, (sampleEd25519.Sign ykSigning sampleMessage { hash := 0, context := "test" }).1
      = .error err) ∧
    (∃ signature,
      (sampleEd25519.Sign ykSigning sampleMessage { hash := 0, context := "" }).1
        = .ok signature ∧
      sampleVerify sampleEd25519.pub sampleMessage signature = true) :=
  have h := C17_Ed25519_pure_only sampleEd25519 ykSigning sampleMessage
  ⟨h.1 { hash := 7, context := "" } (Or.inl (by decide)),
   h.1 { hash := 0, context := "test" } (Or.inr (by decide)),
   h.2 sampleSign sampleVerify sampleSeed (signingCard_signs sampleSign sampleSeed _) rfl
     (by decide)⟩

/-! ## Certificate objects -/

/-- An error wrapped by "command failed: %w" is still found by `errors.Is`. -/
theorem errorsIs_commandFailed (cause target : Error) (h : errorsIs cause target = true) :
    errorsIs (.commandFailed cause) target = true := by
  unfold errorsIs
  by_cases heq : Error.commandFailed cause = target
  · simp [heq]
  · simp only [heq, if_false]
    exact h

/-- The result of `Certificate` when the transport answers with an error. -/
theorem Certificate_transport_error (parse : Bytes → Except Error x509.Certificate)
    (yk : YubiKey) (slot : Slot) (cause : Error)
    (h : yk.tx.card (yk.tx.sent ++ [getDataCommand slot]) = .error cause) :
    (YubiKey.Certificate parse yk slot).1 = .error (.commandFailed cause) := by
  simp [YubiKey.Certificate, scTx.Transmit, h]

/-- The result of `Attest` when the transport answers with an error. -/
theorem Attest_transport_error (parse : Bytes → Except Error x509.Certificate)
    (yk : YubiKey) (slot : Slot) (cause : Error)
    (h : yk.tx.card (yk.tx.sent ++
      [{ instruction := insAttest, param1 := slot.Key % 256, param2 := 0, data := [] }])
        = .error cause) :
    (YubiKey.Attest parse yk slot).1 = .error (.commandFailed cause) := by
  simp [YubiKey.Attest, scTx.Transmit, h]

/-- The object held after one more command. -/
theorem storedObject_append (object : Bytes) (history : List apdu) (cmd : apdu) :
    storedObject object (history ++ [cmd])
      = match putPayload object cmd with
        | some written => some written
        | none => storedObject object history := by
  simp [storedObject, List.foldl_append]

/-- The card of the samples stores data objects. -/
theorem objectCard_stores : CardStoresObjects objectCard := by
  intro history cmd object hins _ hdata
  simp [objectCard, hins, hdata]

/-- C19: for every slot in which no certificate has been stored, `Certificate(slot)`
fails with an error that satisfies `errors.Is(err, ErrNotFound)` and returns no
certificate: so it does whenever the transport answers the GET DATA command of the slot
with an error that is or wraps `ErrNotFound`, as a card that stores data objects does
when no PUT DATA command has written the object of the slot; and `Attest(slot)` fails
in the same way whenever the transport answers the ATTEST command of the slot with such
an error, as for a slot that holds no key. -/
theorem C19_absent_yields_ErrNotFound (parse : Bytes → Except Error x509.Certificate)
    (yk : YubiKey) (slot : Slot) :
    (∀ cause, yk.tx.card (yk.tx.sent ++ [getDataCommand slot]) = .error cause →
      errorsIs cause .ErrNotFound = true →
      ∃ err, (YubiKey.Certificate parse yk slot).1 = .error err ∧
        errorsIs err .ErrNotFound = true) ∧
    (CardStoresObjects yk.tx.card → storedObject (objectID slot) yk.tx.sent = none →
      ∃ err, (YubiKey.Certificate parse yk slot).1 = .error err ∧
        errorsIs err .ErrNotFound = true) ∧
    (∀ cause, yk.tx.card (yk.tx.sent ++
        [{ instruction := insAttest, param1 := slot.Key % 256, param2 := 0, data := [] }])
        = .error cause →
      errorsIs cause .ErrNotFound = true →
      ∃ err, (YubiKey.Attest parse yk slot).1 = .error err ∧
        errorsIs err .ErrNotFound = true) := by
  refine ⟨?_, ?_, ?_⟩
  · intro cause hcard his
    exact ⟨_, Certificate_transport_error parse yk slot cause hcard,
      errorsIs_commandFailed cause _ his⟩
  · intro hstores hnone
    have hanswer := hstores yk.tx.sent (getDataCommand slot) (objectID slot) rfl rfl rfl
    rw [hnone] at hanswer
    refine ⟨_, Certificate_transport_error parse yk slot .ErrNotFound hanswer,
      errorsIs_commandFailed .ErrNotFound _ ?_⟩
    simp [errorsIs]
  · intro cause hcard his
    exact ⟨_, Attest_transport_error parse yk slot cause hcard,
      errorsIs_commandFailed cause _ his⟩

/-- C19, at a sample: a fresh session on a card that stores data objects and holds
none, as in the test `TestSlots` before `SetCertificate`. -/
theorem C19_absent_yields_ErrNotFound_witness :
    storedObject (objectID sampleSlot) ykEmpty.tx.sent = none ∧
    ∃ err, (YubiKey.Certificate sampleParse ykEmpty sampleSlot).1 = .error err ∧
      errorsIs err .ErrNotFound = true :=
  ⟨rfl,
    (C19_absent_yields_ErrNotFound sampleParse ykEmpty sampleSlot).2.1 objectCard_stores rfl⟩

/-- C20: the round trip of the certificate storage.  On a card that stores data
objects, for every slot and every certificate `cert` (one whose `Raw` bytes the parser
parses, giving back those bytes as `Raw`), after `SetCertificate(managementKey, slot,
cert)` has succeeded, `Certificate(slot)` returns a certificate whose `Raw` bytes are
`cert.Raw`. -/
theorem C20_certificate_roundtrip (parse : Bytes → Except Error x509.Certificate)
    (authenticate : scTx → Bytes → Option Error × scTx) (yk : YubiKey) (key : Bytes)
    (slot : Slot) (cert : x509.Certificate)
    (hcard : CardStoresObjects yk.tx.card)
    (hauth : (authenticate yk.tx key).2.card = yk.tx.card)
    (hparse : ∃ parsed, parse cert.Raw = .ok parsed)
    (hraw : ∀ der parsed, parse der = .ok parsed → parsed.Raw = der)
    (hset : (YubiKey.SetCertificate authenticate yk key slot cert).1 = none) :
    ∃ got,
      (YubiKey.Certificate parse
        (YubiKey.SetCertificate authenticate yk key slot cert).2 slot).1 = .ok got ∧
      got.Raw = cert.Raw := by
  obtain ⟨parsed, hparsed⟩ := hparse
  refine ⟨parsed, ?_, hraw _ _ hparsed⟩
  have hobject : ∀ history : List apdu,
      storedObject (objectID slot) (history ++ [putDataCommand slot cert.Raw])
        = some (marshalASN1 0x53
            (marshalASN1 0x70 cert.Raw ++ [0x71, 0x01, 0x00, 0xfe, 0x00])) := by
    intro history
    rw [storedObject_append]
    simp [putPayload, putDataCommand, objectID]
  have h1 := unmarshalASN1_marshalASN1 0x53
    (marshalASN1 0x70 cert.Raw ++ [0x71, 0x01, 0x00, 0xfe, 0x00]) [] 1 0x13
    (by decide) (by decide) (by decide)
  have h2 := unmarshalASN1_marshalASN1 0x70 cert.Raw [0x71, 0x01, 0x00, 0xfe, 0x00] 1 0x10
    (by decide) (by decide) (by decide)
  rw [List.append_nil] at h1
  unfold YubiKey.SetCertificate at hset ⊢
  cases hres : authenticate yk.tx key with
  | mk authErr tx1 =>
    rw [hres] at hset hauth
    simp only at hauth
    cases authErr with
    | some err => simp at hset
    | none =>
      simp only [scTx.Transmit] at hset ⊢
      cases hput : tx1.card (tx1.sent ++ [putDataCommand slot cert.Raw]) with
      | error err =>
        rw [hput] at hset
        simp at hset
      | ok resp =>
        have hanswer := hcard (tx1.sent ++ [putDataCommand slot cert.Raw])
          (getDataCommand slot) (objectID slot) rfl rfl rfl
        rw [hobject] at hanswer
        simp only at hanswer
        rw [← hauth] at hanswer
        simp only [YubiKey.Certificate, scTx.Transmit, hanswer, h1, h2, hparsed]

/-- C20, at a sample: the sample certificate is stored in the sample slot of a card
that stores data objects, and read back. -/
theorem C20_certificate_roundtrip_witness :
    (YubiKey.SetCertificate sampleAuthenticate ykEmpty samplePIN sampleSlot
      sampleCertificate).1 = none ∧
    ∃ got,
      (YubiKey.Certificate sampleParse
        (YubiKey.SetCertificate sampleAuthenticate ykEmpty samplePIN sampleSlot
          sampleCertificate).2 sampleSlot).1 = .ok got ∧
      got.Raw = sampleCertificate.Raw :=
  ⟨rfl,
    C20_certificate_roundtrip sampleParse sampleAuthenticate ykEmpty samplePIN sampleSlot
      sampleCertificate objectCard_stores rfl ⟨sampleCertificate, rfl⟩
      (by
        intro der parsed h
        unfold sampleParse at h
        split at h
        · simp only [Except.ok.injEq] at h
          rw [← h]
        · simp at h)
      rfl⟩

/-! ## Attestation -/

/-- C18: `Verify(deviceCert, keyCert)` succeeds for a genuine pair from one device
under either trusted root: when the key certificate is signed by the key of the device
certificate, the device certificate by the current PIV root or by the legacy U2F root,
and the extensions of the key certificate decode, the result is the attestation they
state.  It returns an error whenever the key certificate is not signed by the key of
the device certificate, as for a device certificate from one YubiKey and a key
certificate from another. -/
theorem C18_Verify (checkSignatureFrom : x509.Certificate → x509.Certificate → Bool)
    (pivRoot u2fRoot : x509.Certificate)
    (parseAttestation : x509.Certificate → Except Error Attestation)
    (deviceCert keyCert : x509.Certificate) :
    (∀ attestation,
      checkSignatureFrom keyCert deviceCert = true →
      (checkSignatureFrom deviceCert pivRoot = true ∨
        checkSignatureFrom deviceCert u2fRoot = true) →
      parseAttestation keyCert = .ok attestation →
      Verify checkSignatureFrom pivRoot u2fRoot parseAttestation deviceCert keyCert
        = .ok attestation) ∧
    (checkSignatureFrom keyCert deviceCert = false →
      Verify checkSignatureFrom pivRoot u2fRoot parseAttestation deviceCert keyCert
        = .error .chainInvalid) := by
  refine ⟨?_, ?_⟩
  · intro attestation hkey hroot hparse
    unfold Verify
    have hany : [pivRoot, u2fRoot].any (fun root => checkSignatureFrom deviceCert root)
        = true := by
      rcases hroot with h | h <;> simp [h]
    simp [hkey, hany, hparse]
  · intro hkey
    simp [Verify, hkey]

/-- C18, at a sample: device 10 under the first root and device 20 under the second,
each with a key certificate: the two genuine pairs verify, the two crossed pairs do
not. -/
theorem C18_Verify_witness :
    (∃ attestation,
      Verify sampleCheck (sampleCert 1 1) (sampleCert 2 2) sampleParseAttestation
        (sampleCert 1 10) (sampleCert 10 100) = .ok attestation) ∧
    (∃ attestation,
      Verify sampleCheck (sampleCert 1 1) (sampleCert 2 2) sampleParseAttestation
        (sampleCert 2 20) (sampleCert 20 200) = .ok attestation) ∧
    Verify sampleCheck (sampleCert 1 1) (sampleCert 2 2) sampleParseAttestation
      (sampleCert 1 10) (sampleCert 20 200) = .error .chainInvalid ∧
    Verify sampleCheck (sampleCert 1 1) (sampleCert 2 2) sampleParseAttestation
      (sampleCert 2 20) (sampleCert 10 100) = .error .chainInvalid :=
  ⟨⟨_, (C18_Verify sampleCheck (sampleCert 1 1) (sampleCert 2 2) sampleParseAttestation
      (sampleCert 1 10) (sampleCert 10 100)).1 _ rfl (Or.inl rfl) rfl⟩,
   ⟨_, (C18_Verify sampleCheck (sampleCert 1 1) (sampleCert 2 2) sampleParseAttestation
      (sampleCert 2 20) (sampleCert 20 200)).1 _ rfl (Or.inr rfl) rfl⟩,
   (C18_Verify sampleCheck (sampleCert 1 1) (sampleCert 2 2) sampleParseAttestation
      (sampleCert 1 10) (sampleCert 20 200)).2 rfl,
   (C18_Verify sampleCheck (sampleCert 1 1) (sampleCert 2 2) sampleParseAttestation
      (sampleCert 2 20) (sampleCert 10 100)).2 rfl⟩

/-! ## The length of a number in bits -/

theorem bitLenAux_bounds (fuel : Nat) :
    ∀ n : Nat, n ≤ fuel → n ≠ 0 →
      2 ^ (bitLenAux fuel n - 1) ≤ n ∧ n < 2 ^ bitLenAux fuel n ∧ 0 < bitLenAux fuel n := by
  induction fuel with
  | zero => intro n h hn; omega
  | succ fuel ih =>
    intro n h hn
    simp only [bitLenAux, hn, if_false]
    by_cases hhalf : n / 2 = 0
    · have hone : n = 1 := by omega
      subst hone
      cases fuel <;> simp [bitLenAux]
    · have hle : n / 2 ≤ fuel := by omega
      obtain ⟨hlow, hhigh, hpos⟩ := ih (n / 2) hle hhalf
      refine ⟨?_, ?_, by omega⟩
      · have hsplit : bitLenAux fuel (n / 2) + 1 - 1 = (bitLenAux fuel (n / 2) - 1) + 1 := by
          omega
        rw [hsplit, pow_succ]
        omega
      · rw [pow_succ]
        omega

/-- The bit length is the one of the binary representation: a number that is not zero
lies between 2 to the power `bitLen n - 1` and 2 to the power `bitLen n`. -/
theorem bitLen_bounds (n : Nat) (hn : n ≠ 0) :
    2 ^ (bitLen n - 1) ≤ n ∧ n < 2 ^ bitLen n :=
  ⟨(bitLenAux_bounds n n (Nat.le_refl n) hn).1, (bitLenAux_bounds n n (Nat.le_refl n) hn).2.1⟩

/-! ## The number of transmissions of a key agreement -/

/-- The function `ykECDHX25519` when a curve check fails: an error, and the transaction
as it was. -/
theorem ykECDHX25519_checks_fail (tx : scTx) (slot : Slot) (pub peer : ecdh.PublicKey)
    (h : ¬ (pub.Curve = Curve.X25519 ∧ peer.Curve = Curve.X25519)) :
    (ykECDHX25519 tx slot pub peer).2 = tx ∧
    ∃ err, (ykECDHX25519 tx slot pub peer).1 = .error err := by
  unfold ykECDHX25519
  split
  · exact ⟨rfl, _, rfl⟩
  · next hpub =>
    split
    · exact ⟨rfl, _, rfl⟩
    · next hpeer =>
      have hpub1 : pub.Curve = Curve.X25519 := not_not.mp hpub
      have hpeer1 : pub.Curve = peer.Curve := not_not.mp hpeer
      exact absurd ⟨hpub1, by rw [← hpeer1]; exact hpub1⟩ h

/-- The function `ykECDHX25519` leaves the card of the transaction as it was. -/
theorem ykECDHX25519_card (tx : scTx) (slot : Slot) (pub peer : ecdh.PublicKey) :
    (ykECDHX25519 tx slot pub peer).2.card = tx.card := by
  unfold ykECDHX25519
  split
  · rfl
  · split
    · rfl
    · simp only [scTx.Transmit]
      split
      · next h => rw [← (Prod.mk.inj h).2]
      · next h =>
        rw [← (Prod.mk.inj h).2]
        split
        · rfl
        · split <;> rfl

/-- C26: the X25519 key-agreement command is never retried or sent again: every
invocation of `ykECDHX25519` calls `Transmit` at most once, whatever the transport
returns.  When both curve checks pass the commands sent are those sent before and the
key-agreement command, once; otherwise the result is an error and nothing is sent.  The
list `sent` of the transaction records the calls of `Transmit`, one entry for each. -/
theorem C26_ykECDHX25519_transmits_at_most_once (tx : scTx) (slot : Slot)
    (pub peer : ecdh.PublicKey) :
    (pub.Curve = Curve.X25519 ∧ peer.Curve = Curve.X25519 →
      (ykECDHX25519 tx slot pub peer).2.sent
        = tx.sent ++ [keyAgreementCommand slot peer.Bytes]) ∧
    (¬ (pub.Curve = Curve.X25519 ∧ peer.Curve = Curve.X25519) →
      (ykECDHX25519 tx slot pub peer).2.sent = tx.sent ∧
      ∃ err, (ykECDHX25519 tx slot pub peer).1 = .error err) ∧
    (∃ added : List apdu,
      (ykECDHX25519 tx slot pub peer).2.sent = tx.sent ++ added ∧ added.length ≤ 1) := by
  have hpass : pub.Curve = Curve.X25519 ∧ peer.Curve = Curve.X25519 →
      (ykECDHX25519 tx slot pub peer).2.sent
        = tx.sent ++ [keyAgreementCommand slot peer.Bytes] :=
    fun h => ykECDHX25519_sent tx slot pub peer h.1 h.2
  refine ⟨hpass, ?_, ?_⟩
  · intro h
    obtain ⟨hsame, herr⟩ := ykECDHX25519_checks_fail tx slot pub peer h
    exact ⟨by rw [hsame], herr⟩
  · by_cases h : pub.Curve = Curve.X25519 ∧ peer.Curve = Curve.X25519
    · exact ⟨[keyAgreementCommand slot peer.Bytes], hpass h, Nat.le_refl 1⟩
    · refine ⟨[], ?_, Nat.zero_le 1⟩
      rw [(ykECDHX25519_checks_fail tx slot pub peer h).1, List.append_nil]

/-- C26, at a sample: one command for an X25519 peer, on a card that answers with an
error and on a card that answers with bytes that are no TLV; none for a P-256 peer. -/
theorem C26_ykECDHX25519_transmits_at_most_once_witness :
    (ykECDHX25519 (txAnswering (.error (.statusWord 0x6a80))) sampleSlot sampleCardPublic
      samplePeerX25519).2.sent = [keyAgreementCommand sampleSlot samplePeerX25519.Bytes] ∧
    (ykECDHX25519 (txAnswering (.ok [0xff])) sampleSlot sampleCardPublic
      samplePeerX25519).2.sent = [keyAgreementCommand sampleSlot samplePeerX25519.Bytes] ∧
    (ykECDHX25519 (txAnswering (.ok [])) sampleSlot sampleCardPublic
      samplePeerP256).2.sent = [] :=
  ⟨(C26_ykECDHX25519_transmits_at_most_once (txAnswering (.error (.statusWord 0x6a80)))
      sampleSlot sampleCardPublic samplePeerX25519).1 ⟨rfl, rfl⟩,
   (C26_ykECDHX25519_transmits_at_most_once (txAnswering (.ok [0xff]))
      sampleSlot sampleCardPublic samplePeerX25519).1 ⟨rfl, rfl⟩,
   ((C26_ykECDHX25519_transmits_at_most_once (txAnswering (.ok []))
      sampleSlot sampleCardPublic samplePeerP256).2.1 (by decide)).1⟩

/-! ## The handles of the constructor -/

/-- The errors of the PIN entry: the error of the PIN callback, formatted. -/
theorem getPIN_error (k : KeyAuth) (yk : YubiKey) (err : Error)
    (h : (k.getPIN yk).1 = .error err) : ∃ cause, err = .pinPrompt cause := by
  unfold KeyAuth.getPIN at h
  split at h
  · simp at h
  · split at h
    · simp at h
    · split at h
      · next cause _ =>
        simp only [Except.error.injEq] at h
        exact ⟨cause, h.symm⟩
      · simp at h

/-- The errors of the authorization gate: the one of the PIN callback, the missing PIN,
and the one of the VERIFY command. -/
theorem authTx_error (k : KeyAuth) (yk : YubiKey) (pp : PINPolicy) (err : Error)
    (h : (k.authTx yk pp).1 = .error err) :
    (∃ cause, err = .pinPrompt cause) ∨ err = .pinRequired ∨
      ∃ cause, err = .verifyPin cause := by
  unfold KeyAuth.authTx at h
  split at h
  · simp at h
  · split at h
    · simp at h
    · split at h
      · next cause yk1 hpin =>
        simp only [Except.error.injEq] at h
        have hfst : (k.getPIN yk).1 = .error cause := by rw [hpin]
        rw [← h]
        exact Or.inl (getPIN_error k yk cause hfst)
      · split at h
        · simp only [Except.error.injEq] at h
          exact Or.inr (Or.inl h.symm)
        · split at h
          · next cause _ _ =>
            simp only [Except.error.injEq] at h
            exact Or.inr (Or.inr ⟨cause, h.symm⟩)
          · simp at h

/-- The errors of `ykECDHX25519` for a key of the card on X25519: never the one of the
branch "unsupported ecdh curve". -/
theorem ykECDHX25519_supported (tx : scTx) (slot : Slot) (pub peer : ecdh.PublicKey)
    (hpub : pub.Curve = Curve.X25519) (crv : Curve) :
    (ykECDHX25519 tx slot pub peer).1 ≠ .error (.unsupportedEcdhCurve crv) := by
  by_cases hpeer : peer.Curve = Curve.X25519
  · rw [ykECDHX25519_result tx slot pub peer hpub hpeer]
    cases tx.card (tx.sent ++ [keyAgreementCommand slot peer.Bytes]) with
    | error err => simp
    | ok resp =>
      simp only [decodeSharedSecret]
      cases unmarshalASN1 resp 1 0x1c with
      | error err => simp
      | ok v =>
        simp only
        cases unmarshalASN1 v.1 2 0x02 with
        | error err => simp
        | ok w => simp
  · rw [ykECDHX25519_mismatch tx slot pub peer hpub hpeer]
    simp

/-- C27: every private key that `tryX25519PrivateKey` returns is an `X25519PrivateKey`
whose public key is on the curve X25519.  Hence, in the call of `ykECDHX25519` that
`SharedKey` makes for such a handle, on whatever transaction and for whatever peer, the
branch "unsupported ecdh curve" is not taken; the function fails before transmitting
exactly when the peer is not on X25519, and the error is then
`errMismatchingAlgorithms`, the transaction being left as it was; for a peer on X25519
the key-agreement command is transmitted.  And `SharedKey` itself never returns the
error of that branch.  (The failures of the authorization gate precede the call of
`ykECDHX25519` and are not failures of it.) -/
theorem C27_handle_is_on_X25519 (slot : Slot) (public : CryptoPublicKey) (auth : KeyAuth)
    (pp : PINPolicy) (priv : CryptoPrivateKey)
    (hpriv : tryX25519PrivateKey slot public auth pp = .ok priv) :
    ∃ k : X25519PrivateKey,
      priv = .x25519Handle k ∧ k.pub.Curve = Curve.X25519 ∧
      (∀ (tx : scTx) (peer : ecdh.PublicKey),
        (∀ crv, (ykECDHX25519 tx k.slot k.pub peer).1 ≠ .error (.unsupportedEcdhCurve crv)) ∧
        ((ykECDHX25519 tx k.slot k.pub peer).2.sent = tx.sent ↔ peer.Curve ≠ Curve.X25519) ∧
        (peer.Curve ≠ Curve.X25519 →
          ykECDHX25519 tx k.slot k.pub peer = (.error .errMismatchingAlgorithms, tx)) ∧
        (peer.Curve = Curve.X25519 →
          (ykECDHX25519 tx k.slot k.pub peer).2.sent
            = tx.sent ++ [keyAgreementCommand k.slot peer.Bytes])) ∧
      (∀ (yk : YubiKey) (peer : ecdh.PublicKey) (crv : Curve),
        (k.SharedKey yk peer).1 ≠ .error (.unsupportedEcdhCurve crv)) := by
  unfold tryX25519PrivateKey at hpriv
  split at hpriv
  · next pub =>
    split at hpriv
    · simp at hpriv
    · next hcrv =>
      have hpub : pub.Curve = Curve.X25519 := not_not.mp hcrv
      simp only [Except.ok.injEq] at hpriv
      refine ⟨_, hpriv.symm, hpub, ?_, ?_⟩
      · intro tx peer
        simp only
        have hmis : peer.Curve ≠ Curve.X25519 →
            ykECDHX25519 tx slot pub peer = (.error .errMismatchingAlgorithms, tx) :=
          fun hpeer => ykECDHX25519_mismatch tx slot pub peer hpub hpeer
        have hsent : peer.Curve = Curve.X25519 →
            (ykECDHX25519 tx slot pub peer).2.sent
              = tx.sent ++ [keyAgreementCommand slot peer.Bytes] :=
          fun hpeer => ykECDHX25519_sent tx slot pub peer hpub hpeer
        refine ⟨fun crv => ykECDHX25519_supported tx slot pub peer hpub crv, ?_, hmis, hsent⟩
        constructor
        · intro hsame hpeer
          rw [hsent hpeer] at hsame
          have hlen := congrArg List.length hsame
          simp at hlen
        · intro hpeer
          rw [hmis hpeer]
      · intro yk peer crv
        simp only [X25519PrivateKey.SharedKey]
        cases hgate : (auth.authTx yk pp).1 with
        | error err =>
          have hres : (auth.do_ yk pp (fun tx => ykECDHX25519 tx slot pub peer)).1
              = .error err := by
            unfold KeyAuth.do_
            split
            · next e yk1 h2 =>
              rw [h2] at hgate
              have he : e = err := by simpa using hgate
              rw [he]
            · next u yk1 h2 =>
              rw [h2] at hgate
              simp at hgate
          rw [hres]
          intro hcontra
          simp only [Except.error.injEq] at hcontra
          rcases authTx_error auth yk pp err hgate with ⟨c, hc⟩ | hc | ⟨c, hc⟩ <;>
            rw [hc] at hcontra <;> exact Error.noConfusion hcontra
        | ok u =>
          rw [do_gate_ok auth yk pp _ hgate]
          exact ykECDHX25519_supported _ slot pub peer hpub crv
  · simp at hpriv

/-- C27, at a sample: the handle made for the sample public key. -/
theorem C27_handle_is_on_X25519_witness :
    ∃ k : X25519PrivateKey,
      CryptoPrivateKey.x25519Handle (sampleHandle noAuth .Never) = .x25519Handle k ∧
      k.pub.Curve = Curve.X25519 ∧
      (∀ (tx : scTx) (peer : ecdh.PublicKey),
        (∀ crv, (ykECDHX25519 tx k.slot k.pub peer).1 ≠ .error (.unsupportedEcdhCurve crv)) ∧
        ((ykECDHX25519 tx k.slot k.pub peer).2.sent = tx.sent ↔ peer.Curve ≠ Curve.X25519) ∧
        (peer.Curve ≠ Curve.X25519 →
          ykECDHX25519 tx k.slot k.pub peer = (.error .errMismatchingAlgorithms, tx)) ∧
        (peer.Curve = Curve.X25519 →
          (ykECDHX25519 tx k.slot k.pub peer).2.sent
            = tx.sent ++ [keyAgreementCommand k.slot peer.Bytes])) ∧
      (∀ (yk : YubiKey) (peer : ecdh.PublicKey) (crv : Curve),
        (k.SharedKey yk peer).1 ≠ .error (.unsupportedEcdhCurve crv)) :=
  C27_handle_is_on_X25519 sampleSlot (.ecdhPublicKey sampleCardPublic) noAuth .Never
    (.x25519Handle (sampleHandle noAuth .Never)) rfl

/-! ## The slot byte of the key-agreement command -/

/-- C28: the slot byte of the X25519 AUTHENTICATE command is the 32-bit key reference
of the slot truncated to 8 bits, `param2 = slot.Key mod 256`: it is the key reference
itself for every slot whose key reference is below 0x100, as the 20 retired slots of
the table are, and for two slots whose key references agree in the low byte
`ykECDHX25519` sends the same command and returns the same result. -/
theorem C28_slot_byte (tx : scTx) (slot : Slot) (pub peer : ecdh.PublicKey)
    (hpub : pub.Curve = Curve.X25519) (hpeer : peer.Curve = Curve.X25519) :
    (∃ cmd : apdu,
      (ykECDHX25519 tx slot pub peer).2.sent = tx.sent ++ [cmd] ∧
      cmd.param2 = slot.Key % 2 ^ 32 % 256 ∧ cmd.param2 = slot.Key % 256 ∧
      cmd.param2 < 256 ∧ (slot.Key < 0x100 → cmd.param2 = slot.Key)) ∧
    (∀ other : Slot, other.Key % 256 = slot.Key % 256 →
      ykECDHX25519 tx other pub peer = ykECDHX25519 tx slot pub peer) ∧
    (∀ entry ∈ retiredKeyManagementSlots, entry.2.Key < 0x100) := by
  refine ⟨⟨_, ykECDHX25519_sent tx slot pub peer hpub hpeer, ?_, rfl, ?_, ?_⟩, ?_, ?_⟩
  · show slot.Key % 256 = slot.Key % 2 ^ 32 % 256
    omega
  · show slot.Key % 256 < 256
    omega
  · intro h
    exact Nat.mod_eq_of_lt h
  · intro other hlow
    unfold ykECDHX25519
    rw [hlow]
  · decide

/-- C28, at a sample: the slot with key reference 0x9a and a slot with key reference
0x19a give the same command, with the slot byte 0x9a. -/
theorem C28_slot_byte_witness :
    (∃ cmd : apdu,
      (ykECDHX25519 (txAnswering (.ok [])) sampleSlot sampleCardPublic samplePeerX25519).2.sent
        = (txAnswering (.ok [])).sent ++ [cmd] ∧
      cmd.param2 = 0x9a) ∧
    ykECDHX25519 (txAnswering (.ok [])) sampleWideSlot sampleCardPublic samplePeerX25519
      = ykECDHX25519 (txAnswering (.ok [])) sampleSlot sampleCardPublic samplePeerX25519 :=
  have h := C28_slot_byte (txAnswering (.ok [])) sampleSlot sampleCardPublic samplePeerX25519
    rfl rfl
  ⟨h.1.elim fun cmd hcmd => ⟨cmd, hcmd.1, hcmd.2.2.1.trans rfl⟩, h.2.1 sampleWideSlot rfl⟩

/-! ## What the decoding of the response leaves unchecked -/

/-- The secret inside a response, whatever follows it inside the template and after
the template. -/
theorem decodeSharedSecret_trailing (s inside after : Bytes) :
    decodeSharedSecret (marshalASN1 0x7c (marshalASN1 0x82 s ++ inside) ++ after) = .ok s := by
  have h1 := unmarshalASN1_marshalASN1 0x7c (marshalASN1 0x82 s ++ inside) after 1 0x1c
    (by decide) (by decide) (by decide)
  have h2 := unmarshalASN1_marshalASN1 0x82 s inside 2 0x02 (by decide) (by decide) (by decide)
  simp [decodeSharedSecret, h1, h2]

/-- C29: `ykECDHX25519` returns the value of the inner TLV 0x82 as it is, without
validating it: for every response that is a TLV 0x7C containing a TLV 0x82 with value
`s`, followed by arbitrary further bytes inside the TLV 0x7C and after it, the result
is `s` with a nil error, for `s` of any length, the empty one included; the secret is
not checked to have 32 bytes, and the data that follow are ignored. -/
theorem C29_secret_not_validated (tx : scTx) (slot : Slot) (pub peer : ecdh.PublicKey)
    (hpub : pub.Curve = Curve.X25519) (hpeer : peer.Curve = Curve.X25519)
    (s inside after : Bytes)
    (hcard : tx.card (tx.sent ++ [keyAgreementCommand slot peer.Bytes])
      = .ok (marshalASN1 0x7c (marshalASN1 0x82 s ++ inside) ++ after)) :
    (ykECDHX25519 tx slot pub peer).1 = .ok s := by
  rw [ykECDHX25519_result tx slot pub peer hpub hpeer, hcard]
  exact decodeSharedSecret_trailing s inside after

/-- C29, at a sample: the card answers 7C 04 82 00 AA BB CC, an empty secret followed by
two bytes inside the template and one after it, and the result is the empty secret. -/
theorem C29_secret_not_validated_witness :
    sampleCardPublic.Curve = Curve.X25519 ∧ samplePeerX25519.Curve = Curve.X25519 ∧
    (ykECDHX25519 (txAnswering (.ok [0x7c, 0x04, 0x82, 0x00, 0xaa, 0xbb, 0xcc])) sampleSlot
      sampleCardPublic samplePeerX25519).1 = .ok [] :=
  ⟨rfl, rfl,
    C29_secret_not_validated (txAnswering (.ok [0x7c, 0x04, 0x82, 0x00, 0xaa, 0xbb, 0xcc]))
      sampleSlot sampleCardPublic samplePeerX25519 rfl rfl [] [0xaa, 0xbb] [0xcc] rfl⟩

/-! ## The inputs of the public-key decoder -/

/-- The decoding of an encoded value, whatever follows it and whatever class and tag
number are asked for. -/
theorem unmarshalASN1_marshalASN1_any (ident : Nat) (v rest : Bytes) (cls tag : Nat) :
    unmarshalASN1 (marshalASN1 ident v ++ rest) cls tag
      = if ident % 32 = 31 then .error .decodeIdentifier
        else if ident / 64 ≠ cls ∨ ident % 32 ≠ tag then
          .error (.unexpectedTag (ident / 64) (ident % 32))
        else .ok (v, rest) := by
  unfold marshalASN1
  simp only [List.cons_append, List.append_assoc, unmarshalASN1]
  split
  · rfl
  · rw [parseLength_marshalASN1Length]
    simp

/-- C30, as the code has it: `decodeX25519Public` succeeds only on points of 32 bytes.
For every input whose leading TLV has the identifier octet 0x86, or 0xA6, and a value
of another length than 32 bytes it returns an error and no key; for every input whose
leading identifier octet is neither 0x86 nor 0xA6, and for the empty input, it returns
an "unmarshal points" error; and the bytes that follow the leading TLV do not affect
the result.  The decoder compares the class and the tag number of the identifier octet,
not its constructed bit, so 0xA6 is taken as 0x86 is. -/
theorem C30_decodeX25519Public_inputs :
    (∀ (ident : Nat) (v rest : Bytes), ident = 0x86 ∨ ident = 0xa6 → v.length ≠ 32 →
      decodeX25519Public (marshalASN1 ident v ++ rest) = .error .invalidPublicKey) ∧
    (∀ (ident : Nat) (v rest : Bytes), ident = 0x86 ∨ ident = 0xa6 → v.length = 32 →
      decodeX25519Public (marshalASN1 ident v ++ rest)
        = .ok { curve := .X25519, publicKey := v }) ∧
    (∀ (ident : Nat) (more : Bytes), ident ≠ 0x86 → ident ≠ 0xa6 →
      ∃ cause, decodeX25519Public (ident :: more) = .error (.unmarshalPoints cause)) ∧
    decodeX25519Public [] = .error (.unmarshalPoints .decodeTruncated) ∧
    (∀ (ident : Nat) (v rest : Bytes),
      decodeX25519Public (marshalASN1 ident v ++ rest)
        = decodeX25519Public (marshalASN1 ident v)) := by
  have hany : ∀ (ident : Nat) (v rest : Bytes), ident = 0x86 ∨ ident = 0xa6 →
      unmarshalASN1 (marshalASN1 ident v ++ rest) 2 0x06 = .ok (v, rest) := by
    intro ident v rest hident
    rcases hident with h | h <;> subst h <;>
      exact unmarshalASN1_marshalASN1 _ v rest 2 0x06 (by decide) (by decide) (by decide)
  refine ⟨?_, ?_, ?_, rfl, ?_⟩
  · intro ident v rest hident hlen
    simp [decodeX25519Public, hany ident v rest hident, ecdh.X25519NewPublicKey,
      ecdh.x25519PublicKeySize, hlen]
  · intro ident v rest hident hlen
    simp [decodeX25519Public, hany ident v rest hident, ecdh.X25519NewPublicKey,
      ecdh.x25519PublicKeySize, hlen]
  · intro ident more h86 ha6
    have htag : ident / 64 ≠ 2 ∨ ident % 32 ≠ 0x06 := by omega
    obtain ⟨err, herr⟩ := unmarshalASN1_other_tag ident more 2 0x06 htag
    exact ⟨err, by simp [decodeX25519Public, herr]⟩
  · intro ident v rest
    have h1 := unmarshalASN1_marshalASN1_any ident v rest 2 0x06
    have h2 := unmarshalASN1_marshalASN1_any ident v [] 2 0x06
    rw [List.append_nil] at h2
    unfold decodeX25519Public
    rw [h1, h2]
    split_ifs <;> rfl

/-- C30, at a sample: a value of 5 bytes under 0x86 is refused, and the bytes 01 02
after the TLV of the sample point change nothing. -/
theorem C30_decodeX25519Public_inputs_witness :
    decodeX25519Public (marshalASN1 0x86 sampleMessage ++ [0x01, 0x02])
      = .error .invalidPublicKey ∧
    decodeX25519Public (marshalASN1 0x86 samplePoint ++ [0x01, 0x02])
      = decodeX25519Public (marshalASN1 0x86 samplePoint) :=
  ⟨C30_decodeX25519Public_inputs.1 0x86 sampleMessage [0x01, 0x02] (Or.inl rfl) (by decide),
   C30_decodeX25519Public_inputs.2.2.2.2 0x86 samplePoint [0x01, 0x02]⟩

/-- C30 fails as stated: the input A6 20 followed by 32 bytes has the leading tag 0xA6
and not 0x86, and `decodeX25519Public` returns no "unmarshal points" error but the
public key of those 32 bytes. -/
theorem C30_counterexample :
    decodeX25519Public (0xa6 :: 0x20 :: samplePoint)
      = .ok { curve := .X25519, publicKey := samplePoint } :=
  rfl

/-! ## The errors of the key-agreement exchange -/

/-- An error formatted into "unmarshal response: %v" is another error than the one
formatted. -/
theorem unmarshalResponse_ne (d : Error) : Error.unmarshalResponse d ≠ d := by
  intro h
  have hsize := congrArg sizeOf h
  simp at hsize

/-- An error formatted into "unmarshal response signature: %v" is another error than
the one formatted. -/
theorem unmarshalResponseSignature_ne (d : Error) : Error.unmarshalResponseSignature d ≠ d := by
  intro h
  have hsize := congrArg sizeOf h
  simp at hsize

/-- An error formatted into "unmarshal points: %v" is another error than the one
formatted. -/
theorem unmarshalPoints_ne (d : Error) : Error.unmarshalPoints d ≠ d := by
  intro h
  have hsize := congrArg sizeOf h
  simp at hsize

/-- C24, as the code has it: every failure of the X25519 key-agreement exchange reaches
the caller as an error.  If the transport returns the error `e`, the returned error
wraps `e` ("command failed: %w"): `errors.Is(result, e)` holds.  If the response is a
malformed TLV, the returned error is made from the decode error of the codec with the
verb `%v` ("unmarshal response: %v", "unmarshal response signature: %v", and "unmarshal
points: %v" in `decodeX25519Public`): it carries the text of the decode error, it
neither is nor wraps it, `Unwrap` gives nothing and `errors.Is` does not find the
decode error. -/
theorem C24_exchange_errors (tx : scTx) (slot : Slot) (pub peer : ecdh.PublicKey)
    (hpub : pub.Curve = Curve.X25519) (hpeer : peer.Curve = Curve.X25519) :
    (∀ e, tx.card (tx.sent ++ [keyAgreementCommand slot peer.Bytes]) = .error e →
      (ykECDHX25519 tx slot pub peer).1 = .error (.commandFailed e) ∧
      errorsIs (.commandFailed e) e = true) ∧
    (∀ resp d, tx.card (tx.sent ++ [keyAgreementCommand slot peer.Bytes]) = .ok resp →
      unmarshalASN1 resp 1 0x1c = .error d →
      (ykECDHX25519 tx slot pub peer).1 = .error (.unmarshalResponse d) ∧
      Error.Unwrap (.unmarshalResponse d) = none ∧
      errorsIs (.unmarshalResponse d) d = false) ∧
    (∀ resp sig after d,
      tx.card (tx.sent ++ [keyAgreementCommand slot peer.Bytes]) = .ok resp →
      unmarshalASN1 resp 1 0x1c = .ok (sig, after) → unmarshalASN1 sig 2 0x02 = .error d →
      (ykECDHX25519 tx slot pub peer).1 = .error (.unmarshalResponseSignature d) ∧
      Error.Unwrap (.unmarshalResponseSignature d) = none ∧
      errorsIs (.unmarshalResponseSignature d) d = false) ∧
    (∀ b d, unmarshalASN1 b 2 0x06 = .error d →
      decodeX25519Public b = .error (.unmarshalPoints d) ∧
      Error.Unwrap (.unmarshalPoints d) = none ∧
      errorsIs (.unmarshalPoints d) d = false) := by
  have hres := ykECDHX25519_result tx slot pub peer hpub hpeer
  refine ⟨?_, ?_, ?_, ?_⟩
  · intro e hcard
    rw [hcard] at hres
    refine ⟨hres, errorsIs_commandFailed e e ?_⟩
    unfold errorsIs
    simp
  · intro resp d hcard hdec
    rw [hcard] at hres
    simp only [decodeSharedSecret, hdec] at hres
    refine ⟨hres, rfl, ?_⟩
    unfold errorsIs
    simp [unmarshalResponse_ne d]
  · intro resp sig after d hcard hout hdec
    rw [hcard] at hres
    simp only [decodeSharedSecret, hout, hdec] at hres
    refine ⟨hres, rfl, ?_⟩
    unfold errorsIs
    simp [unmarshalResponseSignature_ne d]
  · intro b d hdec
    refine ⟨by simp [decodeX25519Public, hdec], rfl, ?_⟩
    unfold errorsIs
    simp [unmarshalPoints_ne d]

/-- C24, at a sample: a transport that answers with the status word 6A80, and a card
that answers with the single byte 7C. -/
theorem C24_exchange_errors_witness :
    ((ykECDHX25519 (txAnswering (.error (.statusWord 0x6a80))) sampleSlot sampleCardPublic
        samplePeerX25519).1 = .error (.commandFailed (.statusWord 0x6a80)) ∧
      errorsIs (.commandFailed (.statusWord 0x6a80)) (.statusWord 0x6a80) = true) ∧
    ((ykECDHX25519 (txAnswering (.ok [0x7c])) sampleSlot sampleCardPublic
        samplePeerX25519).1 = .error (.unmarshalResponse .decodeTruncated) ∧
      Error.Unwrap (.unmarshalResponse .decodeTruncated) = none ∧
      errorsIs (.unmarshalResponse .decodeTruncated) .decodeTruncated = false) :=
  ⟨(C24_exchange_errors (txAnswering (.error (.statusWord 0x6a80))) sampleSlot
      sampleCardPublic samplePeerX25519 rfl rfl).1 _ rfl,
   (C24_exchange_errors (txAnswering (.ok [0x7c])) sampleSlot
      sampleCardPublic samplePeerX25519 rfl rfl).2.1 [0x7c] _ rfl rfl⟩

/-- C24 fails as stated: the card answers with the single byte 7C, a truncated TLV; the
codec reports the decode error "truncated", and the error that `ykECDHX25519` returns
neither is that error nor wraps it. -/
theorem C24_counterexample :
    unmarshalASN1 [0x7c] 1 0x1c = .error .decodeTruncated ∧
    (ykECDHX25519 (txAnswering (.ok [0x7c])) sampleSlot sampleCardPublic
      samplePeerX25519).1 = .error (.unmarshalResponse .decodeTruncated) ∧
    Error.unmarshalResponse .decodeTruncated ≠ .decodeTruncated ∧
    Error.Unwrap (.unmarshalResponse .decodeTruncated) = none ∧
    errorsIs (.unmarshalResponse .decodeTruncated) .decodeTruncated = false :=
  ⟨rfl, rfl, by decide, rfl, by decide⟩

/-! ## Builds for Go older than 1.20 -/

/-- C21: in builds for Go older than 1.20 X25519 is unsupported: for every input,
`privateKey`, `setPrivateKeyInsecure` and `decodeX25519Public` of `key_legacy.go` return
an error and no key or parameters.  So `SetPrivateKeyInsecure` fails for every private
key that is neither RSA nor EC nor Ed25519, an X25519 key among them, before any card
call, and `GenerateKey` with `AlgorithmX25519` fails whatever the card answers. -/
theorem C21_legacy_X25519_unsupported :
    (∀ (slot : Slot) (public : CryptoPublicKey) (auth : KeyAuth) (pp : PINPolicy),
      ∃ err, legacy.privateKey slot public auth pp = .error err) ∧
    (∀ priv : CryptoPrivateKey, ∃ err, legacy.setPrivateKeyInsecure priv = .error err) ∧
    (∀ b : Bytes, ∃ err, legacy.decodeX25519Public b = .error err) ∧
    (∀ (authenticate : scTx → Bytes → Option Error × scTx)
        (storeKey : scTx → Slot → Key → CryptoPrivateKey → Option Error × scTx)
        (yk : YubiKey) (key : Bytes) (slot : Slot) (priv : CryptoPrivateKey) (policy : Key),
      (∀ n e d, priv ≠ .rsaPrivateKey n e d) → (∀ bitSize d, priv ≠ .ecdsaPrivateKey bitSize d) →
      (∀ k, priv ≠ .ed25519PrivateKey k) →
      ∃ err, legacy.SetPrivateKeyInsecure authenticate storeKey yk key slot priv policy
        = (some err, yk)) ∧
    (∀ (decodeOther : Algorithm → Bytes → Except Error CryptoPublicKey)
        (authenticate : scTx → Bytes → Option Error × scTx)
        (generate : scTx → Slot → Key → Except Error Bytes × scTx)
        (yk : YubiKey) (key : Bytes) (slot : Slot) (opts : Key),
      opts.Algorithm = some .X25519 →
      ∃ err, (GenerateKey legacy.decodeX25519Public decodeOther authenticate generate
        yk key slot opts).1 = .error err) := by
  refine ⟨fun _ _ _ _ => ⟨_, rfl⟩, fun _ => ⟨_, rfl⟩, fun _ => ⟨_, rfl⟩, ?_, ?_⟩
  · intro authenticate storeKey yk key slot priv policy hrsa hec hed
    cases priv with
    | rsaPrivateKey n e d => exact absurd rfl (hrsa n e d)
    | ecdsaPrivateKey bitSize d => exact absurd rfl (hec bitSize d)
    | ed25519PrivateKey k => exact absurd rfl (hed k)
    | ecdhPrivateKey k => exact ⟨_, rfl⟩
    | x25519Handle k => exact ⟨_, rfl⟩
    | nilKey => exact ⟨_, rfl⟩
  · intro decodeOther authenticate generate yk key slot opts halg
    unfold GenerateKey
    rcases authenticate yk.tx key with ⟨authErr, tx1⟩
    cases authErr with
    | some err => exact ⟨_, rfl⟩
    | none =>
      simp only
      rcases generate tx1 slot opts with ⟨answer, tx2⟩
      cases answer with
      | error err => exact ⟨_, rfl⟩
      | ok resp =>
        simp only [halg]
        exact ⟨_, rfl⟩

/-- C21, at a sample: the two calls of the test `TestYubiKeyX25519Legacy`, with the
policy `Key{AlgorithmX25519, PINPolicyNever, TouchPolicyNever}`, on a card that
generates the key and returns its point. -/
theorem C21_legacy_X25519_unsupported_witness :
    (∃ err, (GenerateKey legacy.decodeX25519Public (fun _ _ => .ok .nilKey)
      sampleAuthenticate sampleGenerate ykHolding samplePIN sampleSlot
      sampleX25519Policy).1 = .error err) ∧
    (∃ err, legacy.SetPrivateKeyInsecure sampleAuthenticate sampleStoreKey ykHolding
      samplePIN sampleSlot (.ecdhPrivateKey sampleImportKey) sampleX25519Policy
        = (some err, ykHolding)) :=
  ⟨C21_legacy_X25519_unsupported.2.2.2.2 (fun _ _ => .ok .nilKey) sampleAuthenticate
      sampleGenerate ykHolding samplePIN sampleSlot sampleX25519Policy rfl,
   C21_legacy_X25519_unsupported.2.2.2.1 sampleAuthenticate sampleStoreKey ykHolding
      samplePIN sampleSlot (.ecdhPrivateKey sampleImportKey) sampleX25519Policy
      (fun _ _ _ h => CryptoPrivateKey.noConfusion h)
      (fun _ _ h => CryptoPrivateKey.noConfusion h)
      (fun _ h => CryptoPrivateKey.noConfusion h)⟩

/-! ## Key agreement of an EC key with a peer on another curve -/

/-- C25: for every on-card EC key and every peer public key on another curve, as for
a card key on P-256 and a peer on P-384, both `ECDSAPrivateKey.ECDH` and
`ECDSAPrivateKey.SharedKey` return an error for which
`errors.Is(err, errMismatchingAlgorithms)` holds, and no secret; the session is left as
it was. -/
theorem C25_EC_mismatch (k : ECDSAPrivateKey) (yk : YubiKey) (peer : ecdh.PublicKey)
    (hcurve : k.pub.Curve ≠ peer.Curve) :
    (∃ err, k.ECDH yk peer = (.error err, yk) ∧
      errorsIs err .errMismatchingAlgorithms = true) ∧
    (∃ err, k.SharedKey yk peer.Curve peer.Bytes = (.error err, yk) ∧
      errorsIs err .errMismatchingAlgorithms = true) := by
  have his : errorsIs .errMismatchingAlgorithms .errMismatchingAlgorithms = true := by
    unfold errorsIs
    simp
  refine ⟨⟨_, ?_, his⟩, ⟨_, ?_, his⟩⟩
  · unfold ECDSAPrivateKey.ECDH
    rw [if_pos hcurve]
  · unfold ECDSAPrivateKey.SharedKey
    rw [if_pos hcurve]

/-- C25, at a sample: the card key on P-256 and the peer on P-384, as in the tests
`TestYubiKeyECDSAECDH` and `TestYubiKeyECDSASharedKey`. -/
theorem C25_EC_mismatch_witness :
    sampleECHandle.pub.Curve ≠ samplePeerP384.Curve ∧
    (∃ err, sampleECHandle.ECDH ykHolding samplePeerP384 = (.error err, ykHolding) ∧
      errorsIs err .errMismatchingAlgorithms = true) ∧
    (∃ err, sampleECHandle.SharedKey ykHolding samplePeerP384.Curve samplePeerP384.Bytes
        = (.error err, ykHolding) ∧
      errorsIs err .errMismatchingAlgorithms = true) :=
  ⟨by decide, C25_EC_mismatch sampleECHandle ykHolding samplePeerP384 (by decide)⟩

/-! ## The decoder on arbitrary bytes -/

/-- The length reader consumes at least one octet and returns the rest of its input. -/
theorem parseLength_ok_split (a : Bytes) (n : Nat) (body : Bytes)
    (h : parseLength a = .ok (n, body)) : ∃ lo, a = lo ++ body ∧ 1 ≤ lo.length := by
  cases a with
  | nil => simp [parseLength] at h
  | cons b rest =>
    simp only [parseLength] at h
    split_ifs at h
    · simp only [Except.ok.injEq, Prod.mk.injEq] at h
      exact ⟨[b], by rw [← h.2]; rfl, by simp⟩
    · simp only [Except.ok.injEq, Prod.mk.injEq] at h
      refine ⟨b :: rest.take (b - 0x80), ?_, by simp⟩
      rw [← h.2, List.cons_append, List.take_append_drop]

/-- The errors of the length reader are decode errors. -/
theorem parseLength_error (a : Bytes) (err : Error) (h : parseLength a = .error err) :
    err.isDecodeError = true := by
  cases a with
  | nil =>
    simp only [parseLength, Except.error.injEq] at h
    rw [← h]
    rfl
  | cons b rest =>
    simp only [parseLength] at h
    split_ifs at h <;> simp only [Except.error.injEq] at h <;> rw [← h] <;> rfl

/-- The length reader on a truncated encoding: it fails, or it returns the declared
length and fewer bytes than declared. -/
theorem parseLength_truncated (v : Bytes) (j : Nat)
    (hj : j < (marshalASN1Length v.length).length + v.length) :
    parseLength ((marshalASN1Length v.length ++ v).take j) = .error .decodeTruncated ∨
    ∃ body, parseLength ((marshalASN1Length v.length ++ v).take j) = .ok (v.length, body) ∧
      body.length < v.length := by
  by_cases hL : (marshalASN1Length v.length).length ≤ j
  · right
    refine ⟨v.take (j - (marshalASN1Length v.length).length), ?_, ?_⟩
    · rw [List.take_append_eq_append_take, List.take_of_length_le hL,
        parseLength_marshalASN1Length]
    · rw [List.length_take]
      omega
  · left
    have hlt : j < (marshalASN1Length v.length).length := by omega
    rw [List.take_append_of_le_length (by omega)]
    unfold marshalASN1Length at hlt ⊢
    split_ifs at hlt ⊢
    · have hzero : j = 0 := by simpa using hlt
      subst hzero
      rfl
    · cases j with
      | zero => rfl
      | succ i =>
        have hi : i < (lengthDigits v.length).length := by simpa using hlt
        have h1 : ¬ (0x80 + (lengthDigits v.length).length < 0x80) := by omega
        have h2 : ¬ (0x80 + (lengthDigits v.length).length = 0x80) := by omega
        have h3 : (List.take i (lengthDigits v.length)).length
            < 0x80 + (lengthDigits v.length).length - 0x80 := by
          rw [List.length_take]
          omega
        simp only [List.take_succ_cons, parseLength, h1, h2, h3, if_false, if_true]

/-- The decoder on a truncated encoding: every proper prefix of a TLV is refused as
truncated. -/
theorem unmarshalASN1_truncated (ident : Nat) (v : Bytes) (cls tag k : Nat)
    (hform : ident % 32 ≠ 31) (hk : k < (marshalASN1 ident v).length) :
    unmarshalASN1 ((marshalASN1 ident v).take k) cls tag = .error .decodeTruncated := by
  unfold marshalASN1 at hk ⊢
  cases k with
  | zero => rfl
  | succ j =>
    have hj : j < (marshalASN1Length v.length).length + v.length := by
      simpa using hk
    simp only [List.take_succ_cons, unmarshalASN1, hform, if_false]
    rcases parseLength_truncated v j hj with h | ⟨body, h, hlen⟩
    · rw [h]
    · rw [h]
      simp [hlen]

/-- The decoder on any input: the value and the rest are parts of the input, after a
header of at least two octets, or the error is a decode error. -/
theorem unmarshalASN1_total (b : Bytes) (cls tag : Nat) :
    (∃ v rest header, unmarshalASN1 b cls tag = .ok (v, rest) ∧
      b = header ++ v ++ rest ∧ 2 ≤ header.length) ∨
    (∃ err, unmarshalASN1 b cls tag = .error err ∧ err.isDecodeError = true) := by
  cases b with
  | nil => exact Or.inr ⟨_, rfl, rfl⟩
  | cons ident afterIdent =>
    by_cases hform : ident % 32 = 31
    · exact Or.inr ⟨.decodeIdentifier, by simp [unmarshalASN1, hform], rfl⟩
    · cases hlen : parseLength afterIdent with
      | error err =>
        exact Or.inr ⟨err, by simp [unmarshalASN1, hform, hlen],
          parseLength_error afterIdent err hlen⟩
      | ok res =>
        obtain ⟨n, body⟩ := res
        obtain ⟨lo, hsplit, hlo⟩ := parseLength_ok_split afterIdent n body hlen
        by_cases hshort : body.length < n
        · exact Or.inr ⟨.decodeTruncated, by simp [unmarshalASN1, hform, hlen, hshort], rfl⟩
        · by_cases htag : ident / 64 ≠ cls ∨ ident % 32 ≠ tag
          · refine Or.inr ⟨.unexpectedTag (ident / 64) (ident % 32), ?_, rfl⟩
            simp only [unmarshalASN1, hform, hlen, hshort, if_false]
            rw [if_pos htag]
          · refine Or.inl ⟨body.take n, body.drop n, ident :: lo, ?_, ?_, ?_⟩
            · simp only [unmarshalASN1, hform, hlen, hshort, if_false]
              rw [if_neg htag]
            · rw [hsplit]
              simp [List.take_append_drop]
            · simp only [List.length_cons]
              omega

/-- C23: the TLV decoder used on card responses is total and safe on arbitrary bytes.
For every input it returns either a value and a rest, both parts of the input after a
header of at least two octets, or a decode error.  It returns a decode error whenever
the input is truncated (fewer than two octets, or a proper prefix of a TLV), whenever
the class or the tag number of the identifier octet differs from the expected one, and
whenever the declared length exceeds the remaining bytes.  The decoder is a function
defined without recursion over a length reader that reads its input once: it takes no
byte outside the input and it ends on every input. -/
theorem C23_unmarshalASN1_total_and_safe (cls tag : Nat) :
    (∀ b : Bytes,
      (∃ v rest header, unmarshalASN1 b cls tag = .ok (v, rest) ∧
        b = header ++ v ++ rest ∧ 2 ≤ header.length) ∨
      (∃ err, unmarshalASN1 b cls tag = .error err ∧ err.isDecodeError = true)) ∧
    (∀ b : Bytes, b.length < 2 → ∃ err, unmarshalASN1 b cls tag = .error err) ∧
    (∀ (ident : Nat) (v : Bytes) (k : Nat), ident % 32 ≠ 31 →
      k < (marshalASN1 ident v).length →
      unmarshalASN1 ((marshalASN1 ident v).take k) cls tag = .error .decodeTruncated) ∧
    (∀ (ident : Nat) (rest : Bytes), ident / 64 ≠ cls ∨ ident % 32 ≠ tag →
      ∃ err, unmarshalASN1 (ident :: rest) cls tag = .error err) ∧
    (∀ (ident : Nat) (afterIdent body : Bytes) (n : Nat),
      parseLength afterIdent = .ok (n, body) → body.length < n →
      ∃ err, unmarshalASN1 (ident :: afterIdent) cls tag = .error err) := by
  refine ⟨fun b => unmarshalASN1_total b cls tag, ?_, ?_, ?_, ?_⟩
  · intro b hb
    rcases unmarshalASN1_total b cls tag with ⟨v, rest, header, _, hsplit, hheader⟩ | ⟨err, h, _⟩
    · have hlen := congrArg List.length hsplit
      simp only [List.length_append] at hlen
      omega
    · exact ⟨err, h⟩
  · intro ident v k hform hk
    exact unmarshalASN1_truncated ident v cls tag k hform hk
  · intro ident rest htag
    exact unmarshalASN1_other_tag ident rest cls tag htag
  · intro ident afterIdent body n hlen hshort
    by_cases hform : ident % 32 = 31
    · exact ⟨.decodeIdentifier, by simp [unmarshalASN1, hform]⟩
    · exact ⟨.decodeTruncated, by simp [unmarshalASN1, hform, hlen, hshort]⟩

/-- C23, at a sample: the TLV 7C 03 82 01 AA cut after four bytes, the same TLV asked
for under the tag 0x82, and a TLV that declares five bytes and holds one. -/
theorem C23_unmarshalASN1_total_and_safe_witness :
    unmarshalASN1 ((marshalASN1 0x7c [0x82, 0x01, 0xaa]).take 4) 1 0x1c
      = .error .decodeTruncated ∧
    (∃ err, unmarshalASN1 (0x7c :: [0x03, 0x82, 0x01, 0xaa]) 2 0x02 = .error err) ∧
    (∃ err, unmarshalASN1 (0x7c :: [0x05, 0x82]) 1 0x1c = .error err) :=
  ⟨(C23_unmarshalASN1_total_and_safe 1 0x1c).2.2.1 0x7c [0x82, 0x01, 0xaa] 4
      (by decide) (by decide),
   (C23_unmarshalASN1_total_and_safe 2 0x02).2.2.2.1 0x7c [0x03, 0x82, 0x01, 0xaa]
      (Or.inl (by decide)),
   (C23_unmarshalASN1_total_and_safe 1 0x1c).2.2.2.2 0x7c [0x05, 0x82] [0x82] 5
      rfl (by decide)⟩

/-! ## The round trip of a signature -/

/-- The card of the samples holds its key for every algorithm in every slot. -/
theorem signingCard_signsWith (sign : Bytes → Bytes → Bytes) (secret : Bytes)
    (alg slotByte : Nat) :
    CardSignsWith (signingCard sign secret) sign secret alg slotByte := by
  intro history cmd hins _ _
  simp [signingCard, hins]

/-- The exchange of `ykSign` with a card that holds the key. -/
theorem ykSign_with_card (sign : Bytes → Bytes → Bytes) (secret : Bytes) (tx : scTx)
    (slot : Slot) (alg : Nat) (challenge : Bytes)
    (hcard : CardSignsWith tx.card sign secret alg (slot.Key % 256)) :
    (ykSign tx slot alg challenge).1 = .ok (sign secret challenge) := by
  have hanswer := hcard tx.sent
    { instruction := insAuthenticate, param1 := alg, param2 := slot.Key % 256,
      data := marshalASN1 0x7c ([0x82, 0x00] ++ marshalASN1 0x81 challenge) } rfl rfl rfl
  rw [cardSignature_command sign secret challenge _ rfl] at hanswer
  unfold ykSign
  simp only [scTx.Transmit, hanswer]
  exact decodeSharedSecret_marshal _

/-- C22: the round trip of a signature.  For every key with public key P held by the
card in a slot (the card answers the AUTHENTICATE commands for the algorithm and the
slot with the signature its private key makes) and every digest or message, once the
authorization gate has let the call through, the `Sign` of the handle returns the
signature the card made, and that signature verifies against P with the verifier of
the scheme whenever the signatures of that private key do: for an EC key on P-256 or
P-384, whose signature is the ASN.1 DER encoding of (R, S); for an RSA key of 1024,
2048, 3072 or 4096 bits with the PKCS#1 v1.5 padding and with the PSS padding; and for an
Ed25519 key. -/
theorem C22_signature_roundtrip (yk : YubiKey) (sign : Bytes → Bytes → Bytes)
    (secret : Bytes) :
    (∀ (k : ECDSAPrivateKey) (verify : ecdh.PublicKey → Bytes → Bytes → Bool) (alg : Nat)
        (digest : Bytes),
      ecAlgorithm k.pub.Curve = some alg →
      CardSignsWith yk.tx.card sign secret alg (k.slot.Key % 256) →
      (k.auth.authTx yk k.pp).1 = .ok () →
      verify k.pub digest (sign secret digest) = true →
      ∃ signature, (k.Sign yk digest).1 = .ok signature ∧
        verify k.pub digest signature = true) ∧
    (∀ (k : keyRSA) (pad : Bool → Nat → Nat → Bytes → Except Error Bytes)
        (verify : RSASignerOpts → rsa.PublicKey → Bytes → Bytes → Bool) (alg : Nat)
        (digest padded : Bytes) (opts : RSASignerOpts),
      rsaAlgorithm (bitLen k.pub.N) = some alg →
      CardSignsWith yk.tx.card sign secret alg (k.slot.Key % 256) →
      (k.auth.authTx yk k.pp).1 = .ok () →
      pad opts.pss opts.hash (bitLen k.pub.N) digest = .ok padded →
      verify opts k.pub digest (sign secret padded) = true →
      ∃ signature, (k.Sign pad yk digest opts).1 = .ok signature ∧
        verify opts k.pub digest signature = true) ∧
    (∀ (k : keyEd25519) (verify : Bytes → Bytes → Bytes → Bool) (message : Bytes),
      CardSigns yk.tx.card sign secret (k.slot.Key % 256) →
      (k.auth.authTx yk k.pp).1 = .ok () →
      verify k.pub message (sign secret message) = true →
      ∃ signature, (k.Sign yk message { hash := 0, context := "" }).1 = .ok signature ∧
        verify k.pub message signature = true) := by
  refine ⟨?_, ?_, ?_⟩
  · intro k verify alg digest halg hcard hgate hverify
    refine ⟨sign secret digest, ?_, hverify⟩
    have hcard2 : CardSignsWith (k.auth.authTx yk k.pp).2.tx.card sign secret alg
        (k.slot.Key % 256) := by
      rw [authTx_card]
      exact hcard
    unfold ECDSAPrivateKey.Sign
    rw [do_gate_ok _ _ _ _ hgate]
    simp only [halg]
    exact ykSign_with_card sign secret _ k.slot alg digest hcard2
  · intro k pad verify alg digest padded opts halg hcard hgate hpad hverify
    refine ⟨sign secret padded, ?_, hverify⟩
    have hcard2 : CardSignsWith (k.auth.authTx yk k.pp).2.tx.card sign secret alg
        (k.slot.Key % 256) := by
      rw [authTx_card]
      exact hcard
    unfold keyRSA.Sign
    rw [do_gate_ok _ _ _ _ hgate]
    simp only [halg, hpad]
    exact ykSign_with_card sign secret _ k.slot alg padded hcard2
  · intro k verify message hcard hgate hverify
    refine ⟨sign secret message, ?_, hverify⟩
    have hcard2 : CardSigns (k.auth.authTx yk k.pp).2.tx.card sign secret
        (k.slot.Key % 256) := by
      rw [authTx_card]
      exact hcard
    have hres := ykSignEd25519_with_card sign secret (k.auth.authTx yk k.pp).2.tx k.slot
      message hcard2
    unfold keyEd25519.Sign
    simp only [ne_eq, not_true_eq_false, if_false]
    rw [do_gate_ok _ _ _ _ hgate, hres]

set_option maxRecDepth 100000 in
/-- C22, at a sample: a card that holds the key `sampleSeed`, with the stand-in
signature: an EC key on P-256 signs a digest, an RSA key of 1024 bits signs it with
either padding under the hash function 5 (`crypto.SHA256`), and an Ed25519 key signs the
message "hello", as in the tests `TestYubiKeySignECDSA`, `TestYubiKeySignRSA`,
`TestYubiKeySignRSAPSS` and `TestYubiKeySignEd25519`. -/
theorem C22_signature_roundtrip_witness :
    (∃ signature, (sampleECSigner.Sign ykSigning sampleDigest).1 = .ok signature ∧
      sampleVerify sampleECSigner.pub.Bytes sampleDigest signature = true) ∧
    (∃ signature,
      (sampleRSAHandle.Sign samplePad ykSigning sampleDigest { hash := 5, pss := false }).1
        = .ok signature ∧
      sampleRSAVerify { hash := 5, pss := false } sampleRSAHandle.pub sampleDigest signature
        = true) ∧
    (∃ signature,
      (sampleRSAHandle.Sign samplePad ykSigning sampleDigest { hash := 5, pss := true }).1
        = .ok signature ∧
      sampleRSAVerify { hash := 5, pss := true } sampleRSAHandle.pub sampleDigest signature
        = true) ∧
    (∃ signature,
      (sampleEd25519.Sign ykSigning sampleMessage { hash := 0, context := "" }).1
        = .ok signature ∧
      sampleVerify sampleEd25519.pub sampleMessage signature = true) :=
  have h := C22_signature_roundtrip ykSigning sampleSign sampleSeed
  have hbits : rsaAlgorithm (bitLen sampleRSAHandle.pub.N) = some algRSA1024 := by decide
  ⟨h.1 sampleECSigner (fun pub digest signature => sampleVerify pub.Bytes digest signature)
      algECCP256 sampleDigest rfl (signingCard_signsWith sampleSign sampleSeed _ _) rfl rfl,
   h.2.1 sampleRSAHandle samplePad sampleRSAVerify algRSA1024 sampleDigest
      (0 :: 5 :: sampleDigest) { hash := 5, pss := false } hbits
      (signingCard_signsWith sampleSign sampleSeed _ _) rfl rfl (by decide),
   h.2.1 sampleRSAHandle samplePad sampleRSAVerify algRSA1024 sampleDigest
      (1 :: 5 :: sampleDigest) { hash := 5, pss := true } hbits
      (signingCard_signsWith sampleSign sampleSeed _ _) rfl rfl (by decide),
   h.2.2 sampleEd25519 sampleVerify sampleMessage
      (signingCard_signs sampleSign sampleSeed _) rfl rfl⟩

end piv
